import Mathlib

/-!
# C2SoftAvcDec: work queue, pending table and decode loop

A shallow embedding of `media/libstagefright/codecs/avcdec/C2SoftAvcDec.cpp`.

* The component's member variables form the record `State`; every member
  function is a function on `State`.
* The decode engine (`ivdec_api_function`), the block allocator and `memalign`
  are external.  Their answers are supplied as a script (`Env`); the calls the
  component issues are recorded in `State.calls`.
* The listener (`mListener->onWorkDone`) is external; the items handed to it are
  recorded, in order, in `State.delivered`.
* Dereferencing an empty `unique_ptr`/`shared_ptr` or a null codec handle ends
  the run with a `Crash` that names the dereference and keeps the state reached
  so far.
* Enumerators that live in headers outside this file (`ivd.h`, `C2Work.h`,
  `ColorUtils.h`) are the fields of `Consts`.
-/

namespace C2SoftAvcDec

/-- Enumerators used by the code whose values come from other headers. -/
structure Consts where
  BUFFERFLAG_END_OF_STREAM : Nat
  IVD_STREAM_WIDTH_HEIGHT_NOT_SUPPORTED : Nat
  IVD_MEM_ALLOC_FAILED : Nat
  IVD_RES_CHANGED : Nat
  RangeUnspecified : Nat
  PrimariesUnspecified : Nat
  TransferUnspecified : Nat
  MatrixUnspecified : Nat
deriving DecidableEq, Repr

/-- Status codes that the functions of this file return or store. -/
inductive status_t where
  | C2_OK
  | C2_CORRUPTED
  | C2_UNSUPPORTED
  | C2_TIMED_OUT
  | OK
  | UNKNOWN_ERROR
deriving DecidableEq, Repr

/-- The record `ColorAspects`: four enumerated fields, kept as numbers. -/
structure ColorAspects where
  mRange : Nat
  mPrimaries : Nat
  mTransfer : Nat
  mMatrixCoeffs : Nat
deriving DecidableEq, Repr

/-- A graphic block as far as this file looks at it: its width and height. -/
structure C2GraphicBlock where
  width : Nat
  height : Nat
deriving DecidableEq, Repr

/-- A work item.  `frame_index` is `input.ordinal.frame_index` (64 bits),
`capacity` the capacity of the first linear block of `input.buffers[0]`;
`outputBuffers` and `outputOrdinal` belong to `worklets.front()->output`.  An
output buffer is a `GraphicBuffer`, which shares the block it was built from.
Every item has the input buffer, the worklet and the allocator that `process`
reaches for without checking, and mapping a block succeeds. -/
structure C2Work where
  frame_index : Nat
  flags : Nat
  capacity : Nat
  result : status_t
  outputBuffers : List C2GraphicBlock
  outputOrdinal : Nat
deriving DecidableEq, Repr

/-- Where the three output planes of a decode request point: not filled in,
the planes of a mapped block, or three offsets into `mFlushOutBuffer` (`size` is
the allocated size, `none` for a null buffer). -/
inductive OutPlanes where
  | unset
  | view (block : C2GraphicBlock)
  | flushBuffer (size : Option Nat) (off0 off1 off2 : Nat)
deriving DecidableEq, Repr

/-- The fields of `ivd_video_decode_ip_t` that `setDecodeArgs` fills.
`pv_stream_buffer` is `none` for `NULL` and `some off` for input data plus `off`. -/
structure ivd_video_decode_ip_t where
  u4_ts : Nat
  pv_stream_buffer : Option Nat
  u4_num_Bytes : Nat
  u4_min_out_buf_size : Nat × Nat × Nat
  pu1_bufs : OutPlanes
deriving DecidableEq, Repr

/-- The fields of `ivd_video_decode_op_t` that the code reads (all 32-bit). -/
structure ivd_video_decode_op_t where
  u4_error_code : Nat
  u4_num_bytes_consumed : Nat
  u4_frame_decoded_flag : Nat
  u4_output_present : Nat
  u4_pic_wd : Nat
  u4_pic_ht : Nat
  u4_ts : Nat
deriving DecidableEq, Repr

/-- A call that the component issues to the engine or to the block allocator. -/
inductive Call where
  | create
  | delete
  | decode (ip : ivd_video_decode_ip_t)
  | setParams (stride : Nat)
  | setNumCores
  | getVersion
  | setFlushMode
  | reset
  | getVuiParams
  | allocateGraphicBlock (width height : Nat)
deriving DecidableEq, Repr

/-- The table `mPendingWork`: a `std::map` from 32-bit index to a work pointer,
kept as a list in increasing key order.  A value `none` is an empty pointer. -/
abbrev PendingMap := List (Nat × Option C2Work)

/-- The member variables of the component, with the listener's received items
(`delivered`) and the issued calls (`calls`) alongside.  `mRunning` is
`mThread->isRunning()`, `mCodecCtx` says whether the codec handle is non-null,
`mFlushOutBuffer` is the size of the flush buffer while one is allocated.  The
pointers in `mQueue` are never empty (clients enqueue work they own); those in
`mPendingWork` can be. -/
structure State where
  mRunning : Bool
  mQueue : List C2Work
  mPendingWork : PendingMap
  mCodecCtx : Bool
  mFlushOutBuffer : Option Nat
  mChangingResolution : Bool
  mSignalledError : Bool
  mIsInFlush : Bool
  mReceivedEOS : Bool
  mFlushNeeded : Bool
  mUpdateColorAspects : Bool
  mWidth : Nat
  mHeight : Nat
  mStride : Nat
  mInputOffset : Nat
  mAllocatedBlock : Option C2GraphicBlock
  mBitstreamColorAspects : ColorAspects
  mDefaultColorAspects : ColorAspects
  mFinalColorAspects : ColorAspects
  delivered : List C2Work
  calls : List Call
deriving DecidableEq, Repr

/-! ## Work queue -/

/-- The loop of `queue_nb`: move the front of `items` to the back of the queue
until `items` is empty.  Returns the queue and what is left of `items`. -/
def queue_nb.loop : List C2Work → List C2Work → List C2Work × List C2Work
  | q, [] => (q, [])
  | q, w :: rest => queue_nb.loop (q ++ [w]) rest

/-- Method `C2SoftAvcDec::queue_nb`: returns the status, the new state and the
caller's list afterwards. -/
def queue_nb (s : State) (items : List C2Work) : status_t × State × List C2Work :=
  if !s.mRunning then
    (status_t.C2_CORRUPTED, s, items)
  else
    let r := queue_nb.loop s.mQueue items
    (status_t.C2_OK, { s with mQueue := r.1 }, r.2)

/-- The first loop of `flush_sm`: move every queued item to the back of
`flushedWork`. -/
def flush_sm.drainQueue : List C2Work → List (Option C2Work) →
    List C2Work × List (Option C2Work)
  | [], out => ([], out)
  | w :: rest, out => flush_sm.drainQueue rest (out ++ [some w])

/-- The second loop of `flush_sm`: move the pointer of every table entry, in
key order, to the back of `flushedWork`. -/
def flush_sm.drainPending : PendingMap → List (Option C2Work) → List (Option C2Work)
  | [], out => out
  | e :: rest, out => flush_sm.drainPending rest (out ++ [e.2])

/-- Method `C2SoftAvcDec::flush_sm`: returns the status, the new state and the
caller's `flushedWork` afterwards. -/
def flush_sm (s : State) (flushedWork : List (Option C2Work)) :
    status_t × State × List (Option C2Work) :=
  if !s.mRunning then
    (status_t.C2_CORRUPTED, s, flushedWork)
  else
    let r := flush_sm.drainQueue s.mQueue flushedWork
    let out := flush_sm.drainPending s.mPendingWork r.2
    (status_t.C2_OK, { s with mQueue := r.1, mPendingWork := [] }, out)

/-- The assignment to `mQueue.back()->input.flags` in `drain_nb`. -/
def drain_nb.markLast (K : Consts) : List C2Work → List C2Work
  | [] => []
  | [w] => [{ w with flags := w.flags ||| K.BUFFERFLAG_END_OF_STREAM }]
  | w :: v :: rest => w :: drain_nb.markLast K (v :: rest)

/-- Method `C2SoftAvcDec::drain_nb`. -/
def drain_nb (K : Consts) (s : State) : status_t × State :=
  if !s.mRunning then
    (status_t.C2_CORRUPTED, s)
  else if !s.mQueue.isEmpty then
    (status_t.C2_OK, { s with mQueue := drain_nb.markLast K s.mQueue })
  else
    (status_t.C2_OK, s)

/-! ## Color aspects -/

/-- Method `C2SoftAvcDec::colorAspectsDiffer`. -/
def colorAspectsDiffer (a b : ColorAspects) : Bool :=
  if a.mRange != b.mRange
      || a.mPrimaries != b.mPrimaries
      || a.mTransfer != b.mTransfer
      || a.mMatrixCoeffs != b.mMatrixCoeffs then
    true
  else
    false

/-- The local `newAspects` of `updateFinalColorAspects`. -/
def updateFinalColorAspects.newAspects (K : Consts)
    (otherAspects preferredAspects : ColorAspects) : ColorAspects :=
  { mRange :=
      if preferredAspects.mRange != K.RangeUnspecified then
        preferredAspects.mRange else otherAspects.mRange
    mPrimaries :=
      if preferredAspects.mPrimaries != K.PrimariesUnspecified then
        preferredAspects.mPrimaries else otherAspects.mPrimaries
    mTransfer :=
      if preferredAspects.mTransfer != K.TransferUnspecified then
        preferredAspects.mTransfer else otherAspects.mTransfer
    mMatrixCoeffs :=
      if preferredAspects.mMatrixCoeffs != K.MatrixUnspecified then
        preferredAspects.mMatrixCoeffs else otherAspects.mMatrixCoeffs }

/-- Method `C2SoftAvcDec::updateFinalColorAspects`. -/
def updateFinalColorAspects (K : Consts) (s : State)
    (otherAspects preferredAspects : ColorAspects) : State :=
  let newAspects := updateFinalColorAspects.newAspects K otherAspects preferredAspects
  if colorAspectsDiffer s.mFinalColorAspects newAspects then
    { s with mFinalColorAspects := newAspects, mUpdateColorAspects := true }
  else
    s

/-- Method `C2SoftAvcDec::handleColorAspectsChange`. -/
def handleColorAspectsChange (K : Consts) (s : State) : State :=
  updateFinalColorAspects K s s.mDefaultColorAspects s.mBitstreamColorAspects

/-! ## Pending table -/

/-- The pointer that `mPendingWork[k]` refers to: the stored pointer, or the
empty pointer that `operator[]` inserts when the key is absent. -/
def PendingMap.slot : PendingMap → Nat → Option C2Work
  | [], _ => none
  | (k', v) :: rest, k =>
    if k < k' then none
    else if k = k' then v
    else PendingMap.slot rest k

/-- The table after `mPendingWork[k]` has been made to hold `v` (the entry is
created in key order when absent). -/
def PendingMap.assign : PendingMap → Nat → Option C2Work → PendingMap
  | [], k, v => [(k, v)]
  | (k', v') :: rest, k, v =>
    if k < k' then (k, v) :: (k', v') :: rest
    else if k = k' then (k, v) :: rest
    else (k', v') :: PendingMap.assign rest k v

/-- The work items that the table holds (its non-empty pointers), in key order. -/
def PendingMap.items (m : PendingMap) : List C2Work :=
  m.filterMap Prod.snd

/-! ## Engine script and abnormal ends -/

/-- The dereference that ended a run, or `stalled` when the engine script ran
out while a loop was still asking for answers. -/
inductive Fault where
  | nullWork
  | nullPending
  | nullBlock
  | nullCodecCtx
  | stalled
deriving DecidableEq, Repr

/-- An abnormal end: what happened and the state reached at that point. -/
structure Crash where
  fault : Fault
  state : State
deriving DecidableEq, Repr

/-- The answers of the engine during one pass through the loop body of
`process`: the decode answer, the answer of `getVUIParams` (`none` for a failed
call, otherwise the aspects as converted by `ColorUtils`), and whether a reset
call succeeds. -/
structure EngineStep where
  op : ivd_video_decode_op_t
  vui : Option ColorAspects
  resetOk : Bool
deriving DecidableEq, Repr

/-- The answers of the outside world during one `processQueue` iteration. -/
structure Env where
  createOk : Bool
  createHandle : Bool
  deleteOk : Bool
  block : Option C2GraphicBlock
  flushBufferOk : Bool
  flushSteps : List ivd_video_decode_op_t
  steps : List EngineStep
deriving DecidableEq, Repr

/-- How a block of code was left: by running off its end or by `return`. -/
inductive Exit where
  | fallThrough
  | returned
deriving DecidableEq, Repr

/-- Record a call to the engine or the allocator. -/
def State.call (s : State) (c : Call) : State :=
  { s with calls := s.calls ++ [c] }

/-- The call `mListener->onWorkDone` with a one-element vector holding `w`. -/
def State.onWorkDone (s : State) (w : C2Work) : State :=
  { s with delivered := s.delivered ++ [w] }

/-! ## Engine control -/

/-- Method `C2SoftAvcDec::setParams` (its status is never looked at). -/
def setParams (s : State) (stride : Nat) : State :=
  s.call (Call.setParams (stride % 2 ^ 32))

/-- Method `C2SoftAvcDec::resetPlugin`. -/
def resetPlugin (s : State) : State :=
  { s with mReceivedEOS := false, mInputOffset := 0 }

/-- Method `C2SoftAvcDec::setNumCores`. -/
def setNumCores (s : State) : State :=
  s.call Call.setNumCores

/-- Method `C2SoftAvcDec::resetDecoder`; `ok` says whether the engine reports success. -/
def resetDecoder (s : State) (ok : Bool) : State :=
  let s := s.call Call.reset
  if !ok then
    s
  else
    let s := { s with mSignalledError := false }
    let s := setNumCores s
    { s with mStride := 0 }

/-- Method `C2SoftAvcDec::setFlushMode` (its status is never looked at). -/
def setFlushMode (s : State) : State :=
  s.call Call.setFlushMode

/-- Method `C2SoftAvcDec::deInitDecoder`. -/
def deInitDecoder (s : State) (deleteOk : Bool) : State × status_t :=
  if s.mCodecCtx then
    let s := s.call Call.delete
    if !deleteOk then
      (s, status_t.UNKNOWN_ERROR)
    else
      ({ s with mChangingResolution := false }, status_t.OK)
  else
    ({ s with mChangingResolution := false }, status_t.OK)

/-- Lines 1019-1033 of `initDecoder`: what follows a successful create call. -/
def initDecoder.configure (s : State) : State :=
  let s := resetPlugin s
  let s := setParams s s.mStride
  let s := setNumCores s
  let s := s.call Call.getVersion
  { s with mFlushNeeded := false }

/-- Method `C2SoftAvcDec::initDecoder`.  `createOk` says whether the create call
reports success, `createHandle` whether the `pv_handle` it returns is non-null.
The handle is stored in `mCodecCtx` and written through (`mCodecCtx->pv_fxns`)
before the status is looked at. -/
def initDecoder (s : State) (createOk createHandle deleteOk : Bool) :
    Except Crash (State × status_t) :=
  let s := { s with mCodecCtx := false }
  let s := { s with mStride := s.mWidth }
  let s := s.call Call.create
  let s := { s with mCodecCtx := createHandle }
  if !createHandle then
    Except.error ⟨Fault.nullCodecCtx, s⟩
  else if !createOk then
    let s := (deInitDecoder s deleteOk).1
    Except.ok ({ s with mCodecCtx := false }, status_t.UNKNOWN_ERROR)
  else
    Except.ok (initDecoder.configure s, status_t.OK)

/-- Method `C2SoftAvcDec::getVUIParams`. -/
def getVUIParams (K : Consts) (s : State) (vui : Option ColorAspects) : State :=
  let s := s.call Call.getVuiParams
  match vui with
  | none => s
  | some colorAspects =>
    if colorAspectsDiffer colorAspects s.mBitstreamColorAspects then
      handleColorAspectsChange K { s with mBitstreamColorAspects := colorAspects }
    else
      s

/-- Method `C2SoftAvcDec::setDecodeArgs`.  `inBuffer` is the capacity of the input
view (`none` for `NULL`), `outBuffer` the mapped block (`none` for `NULL`).
`size_t` is 64 bits wide; the fields of the request are 32 bits wide. -/
def setDecodeArgs (s : State) (inBuffer : Option Nat) (outBuffer : Option C2GraphicBlock)
    (workIndex inOffset : Nat) : Bool × ivd_video_decode_ip_t :=
  let width := s.mWidth
  let height := s.mHeight
  let sizeY := width * height % 2 ^ 64
  let ip : ivd_video_decode_ip_t :=
    match inBuffer with
    | some capacity =>
      { u4_ts := workIndex
        pv_stream_buffer := some inOffset
        u4_num_Bytes := (capacity + (2 ^ 32 - inOffset % 2 ^ 32)) % 2 ^ 32
        u4_min_out_buf_size := (0, 0, 0)
        pu1_bufs := OutPlanes.unset }
    | none =>
      { u4_ts := 0
        pv_stream_buffer := none
        u4_num_Bytes := 0
        u4_min_out_buf_size := (0, 0, 0)
        pu1_bufs := OutPlanes.unset }
  let sizeUV := sizeY / 4
  let ip := { ip with u4_min_out_buf_size := (sizeY % 2 ^ 32, sizeUV % 2 ^ 32, sizeUV % 2 ^ 32) }
  match outBuffer with
  | some out =>
    if out.width < width || out.height < height then
      (false, ip)
    else
      (true, { ip with pu1_bufs := OutPlanes.view out })
  | none =>
    (true, { ip with pu1_bufs :=
      OutPlanes.flushBuffer s.mFlushOutBuffer 0 sizeY ((sizeY + sizeUV) % 2 ^ 64) })

/-! ## Decoding one work item -/

/-- Lines 1300-1317 of `process`: the picture size that the engine reports
replaces the current one (and the held block is released) when it differs;
when no picture size is reported, a pending color-aspect update is consumed and
`process` returns. -/
def process.signals (op : ivd_video_decode_op_t) (s : State) : Exit × State :=
  if 0 < op.u4_pic_wd && 0 < op.u4_pic_ht then
    let width := op.u4_pic_wd
    let height := op.u4_pic_ht
    if width != s.mWidth || height != s.mHeight then
      (Exit.fallThrough,
        { s with mAllocatedBlock := none, mWidth := width, mHeight := height })
    else
      (Exit.fallThrough, s)
  else if s.mUpdateColorAspects then
    (Exit.returned, { s with mUpdateColorAspects := false })
  else
    (Exit.fallThrough, s)

/-- Lines 1319-1349 of `process`: with output present the pointer under
`mPendingWork[u4_ts]` is moved out (leaving the slot empty), given a buffer that
shares the held block as its only output buffer and its input ordinal as output
ordinal, and handed to the listener; without output, flush mode is left.  The
constructor of `GraphicBuffer` takes the block pointer by const reference and
dereferences it: `mAllocatedBlock` keeps the block, and an empty
`mAllocatedBlock` ends the run. -/
def process.output (op : ivd_video_decode_op_t) (s : State) : Except Crash State :=
  if op.u4_output_present != 0 then
    let moved := PendingMap.slot s.mPendingWork op.u4_ts
    let s := { s with mPendingWork := PendingMap.assign s.mPendingWork op.u4_ts none }
    match moved with
    | none => Except.error ⟨Fault.nullPending, s⟩
    | some w =>
      let w := { w with outputBuffers := [] }
      match s.mAllocatedBlock with
      | none => Except.error ⟨Fault.nullBlock, s⟩
      | some block =>
        let w := { w with outputBuffers := w.outputBuffers ++ [block] }
        let w := { w with outputOrdinal := w.frame_index }
        Except.ok (s.onWorkDone w)
  else if s.mIsInFlush then
    let s := { s with mIsInFlush := false }
    if s.mReceivedEOS then
      Except.ok (resetPlugin s)
    else
      Except.ok s
  else
    Except.ok s

/-- Lines 1258-1271 of `process`: after a decode call without fatal error the
VUI parameters are fetched and `mFlushNeeded` is set once a frame was decoded. -/
def process.decoded (K : Consts) (e : EngineStep) (s : State) : State :=
  let s := getVUIParams K s e.vui
  if e.op.u4_frame_decoded_flag != 0 && !s.mFlushNeeded then
    { s with mFlushNeeded := true }
  else s

/-- Lines 1282-1287 of `process`: the reset that completes a resolution change. -/
def process.completeChange (e : EngineStep) (s : State) : State :=
  let s := { s with mChangingResolution := false }
  let s := resetDecoder s e.resetOk
  let s := resetPlugin s
  let s := { s with mStride := s.mWidth }
  setParams s s.mStride

/-- Lines 1292-1296 of `process`: the engine signalled a resolution change. -/
def process.beginChange (s : State) : State :=
  let s := { s with mChangingResolution := true }
  if s.mFlushNeeded then setFlushMode s else s

/-- The body of the `while` loop of `process` up to, not including,
`inOffset += u4_num_bytes_consumed`. -/
def process.step (K : Consts) (work : C2Work) (output : C2GraphicBlock) (workIndex : Nat)
    (e : EngineStep) (inOffset : Nat) (s : State) : Except Crash (Exit × State) :=
  let args := setDecodeArgs s (some work.capacity) (some output) workIndex inOffset
  if !args.1 then
    Except.ok (Exit.returned, { s with mSignalledError := true })
  else
    let s := s.call (Call.decode args.2)
    let unsupportedResolution :=
      K.IVD_STREAM_WIDTH_HEIGHT_NOT_SUPPORTED == (e.op.u4_error_code &&& 0xFF)
    if unsupportedResolution then
      Except.ok (Exit.returned, { s with mSignalledError := true })
    else
      let allocationFailed := K.IVD_MEM_ALLOC_FAILED == (e.op.u4_error_code &&& 0xFF)
      if allocationFailed then
        Except.ok (Exit.returned, { s with mSignalledError := true })
      else
        let resChanged := K.IVD_RES_CHANGED == (e.op.u4_error_code &&& 0xFF)
        let s := process.decoded K e s
        if s.mChangingResolution && e.op.u4_output_present == 0 then
          Except.ok (Exit.returned, process.completeChange e s)
        else if resChanged then
          Except.ok (Exit.returned, process.beginChange s)
        else
          match process.signals e.op s with
          | (Exit.returned, s) => Except.ok (Exit.returned, s)
          | (Exit.fallThrough, s) =>
            match process.output e.op s with
            | Except.error c => Except.error c
            | Except.ok s => Except.ok (Exit.fallThrough, s)

/-- The `while (inOffset < input.capacity())` loop of `process`.  Each pass
takes the next answers from the script; the run is `stalled` when the script is
used up while the loop condition still holds. -/
def process.loop (K : Consts) (work : C2Work) (output : C2GraphicBlock) (workIndex : Nat) :
    List EngineStep → Nat → State → Except Crash (Exit × State)
  | [], inOffset, s =>
    if inOffset < work.capacity then Except.error ⟨Fault.stalled, s⟩
    else Except.ok (Exit.fallThrough, s)
  | e :: rest, inOffset, s =>
    if inOffset < work.capacity then
      match process.step K work output workIndex e inOffset s with
      | Except.error c => Except.error c
      | Except.ok (Exit.returned, s) => Except.ok (Exit.returned, s)
      | Except.ok (Exit.fallThrough, s) =>
        process.loop K work output workIndex rest
          ((inOffset + e.op.u4_num_bytes_consumed) % 2 ^ 64) s
    else
      Except.ok (Exit.fallThrough, s)

/-- Lines 1166-1173 of `process`: create the decoder when there is none. -/
def process.ensureDecoder (env : Env) (s : State) : Except Crash (State × status_t) :=
  if !s.mCodecCtx then initDecoder s env.createOk env.createHandle env.deleteOk
  else Except.ok (s, status_t.OK)

/-- Lines 1174-1178 of `process`: re-apply the stride when it is not the width. -/
def process.syncStride (s : State) : State :=
  if s.mWidth != s.mStride then
    let s := { s with mStride := s.mWidth }
    setParams s s.mStride
  else s

/-- Lines 1194-1196 of `process`: note an end-of-stream flag on the input. -/
def process.noteEOS (K : Consts) (work : C2Work) (s : State) : State :=
  if work.flags &&& K.BUFFERFLAG_END_OF_STREAM != 0 then
    { s with mReceivedEOS := true }
  else s

/-- Lines 1202-1210 of `process`: allocate an output block when none is held. -/
def process.ensureBlock (env : Env) (s : State) : State :=
  if s.mAllocatedBlock.isNone then
    let s := s.call (Call.allocateGraphicBlock s.mWidth s.mHeight)
    { s with mAllocatedBlock := env.block }
  else s

/-- Lines 1358-1360 of `process`: after the loop, enter flush mode on EOS. -/
def process.afterLoop (s : State) : State :=
  if s.mReceivedEOS && !s.mIsInFlush then setFlushMode s else s

/-- Lines 1174-1361 of `process`: what follows once a decoder exists. -/
def process.decode (K : Consts) (env : Env) (s : State) (work : C2Work) :
    Except Crash (State × Option C2Work) :=
  let s := process.syncStride s
  if work.capacity == 0 then
    let s := s.onWorkDone work
    -- `work` is empty after the move; `work->input.flags` dereferences it
    Except.error ⟨Fault.nullWork, s⟩
  else
    let s := process.noteEOS K work s
    let workIndex := work.frame_index &&& 0xFFFFFFFF
    let s := process.ensureBlock env s
    match s.mAllocatedBlock with
    | none => Except.error ⟨Fault.nullBlock, s⟩
    | some output =>
      match process.loop K work output workIndex env.steps 0 s with
      | Except.error c => Except.error c
      | Except.ok (Exit.returned, s) => Except.ok (s, some work)
      | Except.ok (Exit.fallThrough, s) => Except.ok (process.afterLoop s, some work)

/-- Method `C2SoftAvcDec::process`.  The result carries the state and the
caller's `work` pointer afterwards (`none` once it has been moved from). -/
def process (K : Consts) (env : Env) (s : State) (work : C2Work) :
    Except Crash (State × Option C2Work) :=
  if s.mSignalledError then
    Except.ok (s, some work)
  else
    match process.ensureDecoder env s with
    | Except.error c => Except.error c
    | Except.ok r =>
      if r.2 != status_t.OK then
        Except.ok ({ r.1 with mSignalledError := true }, some work)
      else
        process.decode K env r.1 work

/-! ## The worker iteration -/

/-- The `while (true)` loop of the flush branch of `processQueue`. -/
def processQueue.flushLoop : List ivd_video_decode_op_t → State → Except Crash State
  | [], s => Except.error ⟨Fault.stalled, s⟩
  | op :: rest, s =>
    let args := setDecodeArgs s none none 0 0
    let s := s.call (Call.decode args.2)
    if 0 == op.u4_output_present then
      Except.ok (resetPlugin s)
    else
      processQueue.flushLoop rest s

/-- The size `displayStride * displayHeight * 3 / 2` of the flush buffer, in
32-bit unsigned arithmetic. -/
def processQueue.bufferSize (s : State) : Nat :=
  let displayStride := s.mWidth
  let displayHeight := s.mHeight
  (displayStride * displayHeight % 2 ^ 32) * 3 % 2 ^ 32 / 2

/-- The `if (mIsInFlush)` block at the head of `processQueue`;
`env.flushBufferOk` says whether `memalign` returns a buffer. -/
def processQueue.flush (env : Env) (s : State) : Except Crash (Exit × State) :=
  if s.mIsInFlush then
    let s := setFlushMode s
    let bufferSize := processQueue.bufferSize s
    if !env.flushBufferOk then
      Except.ok (Exit.returned, { s with mFlushOutBuffer := none })
    else
      let s := { s with mFlushOutBuffer := some bufferSize }
      match processQueue.flushLoop env.flushSteps s with
      | Except.error c => Except.error c
      | Except.ok s =>
        let s := if s.mFlushOutBuffer.isSome then { s with mFlushOutBuffer := none } else s
        Except.ok (Exit.fallThrough, { s with mIsInFlush := false })
  else
    Except.ok (Exit.fallThrough, s)

/-- Lines 811-825 of `processQueue`: swap `work` into `mPendingWork[index]`;
what comes out of the slot, when not empty, gets the result `C2_CORRUPTED` and
is handed to the listener. -/
def processQueue.registerWork (s : State) (work : Option C2Work) : Except Crash State :=
  match work with
  | none => Except.error ⟨Fault.nullWork, s⟩
  | some w =>
    let index := w.frame_index % 2 ^ 32
    let swapped := PendingMap.slot s.mPendingWork index
    let s := { s with mPendingWork := PendingMap.assign s.mPendingWork index (some w) }
    match swapped with
    | some old => Except.ok (s.onWorkDone { old with result := status_t.C2_CORRUPTED })
    | none => Except.ok s

/-- Lines 794-826 of `processQueue`: take the front of the queue, process it
and register it.  With the queue still empty after the wait on `mQueueCond`,
`processQueue` returns. -/
def processQueue.dequeue (K : Consts) (env : Env) (s : State) : Except Crash State :=
  match s.mQueue with
  | [] => Except.ok s
  | work :: rest =>
    let s := { s with mQueue := rest }
    match process K env s work with
    | Except.error c => Except.error c
    | Except.ok (s, work) => processQueue.registerWork s work

/-- Method `C2SoftAvcDec::processQueue`: one iteration of the worker thread. -/
def processQueue (K : Consts) (env : Env) (s : State) : Except Crash State :=
  match processQueue.flush env s with
  | Except.error c => Except.error c
  | Except.ok (Exit.returned, s) => Except.ok s
  | Except.ok (Exit.fallThrough, s) => processQueue.dequeue K env s

/-! ## Worked examples: values and states -/

/-- A choice of enumerator values for the worked examples: pairwise distinct,
non-zero engine codes, one flag bit, and zero as every "unspecified" value.
The theorems over all `Consts` do not depend on it. -/
def Consts.sample : Consts :=
  { BUFFERFLAG_END_OF_STREAM := 4
    IVD_STREAM_WIDTH_HEIGHT_NOT_SUPPORTED := 0x11
    IVD_MEM_ALLOC_FAILED := 0x2b
    IVD_RES_CHANGED := 0x2a
    RangeUnspecified := 0
    PrimariesUnspecified := 0
    TransferUnspecified := 0
    MatrixUnspecified := 0 }

/-- The state that the constructor builds (`mCodecCtx(NULL)`, `mWidth(320)`,
`mHeight(240)`, no error, empty containers); members that its initialiser list
does not mention are taken as `false` and `0`. -/
def State.constructed : State :=
  { mRunning := false, mQueue := [], mPendingWork := [], mCodecCtx := false
    mFlushOutBuffer := none, mChangingResolution := false, mSignalledError := false
    mIsInFlush := false, mReceivedEOS := false, mFlushNeeded := false
    mUpdateColorAspects := false, mWidth := 320, mHeight := 240, mStride := 0
    mInputOffset := 0, mAllocatedBlock := none
    mBitstreamColorAspects := ⟨0, 0, 0, 0⟩, mDefaultColorAspects := ⟨0, 0, 0, 0⟩
    mFinalColorAspects := ⟨0, 0, 0, 0⟩, delivered := [], calls := [] }

/-- The constructed component once `start()` has run and the worker thread has
set `mRunning`. -/
def State.started : State :=
  { State.constructed with mRunning := true }

/-- A fresh work item with the given frame index, input capacity and flags. -/
def C2Work.fresh (frame_index capacity flags : Nat) : C2Work :=
  { frame_index := frame_index, flags := flags, capacity := capacity
    result := status_t.C2_OK, outputBuffers := [], outputOrdinal := 0 }

/-- A decode answer without error code that reports a 320x240 picture. -/
def sampleOp (consumed present ts : Nat) : ivd_video_decode_op_t :=
  { u4_error_code := 0, u4_num_bytes_consumed := consumed, u4_frame_decoded_flag := 1
    u4_output_present := present, u4_pic_wd := 320, u4_pic_ht := 240, u4_ts := ts }

/-- An outside world in which creation, allocation (of a 320x240 block) and
`memalign` succeed, and the engine gives the listed answers to `process`. -/
def sampleEnv (ops : List ivd_video_decode_op_t) : Env :=
  { createOk := true, createHandle := true, deleteOk := true, block := some ⟨320, 240⟩
    flushBufferOk := true, flushSteps := [], steps := ops.map fun op => ⟨op, none, true⟩ }

/-! ## The pipeline with its callers -/

/-- The keys of the table are strictly increasing, as in every `std::map`. -/
def PendingMap.ordered (m : PendingMap) : Prop :=
  (m.map Prod.fst).Pairwise (· < ·)

/-- The component together with what its callers hold: everything that
`flush_sm` has handed back so far (`flushed`), and the items that `queue_nb`
has taken over so far (`enqueued`). -/
structure Sys where
  dec : State
  flushed : List (Option C2Work)
  enqueued : List C2Work
deriving DecidableEq, Repr

/-- An operation on the pipeline: a call from a client thread or one iteration
of the worker thread with the answers of the outside world. -/
inductive Op where
  | queue_nb (items : List C2Work)
  | flush_sm
  | drain_nb
  | processQueue (env : Env)
deriving DecidableEq, Repr

/-- Run one operation.  The items that `queue_nb` moved out of the caller's list
count as enqueued. -/
def Sys.step (K : Consts) (sys : Sys) : Op → Except Crash Sys
  | Op.queue_nb items =>
    let r := queue_nb sys.dec items
    Except.ok
      { dec := r.2.1
        flushed := sys.flushed
        enqueued := sys.enqueued ++ items.take (items.length - r.2.2.length) }
  | Op.flush_sm =>
    let r := flush_sm sys.dec sys.flushed
    Except.ok { dec := r.2.1, flushed := r.2.2, enqueued := sys.enqueued }
  | Op.drain_nb =>
    Except.ok { sys with dec := (drain_nb K sys.dec).2 }
  | Op.processQueue env =>
    match processQueue K env sys.dec with
    | Except.error c => Except.error c
    | Except.ok s => Except.ok { sys with dec := s }

/-- The frame indexes of the items in the four places an item can be: the work
queue, the Pending Table, the listener, and the flush outputs. -/
def Sys.places (sys : Sys) : List Nat :=
  (sys.dec.mQueue ++ sys.dec.mPendingWork.items ++ sys.dec.delivered
    ++ sys.flushed.filterMap id).map C2Work.frame_index

/-- The states of the pipeline that can be reached from a component with empty
containers by operations that run to their end. -/
inductive Reachable (K : Consts) : Sys → Prop where
  | init (s : State) (hq : s.mQueue = []) (hp : s.mPendingWork = [])
      (hd : s.delivered = []) : Reachable K ⟨s, [], []⟩
  | step (sys : Sys) (op : Op) (sys' : Sys) (h : Reachable K sys)
      (hstep : Sys.step K sys op = Except.ok sys') : Reachable K sys'

/-- The second state keeps the thread flag and the queue of the first, holds the
same items in table and listener taken together, and keeps the table ordered. -/
def Conserves (s s' : State) : Prop :=
  s'.mRunning = s.mRunning ∧ s'.mQueue = s.mQueue ∧
  ((s'.mPendingWork.items ++ s'.delivered).map C2Work.frame_index).Perm
    ((s.mPendingWork.items ++ s.delivered).map C2Work.frame_index) ∧
  (s.mPendingWork.ordered → s'.mPendingWork.ordered)

/-- The second state has the thread flag, queue, table and listener of the first. -/
def SameWork (s s' : State) : Prop :=
  s'.mRunning = s.mRunning ∧ s'.mQueue = s.mQueue ∧
  s'.mPendingWork = s.mPendingWork ∧ s'.delivered = s.delivered

/-- Run a list of operations, stopping at the first abnormal end. -/
def Sys.run (K : Consts) : Sys → List Op → Except Crash Sys
  | sys, [] => Except.ok sys
  | sys, op :: rest =>
    match Sys.step K sys op with
    | Except.error c => Except.error c
    | Except.ok sys' => Sys.run K sys' rest

/-- The state in which a run ended, normally or not. -/
def Sys.outcome (r : Except Crash Sys) : Sys :=
  match r with
  | Except.ok sys => sys
  | Except.error c => ⟨c.state, [], []⟩

/-- Worked example: two items are enqueued; the first is decoded without
output, the second produces the output that belongs to the first; the client
then drains and flushes. -/
def sampleOps : List Op :=
  [ Op.queue_nb [C2Work.fresh 1 10 0, C2Work.fresh 2 10 0],
    Op.processQueue (sampleEnv [sampleOp 10 0 0]),
    Op.processQueue (sampleEnv [sampleOp 10 1 1]),
    Op.drain_nb,
    Op.flush_sm ]

/-- The pipeline after the operations of `sampleOps`. -/
def Sys.sample : Sys :=
  Sys.outcome (Sys.run Consts.sample ⟨State.started, [], []⟩ sampleOps)

/-- Worked example: the component after the first two operations of
`sampleOps`; item 1 is in the Pending Table, item 2 at the front of the queue. -/
def State.sampleInFlight : State :=
  { State.started with
    mQueue := [C2Work.fresh 2 10 0]
    mPendingWork := [(1, some (C2Work.fresh 1 10 0))]
    mCodecCtx := true
    mFlushNeeded := true
    mStride := 320
    mAllocatedBlock := some ⟨320, 240⟩
    calls := [Call.create, Call.setParams 320, Call.setNumCores, Call.getVersion,
      Call.allocateGraphicBlock 320 240,
      Call.decode ⟨1, some 0, 10, (76800, 19200, 19200), OutPlanes.view ⟨320, 240⟩⟩,
      Call.getVuiParams] }

/-- Worked example: `State.sampleInFlight` after `process` has run on the item
at the front of its queue (frame index `ts`, END_OF_STREAM set or not) with one
decode step that yields no output. -/
def State.sampleProcessed (ts : Nat) (eos : Bool) : State :=
  { State.sampleInFlight with
    mQueue := []
    mReceivedEOS := eos
    calls := State.sampleInFlight.calls ++
      [Call.decode ⟨ts, some 0, 10, (76800, 19200, 19200), OutPlanes.view ⟨320, 240⟩⟩,
        Call.getVuiParams] ++ (if eos then [Call.setFlushMode] else []) }

/-- Worked example: `State.sampleInFlight` with, at the front of the queue, a
second item whose frame index is 1 as well. -/
def State.sampleDuplicate : State :=
  { State.sampleInFlight with mQueue := [C2Work.fresh 1 10 4] }

/-! ## Stopping the component -/

/-- Method `C2SoftAvcDec::stop`.  `exits` says whether the worker thread leaves
its loop (and clears `mRunning`) before the 500 ms deadline, `resetOk` whether
the engine reports success for the reset call.  The exit request itself lives in
the thread object and is read by no function of this file. -/
def stop (s : State) (exits resetOk : Bool) : status_t × State :=
  let s := if s.mRunning && exits then { s with mRunning := false } else s
  if s.mRunning then
    (status_t.C2_TIMED_OUT, s)
  else
    let s := { s with mSignalledError := false }
    let s := resetDecoder s resetOk
    let s := resetPlugin s
    (status_t.C2_OK, s)

/-- Method `C2SoftAvcDec::reset` (and, with the same body, `release`). -/
def reset (s : State) (exits resetOk : Bool) : State :=
  if s.mRunning then (stop s exits resetOk).2 else s

/-- The state in which a worker iteration ended, normally or not. -/
def finalState (r : Except Crash State) : State :=
  match r with
  | Except.ok s => s
  | Except.error c => c.state

/-- The state in which a pass through the loop body (or the loop) of `process`
ended, normally or not. -/
def exitState (r : Except Crash (Exit × State)) : State :=
  match r with
  | Except.ok (_, s) => s
  | Except.error c => c.state

/-- Whether a call is a decode request with a non-null input pointer. -/
def Call.carriesInput : Call → Bool
  | Call.decode ip => ip.pv_stream_buffer.isSome
  | _ => false

/-- Worked example: a decode answer that signals a resolution change (to
640x480) and nothing else: no bytes consumed, no frame decoded, no output. -/
def sampleResChange : ivd_video_decode_op_t :=
  { u4_error_code := Consts.sample.IVD_RES_CHANGED, u4_num_bytes_consumed := 0
    u4_frame_decoded_flag := 0, u4_output_present := 0
    u4_pic_wd := 640, u4_pic_ht := 480, u4_ts := 0 }

/-- Worked example: `State.sampleInFlight` after the engine has signalled a
resolution change while item 2 was being decoded: the change is in progress,
item 2 has joined item 1 in the Pending Table, the 320x240 block is still held. -/
def State.sampleChanging : State :=
  { State.sampleInFlight with
    mQueue := []
    mPendingWork := [(1, some (C2Work.fresh 1 10 0)), (2, some (C2Work.fresh 2 10 0))]
    mChangingResolution := true
    calls := State.sampleInFlight.calls ++
      [Call.decode ⟨2, some 0, 10, (76800, 19200, 19200), OutPlanes.view ⟨320, 240⟩⟩,
        Call.getVuiParams, Call.setFlushMode] }

/-- Worked example: the running component after a fatal engine code. -/
def State.sampleFailed : State :=
  { State.sampleInFlight with mSignalledError := true }

/-- Worked example: `State.sampleInFlight` with every field of the default
color aspects specified. -/
def State.sampleWithDefaults : State :=
  { State.sampleInFlight with mDefaultColorAspects := ⟨1, 2, 3, 4⟩ }

/-- Worked example: `sampleEnv` with one engine step whose VUI query reports the
given aspects. -/
def sampleVuiEnv (op : ivd_video_decode_op_t) (vui : ColorAspects) : Env :=
  { sampleEnv [] with steps := [⟨op, some vui, true⟩] }

/-- Worked example: `State.sampleInFlight` after item 2 has been decoded in one
step in which the engine reported color aspects (5, 6, 7, 8) for the first time:
the final record has been replaced and the update is pending. -/
def State.samplePendingUpdate : State :=
  { State.sampleInFlight with
    mQueue := []
    mPendingWork := [(1, some (C2Work.fresh 1 10 0)), (2, some (C2Work.fresh 2 10 0))]
    mUpdateColorAspects := true
    mBitstreamColorAspects := ⟨5, 6, 7, 8⟩
    mFinalColorAspects := ⟨5, 6, 7, 8⟩
    calls := State.sampleInFlight.calls ++
      [Call.decode ⟨2, some 0, 10, (76800, 19200, 19200), OutPlanes.view ⟨320, 240⟩⟩,
        Call.getVuiParams] }

/-- Worked example: a decode answer without error code that consumes 5 bytes and
reports a 640x480 picture. -/
def sampleLargerPicture : ivd_video_decode_op_t :=
  { sampleOp 5 0 0 with u4_pic_wd := 640, u4_pic_ht := 480 }

/-- Worked example: `State.sampleInFlight` (item 2 taken from the queue) after a
decode step has reported a 640x480 picture: the geometry is replaced and the
320x240 block released, while the loop of `process` goes on with the view it
mapped before. -/
def State.sampleResized : State :=
  { State.sampleInFlight with
    mQueue := []
    mWidth := 640
    mHeight := 480
    mAllocatedBlock := none
    calls := State.sampleInFlight.calls ++
      [Call.decode ⟨2, some 0, 10, (76800, 19200, 19200), OutPlanes.view ⟨320, 240⟩⟩,
        Call.getVuiParams] }

/-- The timestamp `u4_ts` of a decode request; other calls carry none. -/
def Call.timestamp : Call → Option Nat
  | Call.decode ip => some ip.u4_ts
  | _ => none

/-- The timestamps of the decode requests issued so far, in order. -/
def State.timestamps (s : State) : List Nat :=
  s.calls.filterMap Call.timestamp

/-- The state in which lines 1166-1173 of `process` ended, normally or not. -/
def process.decoderState (r : Except Crash (State × status_t)) : State :=
  match r with
  | Except.ok (s, _) => s
  | Except.error c => c.state

/-- The state in which a call of `process` ended, normally or not. -/
def process.endState (r : Except Crash (State × Option C2Work)) : State :=
  match r with
  | Except.ok (s, _) => s
  | Except.error c => c.state

/-- Whether a call is a control call to the engine: everything but decode
requests and block allocations. -/
def Call.isControl : Call → Bool
  | Call.decode _ => false
  | Call.allocateGraphicBlock _ _ => false
  | _ => true

/-- The request of a decode call. -/
def Call.request : Call → Option ivd_video_decode_ip_t
  | Call.decode ip => some ip
  | _ => none

/-- The decode requests issued so far, in order. -/
def State.requests (s : State) : List ivd_video_decode_ip_t :=
  s.calls.filterMap Call.request

/-- The width and height of a block allocation. -/
def Call.allocation : Call → Option (Nat × Nat)
  | Call.allocateGraphicBlock width height => some (width, height)
  | _ => none

/-- The block allocations requested so far, in order. -/
def State.allocations (s : State) : List (Nat × Nat) :=
  s.calls.filterMap Call.allocation

/-- Worked example: `sampleEnv` with an allocator that returns a 640x480 block. -/
def sampleLargeEnv (ops : List ivd_video_decode_op_t) : Env :=
  { sampleEnv ops with block := some ⟨640, 480⟩ }

/-- Worked example: a decode answer without error code that consumes 10 bytes
and reports a 640x480 picture. -/
def sampleResizingPicture : ivd_video_decode_op_t :=
  { sampleOp 10 0 0 with u4_pic_wd := 640, u4_pic_ht := 480 }

/-- Worked example: `State.sampleInFlight` after a worker iteration in which the
engine consumed the 10 bytes of item 2 in one step and reported a 640x480
picture: the geometry is replaced, the 320x240 block released, and item 2 has
joined item 1 in the Pending Table. -/
def State.sampleAfterResize : State :=
  { State.sampleInFlight with
    mQueue := []
    mPendingWork := [(1, some (C2Work.fresh 1 10 0)), (2, some (C2Work.fresh 2 10 0))]
    mWidth := 640
    mHeight := 480
    mAllocatedBlock := none
    calls := State.sampleInFlight.calls ++
      [Call.decode ⟨2, some 0, 10, (76800, 19200, 19200), OutPlanes.view ⟨320, 240⟩⟩,
        Call.getVuiParams] }

/-! # Properties -/

/-! ## Work queue: enqueue, flush, drain -/

theorem queue_nb.loop_eq (q items : List C2Work) :
    queue_nb.loop q items = (q ++ items, []) := by
  induction items generalizing q with
  | nil => simp [queue_nb.loop]
  | cons w rest ih => simp [queue_nb.loop, ih]

theorem flush_sm.drainQueue_eq (q : List C2Work) (out : List (Option C2Work)) :
    flush_sm.drainQueue q out = ([], out ++ q.map some) := by
  induction q generalizing out with
  | nil => simp [flush_sm.drainQueue]
  | cons w rest ih => simp [flush_sm.drainQueue, ih]

theorem flush_sm.drainPending_eq (m : PendingMap) (out : List (Option C2Work)) :
    flush_sm.drainPending m out = out ++ m.map Prod.snd := by
  induction m generalizing out with
  | nil => simp [flush_sm.drainPending]
  | cons e rest ih => simp [flush_sm.drainPending, ih]

theorem drain_nb.markLast_append (K : Consts) (front : List C2Work) (last : C2Work) :
    drain_nb.markLast K (front ++ [last])
      = front ++ [{ last with flags := last.flags ||| K.BUFFERFLAG_END_OF_STREAM }] := by
  induction front with
  | nil => simp [drain_nb.markLast]
  | cons w rest ih =>
    cases rest with
    | nil => simp [drain_nb.markLast]
    | cons v rest =>
      simp only [List.cons_append] at ih ⊢
      simp [drain_nb.markLast, ih]

/-- C1: when the worker is running, `queue_nb` returns `C2_OK`, the queue
afterwards is the old queue followed by the given items in their order, the
caller's list is left empty, and no other member changes. -/
theorem queue_nb_running_appends (s : State) (items : List C2Work)
    (hrun : s.mRunning = true) :
    queue_nb s items = (status_t.C2_OK, { s with mQueue := s.mQueue ++ items }, []) := by
  simp [queue_nb, hrun, queue_nb.loop_eq]

theorem queue_nb_running_appends_witness :
    State.started.mRunning = true ∧
    queue_nb State.started [C2Work.fresh 1 10 0, C2Work.fresh 2 20 4]
      = (status_t.C2_OK,
          { State.started with
            mQueue := State.started.mQueue ++ [C2Work.fresh 1 10 0, C2Work.fresh 2 20 4] },
          []) :=
  ⟨rfl, queue_nb_running_appends State.started _ rfl⟩

/-- C4: when the worker thread is not running, `queue_nb`, `flush_sm` and
`drain_nb` each return `C2_CORRUPTED` and leave the state (queue and Pending
Table included), the caller's item list and the caller's flushed-work output as
they were. -/
theorem not_running_is_rejected (K : Consts) (s : State) (items : List C2Work)
    (flushedWork : List (Option C2Work)) (hrun : s.mRunning = false) :
    queue_nb s items = (status_t.C2_CORRUPTED, s, items) ∧
    flush_sm s flushedWork = (status_t.C2_CORRUPTED, s, flushedWork) ∧
    drain_nb K s = (status_t.C2_CORRUPTED, s) := by
  simp [queue_nb, flush_sm, drain_nb, hrun]

theorem not_running_is_rejected_witness :
    State.constructed.mRunning = false ∧
    queue_nb State.constructed [C2Work.fresh 1 10 0]
      = (status_t.C2_CORRUPTED, State.constructed, [C2Work.fresh 1 10 0]) ∧
    flush_sm State.constructed [some (C2Work.fresh 9 1 0)]
      = (status_t.C2_CORRUPTED, State.constructed, [some (C2Work.fresh 9 1 0)]) ∧
    drain_nb Consts.sample State.constructed = (status_t.C2_CORRUPTED, State.constructed) :=
  ⟨rfl, not_running_is_rejected Consts.sample State.constructed _ _ rfl⟩

/-- C5: when the worker is running, `drain_nb` returns `C2_OK`; on an empty
queue it changes nothing; on a queue `front ++ [last]` it replaces only the
flags of `last` by `flags | BUFFERFLAG_END_OF_STREAM`, so that the flag is set,
every other flag bit of `last` is as before, and the queue's length and order,
the other items and every other member are unchanged. -/
theorem drain_nb_marks_last_only (K : Consts) (s : State) (hrun : s.mRunning = true) :
    (s.mQueue = [] → drain_nb K s = (status_t.C2_OK, s)) ∧
    (∀ front last, s.mQueue = front ++ [last] →
      drain_nb K s = (status_t.C2_OK,
        { s with mQueue :=
            front ++ [{ last with flags := last.flags ||| K.BUFFERFLAG_END_OF_STREAM }] }) ∧
      (last.flags ||| K.BUFFERFLAG_END_OF_STREAM) &&& K.BUFFERFLAG_END_OF_STREAM
        = K.BUFFERFLAG_END_OF_STREAM ∧
      ∀ i, K.BUFFERFLAG_END_OF_STREAM.testBit i = false →
        (last.flags ||| K.BUFFERFLAG_END_OF_STREAM).testBit i = last.flags.testBit i) := by
  refine ⟨fun hq => ?_, fun front last hq => ⟨?_, ?_, ?_⟩⟩
  · simp [drain_nb, hrun, hq]
  · simp [drain_nb, hrun, hq, drain_nb.markLast_append]
  · apply Nat.eq_of_testBit_eq
    intro i
    simp only [Nat.testBit_and, Nat.testBit_or]
    cases last.flags.testBit i <;> cases K.BUFFERFLAG_END_OF_STREAM.testBit i <;> rfl
  · intro i hi
    simp [Nat.testBit_or, hi]

theorem drain_nb_marks_last_only_witness :
    State.sampleInFlight.mRunning = true ∧
    (State.sampleInFlight.mQueue = [] →
      drain_nb Consts.sample State.sampleInFlight = (status_t.C2_OK, State.sampleInFlight)) ∧
    (∀ front last, State.sampleInFlight.mQueue = front ++ [last] →
      drain_nb Consts.sample State.sampleInFlight = (status_t.C2_OK,
        { State.sampleInFlight with mQueue :=
            front ++ [{ last with
              flags := last.flags ||| Consts.sample.BUFFERFLAG_END_OF_STREAM }] }) ∧
      (last.flags ||| Consts.sample.BUFFERFLAG_END_OF_STREAM)
          &&& Consts.sample.BUFFERFLAG_END_OF_STREAM
        = Consts.sample.BUFFERFLAG_END_OF_STREAM ∧
      ∀ i, Consts.sample.BUFFERFLAG_END_OF_STREAM.testBit i = false →
        (last.flags ||| Consts.sample.BUFFERFLAG_END_OF_STREAM).testBit i
          = last.flags.testBit i) :=
  ⟨rfl, drain_nb_marks_last_only Consts.sample State.sampleInFlight rfl⟩

/-! ## Color aspects -/

theorem colorAspectsDiffer_eq_false_iff (a b : ColorAspects) :
    colorAspectsDiffer a b = false ↔ a = b := by
  cases a
  cases b
  simp only [colorAspectsDiffer, bne_iff_ne, ne_eq, Bool.or_eq_true, decide_eq_true_eq,
    ColorAspects.mk.injEq]
  constructor
  · intro h
    by_contra hne
    rw [if_pos (by tauto)] at h
    exact absurd h (by simp)
  · rintro ⟨h1, h2, h3, h4⟩
    simp [h1, h2, h3, h4]

/-- C10: for every pair of aspect records, the record that
`updateFinalColorAspects` computes (and leaves in `mFinalColorAspects`) has, for
each of range, primaries, transfer and matrix coefficients on its own, the
preferred record's value when that value is not the field's Unspecified value,
and the other record's value otherwise. -/
theorem updateFinalColorAspects_prefers (K : Consts) (s : State)
    (other preferred : ColorAspects) :
    (updateFinalColorAspects K s other preferred).mFinalColorAspects
      = updateFinalColorAspects.newAspects K other preferred ∧
    (updateFinalColorAspects.newAspects K other preferred).mRange
      = (if preferred.mRange ≠ K.RangeUnspecified then preferred.mRange
          else other.mRange) ∧
    (updateFinalColorAspects.newAspects K other preferred).mPrimaries
      = (if preferred.mPrimaries ≠ K.PrimariesUnspecified then preferred.mPrimaries
          else other.mPrimaries) ∧
    (updateFinalColorAspects.newAspects K other preferred).mTransfer
      = (if preferred.mTransfer ≠ K.TransferUnspecified then preferred.mTransfer
          else other.mTransfer) ∧
    (updateFinalColorAspects.newAspects K other preferred).mMatrixCoeffs
      = (if preferred.mMatrixCoeffs ≠ K.MatrixUnspecified then preferred.mMatrixCoeffs
          else other.mMatrixCoeffs) := by
  refine ⟨?_, ?_, ?_, ?_, ?_⟩
  · unfold updateFinalColorAspects
    by_cases h : colorAspectsDiffer s.mFinalColorAspects
        (updateFinalColorAspects.newAspects K other preferred) = true
    · simp [h]
    · simp only [h]
      exact (colorAspectsDiffer_eq_false_iff _ _).1 (by simpa using h)
  all_goals simp [updateFinalColorAspects.newAspects]

/-! ## Pending table -/

theorem PendingMap.items_cons (k : Nat) (v : Option C2Work) (m : PendingMap) :
    PendingMap.items ((k, v) :: m) = v.toList ++ PendingMap.items m := by
  cases v <;> simp [PendingMap.items]

theorem PendingMap.slot_assign_self (m : PendingMap) (k : Nat) (v : Option C2Work) :
    PendingMap.slot (PendingMap.assign m k v) k = v := by
  induction m with
  | nil => simp [PendingMap.assign, PendingMap.slot]
  | cons e rest ih =>
    obtain ⟨k', v'⟩ := e
    by_cases h1 : k < k'
    · simp [PendingMap.assign, PendingMap.slot, h1]
    · by_cases h2 : k = k'
      · simp [PendingMap.assign, PendingMap.slot, h2]
      · simp [PendingMap.assign, PendingMap.slot, h1, h2, ih]

theorem PendingMap.items_assign_perm (m : PendingMap) (k : Nat) (v : Option C2Work) :
    ((PendingMap.assign m k v).items ++ (PendingMap.slot m k).toList).Perm
      (v.toList ++ m.items) := by
  induction m with
  | nil =>
    simp only [PendingMap.assign, PendingMap.slot, PendingMap.items_cons, Option.toList,
      List.append_nil]
    exact List.Perm.refl _
  | cons e rest ih =>
    obtain ⟨k', v'⟩ := e
    by_cases h1 : k < k'
    · simp [PendingMap.assign, PendingMap.slot, h1, PendingMap.items_cons]
    · by_cases h2 : k = k'
      · subst h2
        simp only [PendingMap.assign, PendingMap.slot, lt_self_iff_false, if_false, if_true,
          PendingMap.items_cons]
        rw [List.append_assoc]
        exact List.Perm.append_left _ List.perm_append_comm
      · simp only [PendingMap.assign, PendingMap.slot, h1, h2, if_false,
          PendingMap.items_cons]
        rw [List.append_assoc]
        refine (List.Perm.append_left _ ih).trans ?_
        rw [← List.append_assoc, ← List.append_assoc]
        exact List.Perm.append_right _ List.perm_append_comm

theorem PendingMap.mem_keys_assign (m : PendingMap) (k : Nat) (v : Option C2Work) (x : Nat)
    (hx : x ∈ (PendingMap.assign m k v).map Prod.fst) : x = k ∨ x ∈ m.map Prod.fst := by
  induction m with
  | nil => simpa [PendingMap.assign] using hx
  | cons e rest ih =>
    obtain ⟨k', v'⟩ := e
    by_cases h1 : k < k'
    · simp only [PendingMap.assign, h1, if_true, List.map_cons, List.mem_cons] at hx ⊢
      tauto
    · by_cases h2 : k = k'
      · subst h2
        simp only [PendingMap.assign, lt_self_iff_false, if_false, if_true, List.map_cons,
          List.mem_cons] at hx ⊢
        tauto
      · simp only [PendingMap.assign, h1, h2, if_false, List.map_cons, List.mem_cons] at hx ⊢
        rcases hx with hx | hx
        · exact Or.inr (Or.inl hx)
        · rcases ih hx with h | h
          · exact Or.inl h
          · exact Or.inr (Or.inr h)

theorem PendingMap.ordered_assign (m : PendingMap) (k : Nat) (v : Option C2Work)
    (hm : m.ordered) : (PendingMap.assign m k v).ordered := by
  induction m with
  | nil => simp [PendingMap.assign, PendingMap.ordered]
  | cons e rest ih =>
    obtain ⟨k', v'⟩ := e
    have hm' := hm
    simp only [PendingMap.ordered, List.map_cons, List.pairwise_cons] at hm'
    by_cases h1 : k < k'
    · simp only [PendingMap.assign, h1, if_true, PendingMap.ordered, List.map_cons,
        List.pairwise_cons]
      refine ⟨?_, hm'⟩
      intro x hx
      rcases List.mem_cons.1 hx with hx | hx
      · exact hx ▸ h1
      · exact lt_trans h1 (hm'.1 x hx)
    · by_cases h2 : k = k'
      · subst h2
        simpa [PendingMap.assign, PendingMap.ordered] using hm'
      · simp only [PendingMap.assign, h1, h2, if_false, PendingMap.ordered, List.map_cons,
          List.pairwise_cons]
        refine ⟨?_, ih hm'.2⟩
        intro x hx
        rcases PendingMap.mem_keys_assign rest k v x hx with h | h
        · subst h
          omega
        · exact hm'.1 x h

theorem PendingMap.mem_keys_assign_self (m : PendingMap) (k : Nat) (v : Option C2Work) :
    k ∈ (PendingMap.assign m k v).map Prod.fst := by
  induction m with
  | nil => simp [PendingMap.assign]
  | cons e rest ih =>
    obtain ⟨k', v'⟩ := e
    by_cases h1 : k < k'
    · simp [PendingMap.assign, h1]
    · by_cases h2 : k = k'
      · simp [PendingMap.assign, h2]
      · simp only [PendingMap.assign, h1, h2, if_false, List.map_cons, List.mem_cons]
        exact Or.inr ih

theorem PendingMap.count_key_assign (m : PendingMap) (k : Nat) (v : Option C2Work)
    (hm : m.ordered) : ((PendingMap.assign m k v).map Prod.fst).count k = 1 := by
  have hnd : ((PendingMap.assign m k v).map Prod.fst).Nodup :=
    (PendingMap.ordered_assign m k v hm).imp (fun h => Nat.ne_of_lt h)
  exact List.count_eq_one_of_mem hnd (PendingMap.mem_keys_assign_self m k v)

/-! ## What the decode path does to queue, table and listener -/

theorem sameWork_refl (s : State) : SameWork s s :=
  ⟨rfl, rfl, rfl, rfl⟩

theorem sameWork_trans {a b c : State} (h1 : SameWork a b) (h2 : SameWork b c) :
    SameWork a c :=
  ⟨h2.1.trans h1.1, h2.2.1.trans h1.2.1, h2.2.2.1.trans h1.2.2.1, h2.2.2.2.trans h1.2.2.2⟩

theorem conserves_of_sameWork {a b : State} (h : SameWork a b) : Conserves a b := by
  obtain ⟨h1, h2, h3, h4⟩ := h
  refine ⟨h1, h2, ?_, ?_⟩
  · rw [h3, h4]
  · rw [h3]
    exact id

theorem conserves_refl (s : State) : Conserves s s :=
  conserves_of_sameWork (sameWork_refl s)

theorem conserves_trans {a b c : State} (h1 : Conserves a b) (h2 : Conserves b c) :
    Conserves a c :=
  ⟨h2.1.trans h1.1, h2.2.1.trans h1.2.1, h2.2.2.1.trans h1.2.2.1,
    fun h => h2.2.2.2 (h1.2.2.2 h)⟩

theorem sameWork_call (s : State) (c : Call) : SameWork s (s.call c) :=
  ⟨rfl, rfl, rfl, rfl⟩

theorem sameWork_setParams (s : State) (stride : Nat) : SameWork s (setParams s stride) :=
  ⟨rfl, rfl, rfl, rfl⟩

theorem sameWork_resetPlugin (s : State) : SameWork s (resetPlugin s) :=
  ⟨rfl, rfl, rfl, rfl⟩

theorem sameWork_setFlushMode (s : State) : SameWork s (setFlushMode s) :=
  ⟨rfl, rfl, rfl, rfl⟩

theorem sameWork_resetDecoder (s : State) (ok : Bool) : SameWork s (resetDecoder s ok) := by
  cases ok <;> exact ⟨rfl, rfl, rfl, rfl⟩

theorem sameWork_initDecoder (s : State) (createOk createHandle deleteOk : Bool)
    (r : State × status_t)
    (h : initDecoder s createOk createHandle deleteOk = Except.ok r) : SameWork s r.1 := by
  cases createOk <;> cases createHandle <;> cases deleteOk <;>
    simp [initDecoder, deInitDecoder, State.call] at h <;>
    subst h <;> exact ⟨rfl, rfl, rfl, rfl⟩

theorem sameWork_updateFinalColorAspects (K : Consts) (s : State) (a b : ColorAspects) :
    SameWork s (updateFinalColorAspects K s a b) := by
  dsimp only [updateFinalColorAspects]
  split <;> exact ⟨rfl, rfl, rfl, rfl⟩

theorem sameWork_getVUIParams (K : Consts) (s : State) (vui : Option ColorAspects) :
    SameWork s (getVUIParams K s vui) := by
  cases vui with
  | none => exact ⟨rfl, rfl, rfl, rfl⟩
  | some ca =>
    dsimp only [getVUIParams, handleColorAspectsChange]
    split
    · exact sameWork_trans (b := { s.call Call.getVuiParams with mBitstreamColorAspects := ca })
        ⟨rfl, rfl, rfl, rfl⟩ (sameWork_updateFinalColorAspects K _ _ _)
    · exact ⟨rfl, rfl, rfl, rfl⟩

theorem sameWork_signals (op : ivd_video_decode_op_t) (s : State) :
    SameWork s (process.signals op s).2 := by
  dsimp only [process.signals]
  split
  · split <;> exact ⟨rfl, rfl, rfl, rfl⟩
  · split <;> exact ⟨rfl, rfl, rfl, rfl⟩

theorem conserves_output (op : ivd_video_decode_op_t) (s s' : State)
    (h : process.output op s = Except.ok s') : Conserves s s' := by
  dsimp only [process.output] at h
  split at h
  · cases hslot : PendingMap.slot s.mPendingWork op.u4_ts with
    | none => simp [hslot] at h
    | some w =>
      simp only [hslot] at h
      cases hblk : s.mAllocatedBlock with
      | none => simp [hblk] at h
      | some blk =>
      simp only [hblk, Except.ok.injEq] at h
      subst h
      refine ⟨rfl, rfl, ?_, fun ho => PendingMap.ordered_assign _ _ _ ho⟩
      have hp := PendingMap.items_assign_perm s.mPendingWork op.u4_ts none
      simp only [hslot, Option.toList, List.nil_append] at hp
      simp only [State.onWorkDone, List.map_append, List.map_cons, List.map_nil]
      have hp' := (hp.map C2Work.frame_index).append_right (s.delivered.map C2Work.frame_index)
      simp only [List.map_append, List.map_cons, List.map_nil] at hp'
      refine List.Perm.trans ?_ hp'
      simp only [List.append_assoc]
      exact List.Perm.append_left _ List.perm_append_comm
  · split at h
    · split at h <;>
      · simp only [Except.ok.injEq] at h
        subst h
        exact conserves_of_sameWork ⟨rfl, rfl, rfl, rfl⟩
    · simp only [Except.ok.injEq] at h
      subst h
      exact conserves_refl _

theorem sameWork_decoded (K : Consts) (e : EngineStep) (s : State) :
    SameWork s (process.decoded K e s) := by
  have h := sameWork_getVUIParams K s e.vui
  dsimp only [process.decoded]
  split
  · exact ⟨h.1, h.2.1, h.2.2.1, h.2.2.2⟩
  · exact h

theorem sameWork_completeChange (e : EngineStep) (s : State) :
    SameWork s (process.completeChange e s) := by
  have h := sameWork_resetDecoder { s with mChangingResolution := false } e.resetOk
  exact ⟨h.1, h.2.1, h.2.2.1, h.2.2.2⟩

theorem sameWork_beginChange (s : State) : SameWork s (process.beginChange s) := by
  dsimp only [process.beginChange]
  split <;> exact ⟨rfl, rfl, rfl, rfl⟩

theorem conserves_step (K : Consts) (work : C2Work) (output : C2GraphicBlock)
    (workIndex : Nat) (e : EngineStep) (inOffset : Nat) (s s' : State) (x : Exit)
    (h : process.step K work output workIndex e inOffset s = Except.ok (x, s')) :
    Conserves s s' := by
  dsimp only [process.step] at h
  have hcall := sameWork_call s (Call.decode
    (setDecodeArgs s (some work.capacity) (some output) workIndex inOffset).2)
  have hdec := sameWork_trans hcall (sameWork_decoded K e _)
  split at h
  · simp only [Except.ok.injEq, Prod.mk.injEq] at h
    obtain ⟨-, rfl⟩ := h
    exact conserves_of_sameWork ⟨rfl, rfl, rfl, rfl⟩
  · split at h
    · simp only [Except.ok.injEq, Prod.mk.injEq] at h
      obtain ⟨-, rfl⟩ := h
      exact conserves_of_sameWork ⟨rfl, rfl, rfl, rfl⟩
    · split at h
      · simp only [Except.ok.injEq, Prod.mk.injEq] at h
        obtain ⟨-, rfl⟩ := h
        exact conserves_of_sameWork ⟨rfl, rfl, rfl, rfl⟩
      · split at h
        · simp only [Except.ok.injEq, Prod.mk.injEq] at h
          obtain ⟨-, rfl⟩ := h
          exact conserves_of_sameWork (sameWork_trans hdec (sameWork_completeChange e _))
        · split at h
          · simp only [Except.ok.injEq, Prod.mk.injEq] at h
            obtain ⟨-, rfl⟩ := h
            exact conserves_of_sameWork (sameWork_trans hdec (sameWork_beginChange _))
          · have hsig := sameWork_signals e.op (process.decoded K e (s.call (Call.decode
              (setDecodeArgs s (some work.capacity) (some output) workIndex inOffset).2)))
            split at h
            · rename_i s2 heq
              simp only [Except.ok.injEq, Prod.mk.injEq] at h
              obtain ⟨-, rfl⟩ := h
              rw [heq] at hsig
              exact conserves_of_sameWork (sameWork_trans hdec hsig)
            · rename_i s2 heq
              rw [heq] at hsig
              split at h
              · exact absurd h (by simp)
              · rename_i s3 hout
                simp only [Except.ok.injEq, Prod.mk.injEq] at h
                obtain ⟨-, rfl⟩ := h
                exact conserves_trans (conserves_of_sameWork (sameWork_trans hdec hsig))
                  (conserves_output e.op _ _ hout)

theorem conserves_loop (K : Consts) (work : C2Work) (output : C2GraphicBlock)
    (workIndex : Nat) (steps : List EngineStep) (inOffset : Nat) (s s' : State) (x : Exit)
    (h : process.loop K work output workIndex steps inOffset s = Except.ok (x, s')) :
    Conserves s s' := by
  induction steps generalizing inOffset s with
  | nil =>
    simp only [process.loop] at h
    split at h
    · exact absurd h (by simp)
    · simp only [Except.ok.injEq, Prod.mk.injEq] at h
      obtain ⟨-, rfl⟩ := h
      exact conserves_refl _
  | cons e rest ih =>
    simp only [process.loop] at h
    split at h
    · split at h
      · exact absurd h (by simp)
      · rename_i s2 hstep
        simp only [Except.ok.injEq, Prod.mk.injEq] at h
        obtain ⟨-, rfl⟩ := h
        exact conserves_step K work output workIndex e inOffset s _ _ hstep
      · rename_i s2 hstep
        exact conserves_trans (conserves_step K work output workIndex e inOffset s _ _ hstep)
          (ih _ _ h)
    · simp only [Except.ok.injEq, Prod.mk.injEq] at h
      obtain ⟨-, rfl⟩ := h
      exact conserves_refl _

theorem sameWork_ensureDecoder (env : Env) (s : State) (r : State × status_t)
    (h : process.ensureDecoder env s = Except.ok r) : SameWork s r.1 := by
  dsimp only [process.ensureDecoder] at h
  split at h
  · exact sameWork_initDecoder s _ _ _ r h
  · cases h
    exact sameWork_refl s

theorem sameWork_syncStride (s : State) : SameWork s (process.syncStride s) := by
  dsimp only [process.syncStride]
  split
  · exact ⟨rfl, rfl, rfl, rfl⟩
  · exact sameWork_refl s

theorem sameWork_noteEOS (K : Consts) (work : C2Work) (s : State) :
    SameWork s (process.noteEOS K work s) := by
  dsimp only [process.noteEOS]
  split
  · exact ⟨rfl, rfl, rfl, rfl⟩
  · exact sameWork_refl s

theorem sameWork_ensureBlock (env : Env) (s : State) :
    SameWork s (process.ensureBlock env s) := by
  dsimp only [process.ensureBlock]
  split
  · exact ⟨rfl, rfl, rfl, rfl⟩
  · exact sameWork_refl s

theorem sameWork_afterLoop (s : State) : SameWork s (process.afterLoop s) := by
  dsimp only [process.afterLoop]
  split
  · exact sameWork_setFlushMode s
  · exact sameWork_refl s

theorem process.decode_ok (K : Consts) (env : Env) (s s' : State) (work : C2Work)
    (w' : Option C2Work) (h : process.decode K env s work = Except.ok (s', w')) :
    Conserves s s' ∧ w' = some work := by
  dsimp only [process.decode] at h
  have h04 : SameWork s (process.ensureBlock env (process.noteEOS K work
      (process.syncStride s))) :=
    sameWork_trans (sameWork_syncStride _)
      (sameWork_trans (sameWork_noteEOS K work _) (sameWork_ensureBlock env _))
  split at h
  · exact absurd h (by simp)
  · split at h
    · exact absurd h (by simp)
    · split at h
      · exact absurd h (by simp)
      · rename_i s5 hloop
        simp only [Except.ok.injEq, Prod.mk.injEq] at h
        obtain ⟨rfl, rfl⟩ := h
        exact ⟨conserves_trans (conserves_of_sameWork h04)
          (conserves_loop _ _ _ _ _ _ _ _ _ hloop), rfl⟩
      · rename_i s5 hloop
        simp only [Except.ok.injEq, Prod.mk.injEq] at h
        obtain ⟨rfl, rfl⟩ := h
        exact ⟨conserves_trans (conserves_of_sameWork h04) (conserves_trans
          (conserves_loop _ _ _ _ _ _ _ _ _ hloop)
          (conserves_of_sameWork (sameWork_afterLoop s5))), rfl⟩

theorem process_ok (K : Consts) (env : Env) (s s' : State) (work : C2Work)
    (w' : Option C2Work) (h : process K env s work = Except.ok (s', w')) :
    Conserves s s' ∧ w' = some work := by
  dsimp only [process] at h
  split at h
  · simp only [Except.ok.injEq, Prod.mk.injEq] at h
    obtain ⟨rfl, rfl⟩ := h
    exact ⟨conserves_refl _, rfl⟩
  · split at h
    · exact absurd h (by simp)
    · rename_i r hdec
      have hinit := sameWork_ensureDecoder env s r hdec
      split at h
      · simp only [Except.ok.injEq, Prod.mk.injEq] at h
        obtain ⟨rfl, rfl⟩ := h
        exact ⟨conserves_of_sameWork ⟨hinit.1, hinit.2.1, hinit.2.2.1, hinit.2.2.2⟩, rfl⟩
      · obtain ⟨h1, h2⟩ := process.decode_ok K env r.1 s' work w' h
        exact ⟨conserves_trans (conserves_of_sameWork hinit) h1, h2⟩

theorem sameWork_flushLoop (ops : List ivd_video_decode_op_t) (s s' : State)
    (h : processQueue.flushLoop ops s = Except.ok s') : SameWork s s' := by
  induction ops generalizing s with
  | nil => exact absurd h (by simp [processQueue.flushLoop])
  | cons op rest ih =>
    dsimp only [processQueue.flushLoop] at h
    split at h
    · simp only [Except.ok.injEq] at h
      subst h
      exact ⟨rfl, rfl, rfl, rfl⟩
    · exact sameWork_trans (sameWork_call s _) (ih _ h)

theorem sameWork_flush (env : Env) (s s' : State) (x : Exit)
    (h : processQueue.flush env s = Except.ok (x, s')) : SameWork s s' := by
  dsimp only [processQueue.flush] at h
  split at h
  · split at h
    · simp only [Except.ok.injEq, Prod.mk.injEq] at h
      obtain ⟨-, rfl⟩ := h
      exact ⟨rfl, rfl, rfl, rfl⟩
    · split at h
      · exact absurd h (by simp)
      · rename_i s1 hloop
        have h1 := sameWork_flushLoop _ _ _ hloop
        simp only [Except.ok.injEq, Prod.mk.injEq] at h
        obtain ⟨-, rfl⟩ := h
        split <;> exact ⟨h1.1, h1.2.1, h1.2.2.1, h1.2.2.2⟩
  · simp only [Except.ok.injEq, Prod.mk.injEq] at h
    obtain ⟨-, rfl⟩ := h
    exact sameWork_refl s

theorem registerWork_ok (s : State) (w : C2Work) :
    ∃ s', processQueue.registerWork s (some w) = Except.ok s' ∧
      s'.mRunning = s.mRunning ∧ s'.mQueue = s.mQueue ∧
      ((s'.mPendingWork.items ++ s'.delivered).map C2Work.frame_index).Perm
        (w.frame_index :: (s.mPendingWork.items ++ s.delivered).map C2Work.frame_index) ∧
      (s.mPendingWork.ordered → s'.mPendingWork.ordered) := by
  have hp := PendingMap.items_assign_perm s.mPendingWork (w.frame_index % 2 ^ 32) (some w)
  dsimp only [processQueue.registerWork]
  cases hslot : PendingMap.slot s.mPendingWork (w.frame_index % 2 ^ 32) with
  | none =>
    refine ⟨_, rfl, rfl, rfl, ?_, fun ho => PendingMap.ordered_assign _ _ _ ho⟩
    simp only [hslot, Option.toList, List.append_nil, List.singleton_append] at hp
    have hp' := (hp.map C2Work.frame_index).append_right (s.delivered.map C2Work.frame_index)
    simpa using hp'
  | some old =>
    refine ⟨_, rfl, rfl, rfl, ?_, fun ho => PendingMap.ordered_assign _ _ _ ho⟩
    simp only [hslot, Option.toList, List.singleton_append] at hp
    have hp' := (hp.map C2Work.frame_index).append_right (s.delivered.map C2Work.frame_index)
    simp only [State.onWorkDone, List.map_append, List.map_cons, List.map_nil]
    simp only [List.map_append, List.map_cons, List.map_nil, List.cons_append] at hp'
    refine List.Perm.trans ?_ hp'
    simp only [List.append_assoc]
    exact List.Perm.append_left _ List.perm_append_comm

theorem processQueue_ok (K : Consts) (env : Env) (s s' : State)
    (h : processQueue K env s = Except.ok s') :
    s'.mRunning = s.mRunning ∧
    ((s'.mQueue ++ s'.mPendingWork.items ++ s'.delivered).map C2Work.frame_index).Perm
      ((s.mQueue ++ s.mPendingWork.items ++ s.delivered).map C2Work.frame_index) ∧
    (s.mPendingWork.ordered → s'.mPendingWork.ordered) := by
  dsimp only [processQueue] at h
  split at h
  · exact absurd h (by simp)
  · rename_i s1 hflush
    have h1 := sameWork_flush _ _ _ _ hflush
    simp only [Except.ok.injEq] at h
    subst h
    exact ⟨h1.1, by rw [h1.2.1, h1.2.2.1, h1.2.2.2], by rw [h1.2.2.1]; exact id⟩
  · rename_i s1 hflush
    have h1 := sameWork_flush _ _ _ _ hflush
    rw [← h1.1, ← h1.2.1, ← h1.2.2.1, ← h1.2.2.2]
    clear h1 hflush
    dsimp only [processQueue.dequeue] at h
    split at h
    · rename_i hq
      simp only [Except.ok.injEq] at h
      subst h
      exact ⟨rfl, List.Perm.refl _, id⟩
    · rename_i work rest hq
      split at h
      · exact absurd h (by simp)
      · rename_i s2 w2 hproc
        obtain ⟨hc, rfl⟩ := process_ok _ _ _ _ _ _ hproc
        obtain ⟨s3, hreg, hr1, hr2, hr3, hr4⟩ := registerWork_ok s2 work
        rw [hreg] at h
        simp only [Except.ok.injEq] at h
        subst h
        obtain ⟨hc1, hc2, hc3, hc4⟩ := hc
        refine ⟨hr1.trans hc1, ?_, fun ho => hr4 (hc4 ho)⟩
        rw [hr2, hc2, hq]
        simp only [List.append_assoc, List.map_append, List.map_cons, List.cons_append]
          at hr3 hc3 ⊢
        refine List.Perm.trans (List.Perm.append_left _ hr3) ?_
        refine List.Perm.trans List.perm_middle.symm.symm ?_
        exact List.Perm.cons _ (List.Perm.append_left _ hc3)

/-! ## Conservation of work items -/

theorem drain_nb.markLast_frame_index (K : Consts) (q : List C2Work) :
    (drain_nb.markLast K q).map C2Work.frame_index = q.map C2Work.frame_index := by
  induction q with
  | nil => rfl
  | cons w rest ih =>
    cases rest with
    | nil => rfl
    | cons v rest => simpa [drain_nb.markLast] using ih

theorem Sys.places_step (K : Consts) (sys sys' : Sys) (op : Op)
    (hstep : Sys.step K sys op = Except.ok sys')
    (hinv : sys.places.Perm (sys.enqueued.map C2Work.frame_index)) :
    sys'.places.Perm (sys'.enqueued.map C2Work.frame_index) := by
  cases op with
  | queue_nb items =>
    simp only [Sys.step, Except.ok.injEq] at hstep
    subst hstep
    cases hrun : sys.dec.mRunning with
    | false =>
      simpa [Sys.places, queue_nb, hrun] using hinv
    | true =>
      simp only [Sys.places, queue_nb, hrun, queue_nb.loop_eq, Bool.not_true, Bool.false_eq_true,
        if_false, List.length_nil, Nat.sub_zero, List.take_length, List.map_append,
        List.append_assoc] at hinv ⊢
      rw [List.perm_iff_count] at hinv ⊢
      intro a
      have ha := hinv a
      simp only [List.count_append] at ha ⊢
      omega
  | flush_sm =>
    simp only [Sys.step, Except.ok.injEq] at hstep
    subst hstep
    cases hrun : sys.dec.mRunning with
    | false =>
      simpa [Sys.places, flush_sm, hrun] using hinv
    | true =>
      have hq : List.filterMap id (List.map some sys.dec.mQueue) = sys.dec.mQueue := by
        simp [List.filterMap_map]
      have hp : List.filterMap id (List.map Prod.snd sys.dec.mPendingWork)
          = PendingMap.items sys.dec.mPendingWork := by
        simp [List.filterMap_map, PendingMap.items]
      simp only [Sys.places, flush_sm, hrun, flush_sm.drainQueue_eq, flush_sm.drainPending_eq,
        Bool.not_true, Bool.false_eq_true, if_false, List.filterMap_append, hq, hp,
        PendingMap.items, List.filterMap_nil, List.nil_append, List.map_append,
        List.append_assoc] at hinv ⊢
      rw [List.perm_iff_count] at hinv ⊢
      intro a
      have ha := hinv a
      simp only [List.count_append] at ha ⊢
      omega
  | drain_nb =>
    simp only [Sys.step, Except.ok.injEq] at hstep
    subst hstep
    have hfi : (drain_nb K sys.dec).2.mQueue.map C2Work.frame_index
        = sys.dec.mQueue.map C2Work.frame_index ∧
        (drain_nb K sys.dec).2.mPendingWork = sys.dec.mPendingWork ∧
        (drain_nb K sys.dec).2.delivered = sys.dec.delivered := by
      dsimp only [drain_nb]
      split
      · exact ⟨rfl, rfl, rfl⟩
      · split
        · exact ⟨drain_nb.markLast_frame_index K _, rfl, rfl⟩
        · exact ⟨rfl, rfl, rfl⟩
    simp only [Sys.places, List.map_append] at hinv ⊢
    rw [hfi.1, hfi.2.1, hfi.2.2]
    exact hinv
  | processQueue env =>
    simp only [Sys.step] at hstep
    split at hstep
    · exact absurd hstep (by simp)
    · rename_i s hpq
      simp only [Except.ok.injEq] at hstep
      subst hstep
      have hperm := (processQueue_ok K env _ _ hpq).2.1
      simp only [Sys.places, List.map_append] at hinv ⊢
      simp only [List.map_append] at hperm
      exact List.Perm.trans (List.Perm.append_right _ hperm) hinv

theorem Reachable.places_perm (K : Consts) (sys : Sys) (h : Reachable K sys) :
    sys.places.Perm (sys.enqueued.map C2Work.frame_index) := by
  induction h with
  | init s hq hp hd => simp [Sys.places, hq, hp, hd, PendingMap.items]
  | step sys op sys' _ hstep ih => exact Sys.places_step K sys sys' op hstep ih

/-- Conservation along runs without fault: in every state of the pipeline
reached by `queue_nb`, `flush_sm`, `drain_nb` and `processQueue` iterations that
run to their end, when the enqueued items have pairwise different ordinals: the
items found in the work queue, the Pending Table, the listener and the flush
outputs are, counted with multiplicity, exactly the enqueued items; each
enqueued item is found in exactly one of these places; and no item has been
handed to the listener more than once. -/
theorem work_items_in_exactly_one_place (K : Consts) (sys : Sys) (hreach : Reachable K sys)
    (huniq : (sys.enqueued.map C2Work.frame_index).Nodup) :
    sys.places.Perm (sys.enqueued.map C2Work.frame_index) ∧
    (∀ w ∈ sys.enqueued, sys.places.count w.frame_index = 1) ∧
    (∀ i ∈ sys.places, i ∈ sys.enqueued.map C2Work.frame_index) ∧
    (sys.dec.delivered.map C2Work.frame_index).Nodup := by
  have hperm := Reachable.places_perm K sys hreach
  have hnd : sys.places.Nodup := hperm.nodup_iff.2 huniq
  refine ⟨hperm, ?_, ?_, ?_⟩
  · intro w hw
    exact List.count_eq_one_of_mem hnd (hperm.mem_iff.2 (List.mem_map_of_mem _ hw))
  · intro i hi
    exact hperm.mem_iff.1 hi
  · have h := hnd
    simp only [Sys.places, List.map_append] at h
    exact (List.nodup_append.1 (List.nodup_append.1 h).1).2.1

theorem Reachable.run (K : Consts) (ops : List Op) (sys sys' : Sys) (h : Reachable K sys)
    (hrun : Sys.run K sys ops = Except.ok sys') : Reachable K sys' := by
  induction ops generalizing sys with
  | nil =>
    simp only [Sys.run, Except.ok.injEq] at hrun
    exact hrun ▸ h
  | cons op rest ih =>
    simp only [Sys.run] at hrun
    split at hrun
    · exact absurd hrun (by simp)
    · rename_i sys1 hstep
      exact ih sys1 (Reachable.step sys op sys1 h hstep) hrun

theorem Sys.sample_reachable : Reachable Consts.sample Sys.sample :=
  Reachable.run Consts.sample sampleOps ⟨State.started, [], []⟩ Sys.sample
    (Reachable.init State.started rfl rfl rfl) rfl

theorem work_items_in_exactly_one_place_witness :
    Reachable Consts.sample Sys.sample ∧
    (Sys.sample.enqueued.map C2Work.frame_index).Nodup ∧
    (Sys.sample.places.Perm (Sys.sample.enqueued.map C2Work.frame_index) ∧
      (∀ w ∈ Sys.sample.enqueued, Sys.sample.places.count w.frame_index = 1) ∧
      (∀ i ∈ Sys.sample.places, i ∈ Sys.sample.enqueued.map C2Work.frame_index) ∧
      (Sys.sample.dec.delivered.map C2Work.frame_index).Nodup) :=
  ⟨Sys.sample_reachable, by decide,
    work_items_in_exactly_one_place Consts.sample Sys.sample Sys.sample_reachable (by decide)⟩

/-! ## Flush -/

theorem flush_sm_running (s : State) (flushedWork : List (Option C2Work))
    (hrun : s.mRunning = true) :
    flush_sm s flushedWork = (status_t.C2_OK, { s with mQueue := [], mPendingWork := [] },
      flushedWork ++ s.mQueue.map some ++ s.mPendingWork.map Prod.snd) := by
  simp [flush_sm, hrun, flush_sm.drainQueue_eq, flush_sm.drainPending_eq]

theorem flush_sm_appends_held_items (K : Consts) (sys : Sys) (hreach : Reachable K sys)
    (hrun : sys.dec.mRunning = true) :
    (flush_sm sys.dec sys.flushed).2.2.filterMap id
      = sys.flushed.filterMap id ++ sys.dec.mQueue ++ sys.dec.mPendingWork.items ∧
    (sys.dec.mQueue ++ sys.dec.mPendingWork.items).length + sys.dec.delivered.length
      + (sys.flushed.filterMap id).length = sys.enqueued.length := by
  constructor
  · rw [flush_sm_running _ _ hrun]
    simp [List.filterMap_append, List.filterMap_map, PendingMap.items]
  · have h := (Reachable.places_perm K sys hreach).length_eq
    simp only [Sys.places, List.length_map, List.length_append] at h ⊢
    omega

/-- C2, evaluated on the first three operations of `sampleOps`: two items were
enqueued and one of them was delivered, yet `flush_sm` appends two pointers to
the caller's output, the first of them the empty pointer that the delivery left
behind in the Pending Table. -/
theorem flush_sm_appends_empty_pointer :
    ∃ sys,
      Sys.run Consts.sample ⟨State.started, [], []⟩ (sampleOps.take 3) = Except.ok sys ∧
      sys.dec.mRunning = true ∧
      sys.enqueued.length = 2 ∧
      sys.dec.delivered.length = 1 ∧
      sys.dec.mPendingWork = [(1, none), (2, some (C2Work.fresh 2 10 0))] ∧
      (flush_sm sys.dec []).2.2 = [none, some (C2Work.fresh 2 10 0)] :=
  ⟨_, rfl, rfl, rfl, rfl, rfl, rfl⟩

/-! ## One worker iteration -/

theorem processQueue_not_flushing (K : Consts) (env : Env) (s : State)
    (h : s.mIsInFlush = false) : processQueue K env s = processQueue.dequeue K env s := by
  simp [processQueue, processQueue.flush, h]

theorem processQueue.dequeue_cons (K : Consts) (env : Env) (s : State) (work : C2Work)
    (rest : List C2Work) (hq : s.mQueue = work :: rest) :
    processQueue.dequeue K env s =
      match process K env { s with mQueue := rest } work with
      | Except.error c => Except.error c
      | Except.ok (s, work) => processQueue.registerWork s work := by
  simp only [processQueue.dequeue, hq]

theorem process_eos_item_with_own_output (n : Nat) :
    process Consts.sample (sampleEnv [sampleOp 100 1 (n &&& 0xFFFFFFFF)]) State.started
        (C2Work.fresh n 100 4)
      = Except.error ⟨Fault.nullPending, { State.started with
          mPendingWork := [(n &&& 0xFFFFFFFF, none)]
          mCodecCtx := true
          mReceivedEOS := true
          mFlushNeeded := true
          mStride := 320
          mAllocatedBlock := some ⟨320, 240⟩
          calls := [Call.create, Call.setParams 320, Call.setNumCores, Call.getVersion,
            Call.allocateGraphicBlock 320 240,
            Call.decode ⟨n &&& 0xFFFFFFFF, some 0, 100, (76800, 19200, 19200),
              OutPlanes.view ⟨320, 240⟩⟩,
            Call.getVuiParams] }⟩ := by
  simp [State.started, State.constructed, initDecoder, initDecoder.configure,
    process, process.decode, process.ensureDecoder, process.syncStride, process.noteEOS, process.ensureBlock,
    resetPlugin, setParams, setNumCores, State.call, sampleEnv,
    C2Work.fresh, Consts.sample, process.loop,
    sampleOp, process.step, setDecodeArgs, process.decoded,
    getVUIParams, process.signals, process.output, PendingMap.slot, PendingMap.assign]

/-- C6, evaluated: one enqueued item with 100 input bytes, END_OF_STREAM and
frame index `n`, geometry 320x240; the engine consumes the 100 bytes in one
step and reports output with the timestamp of the request.  The run ends with
the dereference of an empty Pending Table slot: the item is registered in the
table only after `process` has returned, so nothing reaches the listener. -/
theorem eos_item_with_own_output_faults (n : Nat) :
    ∃ st, processQueue Consts.sample (sampleEnv [sampleOp 100 1 (n &&& 0xFFFFFFFF)])
        { State.started with mQueue := [C2Work.fresh n 100 4] }
      = Except.error ⟨Fault.nullPending, st⟩ ∧
      st.delivered = [] ∧
      st.mPendingWork = [(n &&& 0xFFFFFFFF, none)] := by
  have h := processQueue.dequeue_cons Consts.sample
    (sampleEnv [sampleOp 100 1 (n &&& 0xFFFFFFFF)])
    { State.started with mQueue := [C2Work.fresh n 100 4] } (C2Work.fresh n 100 4) [] rfl
  rw [← processQueue_not_flushing _ _ _ rfl] at h
  rw [show ({ ({ State.started with mQueue := [C2Work.fresh n 100 4] } : State) with
      mQueue := [] } : State) = State.started from rfl,
    process_eos_item_with_own_output n] at h
  exact ⟨_, h, rfl, rfl⟩

/-! ## Members that a decode step leaves alone -/

theorem getVUIParams_shape (K : Consts) (s : State) (vui : Option ColorAspects) :
    ∃ bca fca upd, getVUIParams K s vui =
      { s with calls := s.calls ++ [Call.getVuiParams]
               mBitstreamColorAspects := bca
               mFinalColorAspects := fca
               mUpdateColorAspects := upd } := by
  cases vui with
  | none => exact ⟨_, _, _, rfl⟩
  | some ca =>
    dsimp only [getVUIParams, handleColorAspectsChange, updateFinalColorAspects]
    split
    · split
      · exact ⟨_, _, _, rfl⟩
      · exact ⟨_, _, _, rfl⟩
    · exact ⟨_, _, _, rfl⟩

theorem process.decoded_shape (K : Consts) (e : EngineStep) (s : State) :
    ∃ bca fca upd, process.decoded K e s =
      { s with calls := s.calls ++ [Call.getVuiParams]
               mBitstreamColorAspects := bca
               mFinalColorAspects := fca
               mUpdateColorAspects := upd
               mFlushNeeded := s.mFlushNeeded || e.op.u4_frame_decoded_flag != 0 } := by
  obtain ⟨bca, fca, upd, h⟩ := getVUIParams_shape K s e.vui
  refine ⟨bca, fca, upd, ?_⟩
  dsimp only [process.decoded]
  rw [h]
  cases hf : s.mFlushNeeded <;> cases hd : (e.op.u4_frame_decoded_flag != 0) <;> simp [hf, hd]

theorem process.signals_shape (op : ivd_video_decode_op_t) (s : State) :
    ∃ blk w h upd, (process.signals op s).2 =
      { s with mAllocatedBlock := blk, mWidth := w, mHeight := h, mUpdateColorAspects := upd } := by
  dsimp only [process.signals]
  split
  · split
    · exact ⟨_, _, _, _, rfl⟩
    · exact ⟨_, _, _, _, rfl⟩
  · split
    · exact ⟨_, _, _, _, rfl⟩
    · exact ⟨_, _, _, _, rfl⟩

theorem process.output_shape (op : ivd_video_decode_op_t) (s : State) :
    ∃ pend del flush eos off, finalState (process.output op s) =
      { s with mPendingWork := pend, delivered := del
               mIsInFlush := flush, mReceivedEOS := eos, mInputOffset := off } ∧
      (s.mIsInFlush = false → flush = false) := by
  dsimp only [process.output]
  split
  · cases PendingMap.slot s.mPendingWork op.u4_ts with
    | none => exact ⟨_, _, _, _, _, rfl, id⟩
    | some w =>
      cases s.mAllocatedBlock with
      | none => exact ⟨_, _, _, _, _, rfl, id⟩
      | some blk => exact ⟨_, _, _, _, _, rfl, id⟩
  · split
    · split
      · exact ⟨_, _, false, _, _, rfl, fun _ => rfl⟩
      · exact ⟨_, _, false, _, _, rfl, fun _ => rfl⟩
    · exact ⟨_, _, _, _, _, rfl, id⟩

/-! ## Output present -/

theorem and_0xFF (x : Nat) : x &&& 0xFF = x % 256 :=
  Nat.and_pow_two_sub_one_eq_mod x 8

theorem State.sampleInFlight_reached :
    Sys.run Consts.sample ⟨State.started, [], []⟩ (sampleOps.take 2)
      = Except.ok ⟨State.sampleInFlight, [], [C2Work.fresh 1 10 0, C2Work.fresh 2 10 0]⟩ :=
  rfl

theorem processQueue_of_process_ok (K : Consts) (env : Env) (s s0 s1 : State) (work : C2Work)
    (rest : List C2Work) (w1 : Option C2Work)
    (hflush : processQueue.flush env s = Except.ok (Exit.fallThrough, s0))
    (hq : s0.mQueue = work :: rest)
    (hproc : process K env { s0 with mQueue := rest } work = Except.ok (s1, w1)) :
    processQueue K env s = processQueue.registerWork s1 (some work) := by
  obtain ⟨-, rfl⟩ := process_ok K env _ _ _ _ hproc
  simp only [processQueue, hflush, processQueue.dequeue_cons K env s0 work rest hq, hproc]

/-- C8 (amended): at the end of a `processQueue` iteration in which `process`
returns, the dequeued item is stored in the Pending Table under its frame index
modulo 2^32, unchanged (its result is not set), and the listener receives
nothing but the item, if any, that the table held under that key before, with
its result set to `C2_CORRUPTED`. -/
theorem processQueue_registers_dequeued_item (K : Consts) (env : Env) (s s0 s1 : State)
    (work : C2Work) (rest : List C2Work) (w1 : Option C2Work)
    (hflush : processQueue.flush env s = Except.ok (Exit.fallThrough, s0))
    (hq : s0.mQueue = work :: rest)
    (hproc : process K env { s0 with mQueue := rest } work = Except.ok (s1, w1)) :
    ∃ s', processQueue K env s = Except.ok s' ∧
      s'.mPendingWork
        = PendingMap.assign s1.mPendingWork (work.frame_index % 2 ^ 32) (some work) ∧
      PendingMap.slot s'.mPendingWork (work.frame_index % 2 ^ 32) = some work ∧
      s'.delivered = s1.delivered ++
        (match PendingMap.slot s1.mPendingWork (work.frame_index % 2 ^ 32) with
          | some old => [{ old with result := status_t.C2_CORRUPTED }]
          | none => []) := by
  rw [processQueue_of_process_ok K env s s0 s1 work rest w1 hflush hq hproc]
  dsimp only [processQueue.registerWork]
  cases hslot : PendingMap.slot s1.mPendingWork (work.frame_index % 2 ^ 32) with
  | none =>
    exact ⟨_, rfl, rfl, PendingMap.slot_assign_self _ _ _, by simp⟩
  | some old =>
    exact ⟨_, rfl, rfl, PendingMap.slot_assign_self _ _ _, rfl⟩

theorem processQueue_registers_dequeued_item_witness :
    processQueue.flush (sampleEnv [sampleOp 10 0 0]) State.sampleInFlight
      = Except.ok (Exit.fallThrough, State.sampleInFlight) ∧
    State.sampleInFlight.mQueue = C2Work.fresh 2 10 0 :: [] ∧
    process Consts.sample (sampleEnv [sampleOp 10 0 0])
        { State.sampleInFlight with mQueue := [] } (C2Work.fresh 2 10 0)
      = Except.ok (State.sampleProcessed 2 false, some (C2Work.fresh 2 10 0)) ∧
    ∃ s', processQueue Consts.sample (sampleEnv [sampleOp 10 0 0]) State.sampleInFlight
        = Except.ok s' ∧
      s'.mPendingWork = PendingMap.assign (State.sampleProcessed 2 false).mPendingWork
        ((C2Work.fresh 2 10 0).frame_index % 2 ^ 32) (some (C2Work.fresh 2 10 0)) ∧
      PendingMap.slot s'.mPendingWork ((C2Work.fresh 2 10 0).frame_index % 2 ^ 32)
        = some (C2Work.fresh 2 10 0) ∧
      s'.delivered = (State.sampleProcessed 2 false).delivered ++
        (match PendingMap.slot (State.sampleProcessed 2 false).mPendingWork
            ((C2Work.fresh 2 10 0).frame_index % 2 ^ 32) with
          | some old => [{ old with result := status_t.C2_CORRUPTED }]
          | none => []) :=
  ⟨rfl, rfl, rfl,
    processQueue_registers_dequeued_item Consts.sample (sampleEnv [sampleOp 10 0 0])
      State.sampleInFlight State.sampleInFlight (State.sampleProcessed 2 false)
      (C2Work.fresh 2 10 0) [] (some (C2Work.fresh 2 10 0)) rfl rfl rfl⟩

/-- C8 as stated fails: item 7 is the only item; the engine consumes its 100
bytes in one step without output, so the item is matched to no decode
completion.  After the iteration the listener has received nothing and the
item sits in the Pending Table with its result untouched. -/
theorem unmatched_item_is_left_pending :
    ∃ s', processQueue Consts.sample (sampleEnv [sampleOp 100 0 0])
        { State.started with mQueue := [C2Work.fresh 7 100 0] } = Except.ok s' ∧
      s'.delivered = [] ∧
      s'.mPendingWork = [(7, some (C2Work.fresh 7 100 0))] ∧
      (C2Work.fresh 7 100 0).result = status_t.C2_OK :=
  ⟨_, rfl, rfl, rfl, rfl⟩

/-- C9: when `processQueue` registers the dequeued item under an index for
which the (key-ordered) Pending Table holds an in-flight item, the overwrite is
reported: the item held before is handed to the listener with the failure
result `C2_CORRUPTED`, the dequeued item takes its place in the table, so that
neither item is lost, and the table has exactly one entry for that index. -/
theorem duplicate_index_is_reported (K : Consts) (env : Env) (s s0 s1 : State)
    (work old : C2Work) (rest : List C2Work) (w1 : Option C2Work)
    (hord : s.mPendingWork.ordered)
    (hflush : processQueue.flush env s = Except.ok (Exit.fallThrough, s0))
    (hq : s0.mQueue = work :: rest)
    (hproc : process K env { s0 with mQueue := rest } work = Except.ok (s1, w1))
    (hold : PendingMap.slot s1.mPendingWork (work.frame_index % 2 ^ 32) = some old) :
    ∃ s', processQueue K env s = Except.ok s' ∧
      s'.delivered = s1.delivered ++ [{ old with result := status_t.C2_CORRUPTED }] ∧
      PendingMap.slot s'.mPendingWork (work.frame_index % 2 ^ 32) = some work ∧
      (s'.mPendingWork.map Prod.fst).count (work.frame_index % 2 ^ 32) = 1 := by
  have hord0 : s0.mPendingWork.ordered := by
    rw [(sameWork_flush env s s0 _ hflush).2.2.1]
    exact hord
  have hord1 : s1.mPendingWork.ordered :=
    (process_ok K env _ _ _ _ hproc).1.2.2.2 hord0
  rw [processQueue_of_process_ok K env s s0 s1 work rest w1 hflush hq hproc]
  dsimp only [processQueue.registerWork]
  rw [hold]
  exact ⟨_, rfl, rfl, PendingMap.slot_assign_self _ _ _,
    PendingMap.count_key_assign _ _ _ hord1⟩

theorem duplicate_index_is_reported_witness :
    State.sampleDuplicate.mPendingWork.ordered ∧
    processQueue.flush (sampleEnv [sampleOp 10 0 0]) State.sampleDuplicate
      = Except.ok (Exit.fallThrough, State.sampleDuplicate) ∧
    State.sampleDuplicate.mQueue = C2Work.fresh 1 10 4 :: [] ∧
    process Consts.sample (sampleEnv [sampleOp 10 0 0])
        { State.sampleDuplicate with mQueue := [] } (C2Work.fresh 1 10 4)
      = Except.ok (State.sampleProcessed 1 true, some (C2Work.fresh 1 10 4)) ∧
    PendingMap.slot (State.sampleProcessed 1 true).mPendingWork
      ((C2Work.fresh 1 10 4).frame_index % 2 ^ 32) = some (C2Work.fresh 1 10 0) ∧
    ∃ s', processQueue Consts.sample (sampleEnv [sampleOp 10 0 0]) State.sampleDuplicate
        = Except.ok s' ∧
      s'.delivered = (State.sampleProcessed 1 true).delivered
        ++ [{ C2Work.fresh 1 10 0 with result := status_t.C2_CORRUPTED }] ∧
      PendingMap.slot s'.mPendingWork ((C2Work.fresh 1 10 4).frame_index % 2 ^ 32)
        = some (C2Work.fresh 1 10 4) ∧
      (s'.mPendingWork.map Prod.fst).count ((C2Work.fresh 1 10 4).frame_index % 2 ^ 32) = 1 :=
  ⟨by simp [PendingMap.ordered, State.sampleDuplicate, State.sampleInFlight],
    rfl, rfl, rfl, rfl,
    duplicate_index_is_reported Consts.sample (sampleEnv [sampleOp 10 0 0])
      State.sampleDuplicate State.sampleDuplicate _ (C2Work.fresh 1 10 4) (C2Work.fresh 1 10 0)
      [] (some (C2Work.fresh 1 10 4))
      (by simp [PendingMap.ordered, State.sampleDuplicate, State.sampleInFlight])
      rfl rfl rfl rfl⟩

/-! ## Color aspects: idempotence and change detection -/

theorem colorAspectsDiffer_self (a : ColorAspects) : colorAspectsDiffer a a = false :=
  (colorAspectsDiffer_eq_false_iff a a).2 rfl

/-- C11: for every state and every pair (other, preferred), a second call of
`updateFinalColorAspects` with the same pair changes nothing at all (neither
the final record nor the pending-notify flag nor any other member), so calling
it twice leaves the same final record as calling it once. -/
theorem updateFinalColorAspects_idempotent (K : Consts) (s : State)
    (other preferred : ColorAspects) :
    updateFinalColorAspects K (updateFinalColorAspects K s other preferred) other preferred
      = updateFinalColorAspects K s other preferred := by
  have hfin := (updateFinalColorAspects_prefers K s other preferred).1
  generalize updateFinalColorAspects K s other preferred = s1 at hfin ⊢
  simp only [updateFinalColorAspects, hfin, colorAspectsDiffer_self, Bool.false_eq_true, if_false]

/-- C12: `colorAspectsDiffer` returns false exactly when all four fields are
equal; `updateFinalColorAspects` replaces the final record by the merged record
and sets the pending-notify flag when the merged record differs from the
current final record in at least one field, and changes nothing (final record
and flag included) when all four fields are equal. -/
theorem updateFinalColorAspects_updates_iff_differs (K : Consts) (s : State)
    (other preferred a b : ColorAspects) :
    (colorAspectsDiffer a b = false ↔
      a.mRange = b.mRange ∧ a.mPrimaries = b.mPrimaries ∧ a.mTransfer = b.mTransfer ∧
        a.mMatrixCoeffs = b.mMatrixCoeffs) ∧
    (s.mFinalColorAspects ≠ updateFinalColorAspects.newAspects K other preferred →
      updateFinalColorAspects K s other preferred =
        { s with mFinalColorAspects := updateFinalColorAspects.newAspects K other preferred
                 mUpdateColorAspects := true }) ∧
    (s.mFinalColorAspects = updateFinalColorAspects.newAspects K other preferred →
      updateFinalColorAspects K s other preferred = s) := by
  refine ⟨?_, ?_, ?_⟩
  · rw [colorAspectsDiffer_eq_false_iff]
    cases a
    cases b
    simp
  · intro hne
    have hd : colorAspectsDiffer s.mFinalColorAspects
        (updateFinalColorAspects.newAspects K other preferred) = true := by
      cases h : colorAspectsDiffer s.mFinalColorAspects
        (updateFinalColorAspects.newAspects K other preferred)
      · exact absurd ((colorAspectsDiffer_eq_false_iff _ _).1 h) hne
      · rfl
    simp only [updateFinalColorAspects, hd, if_true]
  · intro heq
    simp only [updateFinalColorAspects, (colorAspectsDiffer_eq_false_iff _ _).2 heq,
      Bool.false_eq_true, if_false]

theorem updateFinalColorAspects_updates_iff_differs_witness :
    (State.constructed.mFinalColorAspects
        ≠ updateFinalColorAspects.newAspects Consts.sample ⟨1, 1, 1, 1⟩ ⟨0, 2, 0, 2⟩ ∧
      updateFinalColorAspects Consts.sample State.constructed ⟨1, 1, 1, 1⟩ ⟨0, 2, 0, 2⟩ =
        { State.constructed with
          mFinalColorAspects :=
            updateFinalColorAspects.newAspects Consts.sample ⟨1, 1, 1, 1⟩ ⟨0, 2, 0, 2⟩
          mUpdateColorAspects := true }) ∧
    (State.constructed.mFinalColorAspects
        = updateFinalColorAspects.newAspects Consts.sample ⟨0, 0, 0, 0⟩ ⟨0, 0, 0, 0⟩ ∧
      updateFinalColorAspects Consts.sample State.constructed ⟨0, 0, 0, 0⟩ ⟨0, 0, 0, 0⟩
        = State.constructed) :=
  ⟨⟨by decide,
      (updateFinalColorAspects_updates_iff_differs Consts.sample State.constructed
        ⟨1, 1, 1, 1⟩ ⟨0, 2, 0, 2⟩ ⟨0, 0, 0, 0⟩ ⟨0, 0, 0, 0⟩).2.1 (by decide)⟩,
    ⟨by decide,
      (updateFinalColorAspects_updates_iff_differs Consts.sample State.constructed
        ⟨0, 0, 0, 0⟩ ⟨0, 0, 0, 0⟩ ⟨0, 0, 0, 0⟩ ⟨0, 0, 0, 0⟩).2.2 (by decide)⟩⟩

/-! ## Fatal engine codes -/

theorem process.loop_of_step_returned (K : Consts) (work : C2Work) (output : C2GraphicBlock)
    (workIndex : Nat) (e : EngineStep) (rest : List EngineStep) (inOffset : Nat)
    (s s' : State) (hin : inOffset < work.capacity)
    (hstep : process.step K work output workIndex e inOffset s
      = Except.ok (Exit.returned, s')) :
    process.loop K work output workIndex (e :: rest) inOffset s
      = Except.ok (Exit.returned, s') := by
  simp only [process.loop, hin, if_true, hstep]

/-- C13: for every decode step of `process` (the loop condition holds and the
request could be set up) whose error code has its low byte equal to the
unsupported-width/height code or to the memory-allocation-failed code:
`mSignalledError` is set and the step returns, which ends the loop whatever
answers the engine would give next, so no further decode step is issued for
the item; the step records the one decode call and changes neither the
geometry (width, height, stride) nor the Pending Table nor the listener. -/
theorem fatal_code_sets_error_and_returns (K : Consts) (work : C2Work)
    (output : C2GraphicBlock) (workIndex : Nat) (e : EngineStep) (rest : List EngineStep)
    (inOffset : Nat) (s : State)
    (hin : inOffset < work.capacity)
    (hargs : (setDecodeArgs s (some work.capacity) (some output) workIndex inOffset).1 = true)
    (hcode : e.op.u4_error_code &&& 0xFF = K.IVD_STREAM_WIDTH_HEIGHT_NOT_SUPPORTED ∨
      e.op.u4_error_code &&& 0xFF = K.IVD_MEM_ALLOC_FAILED) :
    ∃ s', process.step K work output workIndex e inOffset s = Except.ok (Exit.returned, s') ∧
      process.loop K work output workIndex (e :: rest) inOffset s
        = Except.ok (Exit.returned, s') ∧
      s'.mSignalledError = true ∧
      s'.calls = s.calls ++ [Call.decode
        (setDecodeArgs s (some work.capacity) (some output) workIndex inOffset).2] ∧
      s'.mWidth = s.mWidth ∧ s'.mHeight = s.mHeight ∧ s'.mStride = s.mStride ∧
      s'.mPendingWork = s.mPendingWork ∧ s'.delivered = s.delivered ∧
      s'.mQueue = s.mQueue ∧ s'.mAllocatedBlock = s.mAllocatedBlock := by
  have hstep : process.step K work output workIndex e inOffset s = Except.ok (Exit.returned,
      { s.call (Call.decode
          (setDecodeArgs s (some work.capacity) (some output) workIndex inOffset).2) with
        mSignalledError := true }) := by
    dsimp only [process.step]
    rw [if_neg (by simp [hargs])]
    rcases hcode with h | h
    · rw [if_pos (by simp [h])]
    · by_cases hu : (K.IVD_STREAM_WIDTH_HEIGHT_NOT_SUPPORTED == e.op.u4_error_code &&& 0xFF) = true
      · rw [if_pos hu]
      · rw [if_neg hu, if_pos (by simp [h])]
  exact ⟨_, hstep, process.loop_of_step_returned K work output workIndex e rest inOffset s _
    hin hstep, rfl, rfl, rfl, rfl, rfl, rfl, rfl, rfl, rfl⟩

theorem fatal_code_sets_error_and_returns_witness :
    (0 < (C2Work.fresh 2 10 0).capacity) ∧
    (setDecodeArgs State.sampleInFlight (some (C2Work.fresh 2 10 0).capacity)
      (some ⟨320, 240⟩) 2 0).1 = true ∧
    ((({ sampleOp 0 0 0 with u4_error_code := 0x12b } : ivd_video_decode_op_t).u4_error_code
          &&& 0xFF = Consts.sample.IVD_STREAM_WIDTH_HEIGHT_NOT_SUPPORTED) ∨
      (({ sampleOp 0 0 0 with u4_error_code := 0x12b } : ivd_video_decode_op_t).u4_error_code
          &&& 0xFF = Consts.sample.IVD_MEM_ALLOC_FAILED)) ∧
    ∃ s', process.step Consts.sample (C2Work.fresh 2 10 0) ⟨320, 240⟩ 2
        ⟨{ sampleOp 0 0 0 with u4_error_code := 0x12b }, none, true⟩ 0 State.sampleInFlight
        = Except.ok (Exit.returned, s') ∧
      process.loop Consts.sample (C2Work.fresh 2 10 0) ⟨320, 240⟩ 2
        (⟨{ sampleOp 0 0 0 with u4_error_code := 0x12b }, none, true⟩
          :: [⟨sampleOp 10 1 1, none, true⟩]) 0 State.sampleInFlight
        = Except.ok (Exit.returned, s') ∧
      s'.mSignalledError = true ∧
      s'.calls = State.sampleInFlight.calls ++ [Call.decode
        (setDecodeArgs State.sampleInFlight (some (C2Work.fresh 2 10 0).capacity)
          (some ⟨320, 240⟩) 2 0).2] ∧
      s'.mWidth = State.sampleInFlight.mWidth ∧ s'.mHeight = State.sampleInFlight.mHeight ∧
      s'.mStride = State.sampleInFlight.mStride ∧
      s'.mPendingWork = State.sampleInFlight.mPendingWork ∧
      s'.delivered = State.sampleInFlight.delivered ∧
      s'.mQueue = State.sampleInFlight.mQueue ∧
      s'.mAllocatedBlock = State.sampleInFlight.mAllocatedBlock :=
  ⟨by decide, by decide, Or.inr (by decide),
    fatal_code_sets_error_and_returns Consts.sample (C2Work.fresh 2 10 0) ⟨320, 240⟩ 2
      ⟨{ sampleOp 0 0 0 with u4_error_code := 0x12b }, none, true⟩
      [⟨sampleOp 10 1 1, none, true⟩] 0 State.sampleInFlight
      (by decide) (by decide) (Or.inr (by decide))⟩

/-! ## Resolution change -/

theorem State.sampleChanging_reached :
    processQueue Consts.sample (sampleEnv [sampleResChange]) State.sampleInFlight
      = Except.ok State.sampleChanging :=
  rfl

theorem process.step_of_resChanged (K : Consts) (work : C2Work)
    (output : C2GraphicBlock) (workIndex : Nat) (e : EngineStep) (inOffset : Nat) (s : State)
    (hargs : (setDecodeArgs s (some work.capacity) (some output) workIndex inOffset).1 = true)
    (hcode : e.op.u4_error_code &&& 0xFF = K.IVD_RES_CHANGED)
    (hk1 : K.IVD_STREAM_WIDTH_HEIGHT_NOT_SUPPORTED ≠ K.IVD_RES_CHANGED)
    (hk2 : K.IVD_MEM_ALLOC_FAILED ≠ K.IVD_RES_CHANGED)
    (hnot : ¬(s.mChangingResolution = true ∧ e.op.u4_output_present = 0)) :
    process.step K work output workIndex e inOffset s = Except.ok (Exit.returned,
      process.beginChange (process.decoded K e (s.call (Call.decode
        (setDecodeArgs s (some work.capacity) (some output) workIndex inOffset).2)))) := by
  obtain ⟨bca, fca, upd, hdec⟩ := process.decoded_shape K e (s.call (Call.decode
    (setDecodeArgs s (some work.capacity) (some output) workIndex inOffset).2))
  dsimp only [process.step]
  rw [if_neg (by simp [hargs]), if_neg (by simp [hcode, hk1]), if_neg (by simp [hcode, hk2]),
    if_neg, if_pos (by simp [hcode])]
  rw [hdec]
  simpa [State.call] using hnot

/-- C18: for every decode step of `process` in which the engine signals a
resolution change (low byte of the error code, a code different from the two
fatal ones) and which does not complete an earlier change: `mChangingResolution`
becomes true, the engine is put into flush mode exactly when `mFlushNeeded`
holds (a frame was decoded in this or an earlier step since `initDecoder`), and
the step returns, which ends the loop whatever the engine would answer next, so
no further decode step is issued and the input offset is not advanced. -/
theorem resolution_change_signal_begins_change (K : Consts) (work : C2Work)
    (output : C2GraphicBlock) (workIndex : Nat) (e : EngineStep) (rest : List EngineStep)
    (inOffset : Nat) (s : State)
    (hin : inOffset < work.capacity)
    (hargs : (setDecodeArgs s (some work.capacity) (some output) workIndex inOffset).1 = true)
    (hcode : e.op.u4_error_code &&& 0xFF = K.IVD_RES_CHANGED)
    (hk1 : K.IVD_STREAM_WIDTH_HEIGHT_NOT_SUPPORTED ≠ K.IVD_RES_CHANGED)
    (hk2 : K.IVD_MEM_ALLOC_FAILED ≠ K.IVD_RES_CHANGED)
    (hnot : ¬(s.mChangingResolution = true ∧ e.op.u4_output_present = 0)) :
    ∃ s', process.step K work output workIndex e inOffset s = Except.ok (Exit.returned, s') ∧
      process.loop K work output workIndex (e :: rest) inOffset s
        = Except.ok (Exit.returned, s') ∧
      s'.mChangingResolution = true ∧
      s'.mFlushNeeded = (s.mFlushNeeded || e.op.u4_frame_decoded_flag != 0) ∧
      s'.calls = s.calls ++ [Call.decode
          (setDecodeArgs s (some work.capacity) (some output) workIndex inOffset).2,
          Call.getVuiParams]
        ++ (if s'.mFlushNeeded then [Call.setFlushMode] else []) := by
  obtain ⟨bca, fca, upd, hdec⟩ := process.decoded_shape K e (s.call (Call.decode
    (setDecodeArgs s (some work.capacity) (some output) workIndex inOffset).2))
  have hstep := process.step_of_resChanged K work output workIndex e inOffset s hargs hcode
    hk1 hk2 hnot
  refine ⟨_, hstep, process.loop_of_step_returned K work output workIndex e rest inOffset s _
    hin hstep, ?_, ?_, ?_⟩
  · dsimp only [process.beginChange]
    split <;> rfl
  · rw [hdec]
    dsimp only [process.beginChange]
    split <;> rfl
  · rw [hdec]
    dsimp only [process.beginChange, State.call, setFlushMode]
    split
    · rename_i hf
      simp [hf]
    · rename_i hf
      simp [hf]

theorem resolution_change_signal_begins_change_witness :
    (0 < (C2Work.fresh 2 10 0).capacity) ∧
    (setDecodeArgs State.sampleInFlight (some (C2Work.fresh 2 10 0).capacity)
      (some ⟨320, 240⟩) 2 0).1 = true ∧
    sampleResChange.u4_error_code &&& 0xFF = Consts.sample.IVD_RES_CHANGED ∧
    Consts.sample.IVD_STREAM_WIDTH_HEIGHT_NOT_SUPPORTED ≠ Consts.sample.IVD_RES_CHANGED ∧
    Consts.sample.IVD_MEM_ALLOC_FAILED ≠ Consts.sample.IVD_RES_CHANGED ∧
    ¬(State.sampleInFlight.mChangingResolution = true ∧ sampleResChange.u4_output_present = 0) ∧
    ∃ s', process.step Consts.sample (C2Work.fresh 2 10 0) ⟨320, 240⟩ 2
        ⟨sampleResChange, none, true⟩ 0 State.sampleInFlight
        = Except.ok (Exit.returned, s') ∧
      process.loop Consts.sample (C2Work.fresh 2 10 0) ⟨320, 240⟩ 2
        (⟨sampleResChange, none, true⟩ :: [⟨sampleOp 10 1 1, none, true⟩]) 0
        State.sampleInFlight
        = Except.ok (Exit.returned, s') ∧
      s'.mChangingResolution = true ∧
      s'.mFlushNeeded = (State.sampleInFlight.mFlushNeeded
        || sampleResChange.u4_frame_decoded_flag != 0) ∧
      s'.calls = State.sampleInFlight.calls ++ [Call.decode
          (setDecodeArgs State.sampleInFlight (some (C2Work.fresh 2 10 0).capacity)
            (some ⟨320, 240⟩) 2 0).2,
          Call.getVuiParams]
        ++ (if s'.mFlushNeeded then [Call.setFlushMode] else []) :=
  ⟨by decide, by decide, by decide, by decide, by decide, by decide,
    resolution_change_signal_begins_change Consts.sample (C2Work.fresh 2 10 0) ⟨320, 240⟩ 2
      ⟨sampleResChange, none, true⟩ [⟨sampleOp 10 1 1, none, true⟩] 0 State.sampleInFlight
      (by decide) (by decide) (by decide) (by decide) (by decide) (by decide)⟩

theorem process.completeChange_calls (e : EngineStep) (s : State) :
    (process.completeChange e s).calls = s.calls ++ [Call.reset]
      ++ (if e.resetOk then [Call.setNumCores] else [])
      ++ [Call.setParams (s.mWidth % 2 ^ 32)] ∧
    (process.completeChange e s).mChangingResolution = false ∧
    (process.completeChange e s).mReceivedEOS = false ∧
    (process.completeChange e s).mInputOffset = 0 ∧
    (process.completeChange e s).mStride = (process.completeChange e s).mWidth ∧
    (process.completeChange e s).mWidth = s.mWidth ∧
    (process.completeChange e s).mHeight = s.mHeight := by
  cases h : e.resetOk <;>
    simp [process.completeChange, resetDecoder, resetPlugin, setParams, setNumCores, State.call, h]

/-- C19 (amended): while `mChangingResolution` is set, a decode step of
`process` that is not ended by a fatal error code resets the decoder and the
plugin exactly when the engine reports no output in that step.  With no output
the step issues the reset call and returns with `mChangingResolution` false,
`mReceivedEOS` false, `mInputOffset` 0 and the stride re-applied, equal to the
current width; with output present the step issues no reset call and
`mChangingResolution` stays set. -/
theorem changing_resolution_resets_iff_no_output (K : Consts) (work : C2Work)
    (output : C2GraphicBlock) (workIndex : Nat) (e : EngineStep) (inOffset : Nat) (s : State)
    (hargs : (setDecodeArgs s (some work.capacity) (some output) workIndex inOffset).1 = true)
    (hunsup : e.op.u4_error_code &&& 0xFF ≠ K.IVD_STREAM_WIDTH_HEIGHT_NOT_SUPPORTED)
    (halloc : e.op.u4_error_code &&& 0xFF ≠ K.IVD_MEM_ALLOC_FAILED)
    (hchg : s.mChangingResolution = true) :
    (e.op.u4_output_present = 0 →
      ∃ s', process.step K work output workIndex e inOffset s
          = Except.ok (Exit.returned, s') ∧
        s'.calls = s.calls ++ [Call.decode
            (setDecodeArgs s (some work.capacity) (some output) workIndex inOffset).2,
            Call.getVuiParams, Call.reset]
          ++ (if e.resetOk then [Call.setNumCores] else [])
          ++ [Call.setParams (s.mWidth % 2 ^ 32)] ∧
        s'.mChangingResolution = false ∧ s'.mReceivedEOS = false ∧ s'.mInputOffset = 0 ∧
        s'.mStride = s'.mWidth ∧ s'.mWidth = s.mWidth ∧ s'.mHeight = s.mHeight) ∧
    (e.op.u4_output_present ≠ 0 →
      (exitState (process.step K work output workIndex e inOffset s)).mChangingResolution
          = true ∧
        ∃ extra, (exitState (process.step K work output workIndex e inOffset s)).calls
            = s.calls ++ extra ∧ Call.reset ∉ extra) := by
  obtain ⟨bca, fca, upd, hdec⟩ := process.decoded_shape K e (s.call (Call.decode
    (setDecodeArgs s (some work.capacity) (some output) workIndex inOffset).2))
  have hu : ¬((K.IVD_STREAM_WIDTH_HEIGHT_NOT_SUPPORTED == e.op.u4_error_code &&& 0xFF) = true) := by
    simpa using fun h => hunsup h.symm
  have ha : ¬((K.IVD_MEM_ALLOC_FAILED == e.op.u4_error_code &&& 0xFF) = true) := by
    simpa using fun h => halloc h.symm
  constructor
  · intro hout
    have hstep : process.step K work output workIndex e inOffset s = Except.ok (Exit.returned,
        process.completeChange e (process.decoded K e (s.call (Call.decode
          (setDecodeArgs s (some work.capacity) (some output) workIndex inOffset).2)))) := by
      dsimp only [process.step]
      rw [if_neg (by simp [hargs]), if_neg hu, if_neg ha, if_pos]
      rw [hdec]
      simp [State.call, hchg, hout]
    obtain ⟨h1, h2, h3, h4, h5, h6, h7⟩ := process.completeChange_calls e
      (process.decoded K e (s.call (Call.decode
        (setDecodeArgs s (some work.capacity) (some output) workIndex inOffset).2)))
    refine ⟨_, hstep, ?_, h2, h3, h4, h5, ?_, ?_⟩
    · rw [h1, hdec]
      simp [State.call]
    · rw [h6, hdec]
      rfl
    · rw [h7, hdec]
      rfl
  · intro hout
    dsimp only [process.step]
    rw [if_neg (by simp [hargs]), if_neg hu, if_neg ha, if_neg (by simp [hout])]
    split
    · -- the engine signals a further change
      refine ⟨?_, ?_⟩
      · dsimp only [exitState, process.beginChange]
        split <;> rfl
      · rw [hdec]
        dsimp only [exitState, process.beginChange, setFlushMode, State.call]
        split
        · exact ⟨[Call.decode (setDecodeArgs s (some work.capacity) (some output) workIndex inOffset).2,
            Call.getVuiParams, Call.setFlushMode], by simp, by simp⟩
        · exact ⟨[Call.decode (setDecodeArgs s (some work.capacity) (some output) workIndex inOffset).2,
            Call.getVuiParams], by simp, by simp⟩
    · obtain ⟨blk, w, h, upd2, hsig⟩ := process.signals_shape e.op
        (process.decoded K e (s.call (Call.decode
          (setDecodeArgs s (some work.capacity) (some output) workIndex inOffset).2)))
      split
      · rename_i s2 heq
        have hs2 : s2 = _ := (congrArg Prod.snd heq).symm.trans hsig
        subst hs2
        rw [hdec]
        exact ⟨by simp [exitState, State.call, hchg],
          [Call.decode (setDecodeArgs s (some work.capacity) (some output) workIndex inOffset).2,
            Call.getVuiParams], by simp [exitState, State.call], by simp⟩
      · rename_i s2 heq
        have hs2 : s2 = _ := (congrArg Prod.snd heq).symm.trans hsig
        obtain ⟨pend, del, fl, eos, off, hout2, -⟩ := process.output_shape e.op s2
        have hfin : exitState (match process.output e.op s2 with
            | Except.error c => Except.error c
            | Except.ok s => Except.ok (Exit.fallThrough, s))
            = finalState (process.output e.op s2) := by
          cases process.output e.op s2 <;> rfl
        rw [hfin, hout2, hs2, hdec]
        exact ⟨by simp [State.call, hchg],
          [Call.decode (setDecodeArgs s (some work.capacity) (some output) workIndex inOffset).2,
            Call.getVuiParams], by simp [State.call], by simp⟩

theorem changing_resolution_resets_iff_no_output_witness :
    (setDecodeArgs State.sampleChanging (some (C2Work.fresh 3 10 0).capacity)
      (some ⟨320, 240⟩) 3 0).1 = true ∧
    (sampleOp 10 0 0).u4_error_code &&& 0xFF
      ≠ Consts.sample.IVD_STREAM_WIDTH_HEIGHT_NOT_SUPPORTED ∧
    (sampleOp 10 0 0).u4_error_code &&& 0xFF ≠ Consts.sample.IVD_MEM_ALLOC_FAILED ∧
    State.sampleChanging.mChangingResolution = true ∧
    (sampleOp 10 0 0).u4_output_present = 0 ∧
    ∃ s', process.step Consts.sample (C2Work.fresh 3 10 0) ⟨320, 240⟩ 3
        ⟨sampleOp 10 0 0, none, true⟩ 0 State.sampleChanging
        = Except.ok (Exit.returned, s') ∧
      s'.calls = State.sampleChanging.calls ++ [Call.decode
          (setDecodeArgs State.sampleChanging (some (C2Work.fresh 3 10 0).capacity)
            (some ⟨320, 240⟩) 3 0).2,
          Call.getVuiParams, Call.reset]
        ++ (if (⟨sampleOp 10 0 0, none, true⟩ : EngineStep).resetOk
            then [Call.setNumCores] else [])
        ++ [Call.setParams (State.sampleChanging.mWidth % 2 ^ 32)] ∧
      s'.mChangingResolution = false ∧ s'.mReceivedEOS = false ∧ s'.mInputOffset = 0 ∧
      s'.mStride = s'.mWidth ∧ s'.mWidth = State.sampleChanging.mWidth ∧
      s'.mHeight = State.sampleChanging.mHeight :=
  ⟨by decide, by decide, by decide, rfl, rfl,
    (changing_resolution_resets_iff_no_output Consts.sample (C2Work.fresh 3 10 0) ⟨320, 240⟩ 3
      ⟨sampleOp 10 0 0, none, true⟩ 0 State.sampleChanging
      (by decide) (by decide) (by decide) rfl).1 rfl⟩

/-- C19 as stated fails: `State.sampleChanging` is in the resolution-changing
state; the engine reports no output together with the memory-allocation-failed
code.  The step returns on the fatal code: no reset call is issued and
`mChangingResolution` is still set. -/
theorem fatal_code_while_changing_does_not_reset :
    State.sampleChanging.mChangingResolution = true ∧
    ∃ s', process.step Consts.sample (C2Work.fresh 3 10 0) ⟨320, 240⟩ 3
        ⟨{ sampleOp 0 0 0 with u4_error_code := Consts.sample.IVD_MEM_ALLOC_FAILED },
          none, true⟩ 0 State.sampleChanging
        = Except.ok (Exit.returned, s') ∧
      s'.mChangingResolution = true ∧
      s'.calls = State.sampleChanging.calls ++
        [Call.decode ⟨3, some 0, 10, (76800, 19200, 19200), OutPlanes.view ⟨320, 240⟩⟩] ∧
      s'.mSignalledError = true := by
  simp [State.sampleChanging, State.sampleInFlight, State.started, State.constructed,
    C2Work.fresh, sampleOp, Consts.sample, process.step, setDecodeArgs, State.call, and_0xFF]

/-! ## The error flag -/

theorem process_of_signalled (K : Consts) (env : Env) (s : State) (work : C2Work)
    (herr : s.mSignalledError = true) : process K env s work = Except.ok (s, some work) := by
  simp [process, herr]

theorem processQueue.flushLoop_signalled (ops : List ivd_video_decode_op_t) (s : State) :
    (finalState (processQueue.flushLoop ops s)).mSignalledError = s.mSignalledError := by
  induction ops generalizing s with
  | nil => rfl
  | cons op rest ih =>
    dsimp only [processQueue.flushLoop]
    split
    · rfl
    · rw [ih]
      rfl

theorem processQueue.flush_signalled (env : Env) (s : State) :
    (exitState (processQueue.flush env s)).mSignalledError = s.mSignalledError := by
  dsimp only [processQueue.flush]
  split
  · split
    · rfl
    · have h := processQueue.flushLoop_signalled env.flushSteps
        { setFlushMode s with mFlushOutBuffer := some (processQueue.bufferSize (setFlushMode s)) }
      revert h
      cases processQueue.flushLoop env.flushSteps
        { setFlushMode s with
          mFlushOutBuffer := some (processQueue.bufferSize (setFlushMode s)) } with
      | error c => exact id
      | ok s1 =>
        intro h
        dsimp only [exitState, finalState] at h ⊢
        split <;> exact h
  · rfl

theorem processQueue.registerWork_signalled (s : State) (w : C2Work) :
    (finalState (processQueue.registerWork s (some w))).mSignalledError
      = s.mSignalledError := by
  dsimp only [processQueue.registerWork]
  split <;> rfl

theorem processQueue_signalled (K : Consts) (env : Env) (s : State)
    (herr : s.mSignalledError = true) :
    (finalState (processQueue K env s)).mSignalledError = true := by
  have hfl := processQueue.flush_signalled env s
  rw [herr] at hfl
  dsimp only [processQueue]
  revert hfl
  cases processQueue.flush env s with
  | error c => exact id
  | ok r =>
    obtain ⟨x, s1⟩ := r
    intro hfl
    cases x with
    | returned => exact hfl
    | fallThrough =>
      dsimp only [exitState] at hfl
      dsimp only [processQueue.dequeue]
      split
      · exact hfl
      · rename_i work rest hq
        rw [process_of_signalled K env { s1 with mQueue := rest } work hfl]
        exact (processQueue.registerWork_signalled _ work).trans hfl

/-- C14 (amended): once `mSignalledError` is set, `process` returns at once
for every later work item with the state as it was (so it issues no engine
call and delivers nothing), and the flag stays set across `queue_nb`,
`flush_sm`, `drain_nb` and every `processQueue` iteration, however the
iteration ends.  A `stop()` that times out leaves the flag set; a `stop()` that
does not time out clears it, whether or not the engine reset succeeds;
`reset()` calls `stop()` only while the worker thread runs. -/
theorem signalled_error_stays_until_stop (K : Consts) (s : State)
    (herr : s.mSignalledError = true) :
    (∀ env work, process K env s work = Except.ok (s, some work)) ∧
    (∀ items, (queue_nb s items).2.1.mSignalledError = true) ∧
    (∀ flushedWork, (flush_sm s flushedWork).2.1.mSignalledError = true) ∧
    (drain_nb K s).2.mSignalledError = true ∧
    (∀ env, (finalState (processQueue K env s)).mSignalledError = true) ∧
    (∀ exits resetOk, (stop s exits resetOk).1 = status_t.C2_TIMED_OUT →
      (stop s exits resetOk).2.mSignalledError = true) ∧
    (∀ exits resetOk, (stop s exits resetOk).1 = status_t.C2_OK →
      (stop s exits resetOk).2.mSignalledError = false) ∧
    (∀ exits resetOk, (reset s exits resetOk).mSignalledError = !(s.mRunning && exits)) := by
  refine ⟨fun env work => process_of_signalled K env s work herr, ?_, ?_, ?_,
    fun env => processQueue_signalled K env s herr, ?_, ?_, ?_⟩
  · intro items
    dsimp only [queue_nb]
    split <;> exact herr
  · intro flushedWork
    dsimp only [flush_sm]
    split <;> exact herr
  · dsimp only [drain_nb]
    split
    · exact herr
    · split <;> exact herr
  · intro exits resetOk
    cases hr : s.mRunning <;> cases exits <;> cases resetOk <;>
      simp [stop, hr, herr, resetDecoder, resetPlugin, setNumCores, State.call]
  · intro exits resetOk
    cases hr : s.mRunning <;> cases exits <;> cases resetOk <;>
      simp [stop, hr, herr, resetDecoder, resetPlugin, setNumCores, State.call]
  · intro exits resetOk
    cases hr : s.mRunning <;> cases exits <;> cases resetOk <;>
      simp [reset, stop, hr, herr, resetDecoder, resetPlugin, setNumCores, State.call]

theorem signalled_error_stays_until_stop_witness :
    State.sampleFailed.mSignalledError = true ∧
    (∀ env work, process Consts.sample env State.sampleFailed work
      = Except.ok (State.sampleFailed, some work)) ∧
    (∀ items, (queue_nb State.sampleFailed items).2.1.mSignalledError = true) ∧
    (∀ flushedWork, (flush_sm State.sampleFailed flushedWork).2.1.mSignalledError = true) ∧
    (drain_nb Consts.sample State.sampleFailed).2.mSignalledError = true ∧
    (∀ env, (finalState (processQueue Consts.sample env State.sampleFailed)).mSignalledError
      = true) ∧
    (∀ exits resetOk, (stop State.sampleFailed exits resetOk).1 = status_t.C2_TIMED_OUT →
      (stop State.sampleFailed exits resetOk).2.mSignalledError = true) ∧
    (∀ exits resetOk, (stop State.sampleFailed exits resetOk).1 = status_t.C2_OK →
      (stop State.sampleFailed exits resetOk).2.mSignalledError = false) ∧
    (∀ exits resetOk, (reset State.sampleFailed exits resetOk).mSignalledError
      = !(State.sampleFailed.mRunning && exits)) :=
  ⟨rfl, signalled_error_stays_until_stop Consts.sample State.sampleFailed rfl⟩

/-- C14 as stated fails: the component has signalled an error; `stop()` finds
the worker thread gone and the engine reports failure for the reset call.
`stop()` returns `C2_OK` and the flag is cleared all the same. -/
theorem stop_with_failed_reset_clears_error :
    State.sampleFailed.mSignalledError = true ∧
    (stop State.sampleFailed true false).1 = status_t.C2_OK ∧
    (stop State.sampleFailed true false).2.mSignalledError = false ∧
    (stop State.sampleFailed true false).2.calls = State.sampleFailed.calls ++ [Call.reset] := by
  decide

/-! ## What becomes of the item that met the resolution change -/

/-- C15, evaluated on `State.sampleInFlight`: while item 2 (10 input bytes) is
decoded, the engine signals a resolution change without consuming a byte.
`process` returns, `processQueue` moves item 2 into the Pending Table, and the
queue is empty: every further worker iteration, whatever the engine would
answer, finds nothing to do and leaves the state as it is.  Item 2 is never
handed to `process` again and its 10 bytes are never fed to the engine. -/
theorem resolution_change_item_is_not_revisited :
    processQueue Consts.sample (sampleEnv [sampleResChange]) State.sampleInFlight
      = Except.ok State.sampleChanging ∧
    sampleResChange.u4_num_bytes_consumed = 0 ∧
    State.sampleChanging.mQueue = [] ∧
    PendingMap.slot State.sampleChanging.mPendingWork 2 = some (C2Work.fresh 2 10 0) ∧
    State.sampleChanging.mChangingResolution = true ∧
    ∀ env, processQueue Consts.sample env State.sampleChanging
      = Except.ok State.sampleChanging :=
  ⟨rfl, rfl, rfl, rfl, rfl, fun _ => rfl⟩

/-! ## Flush sub-mode -/

theorem process.ensureDecoder_shape (env : Env) (s : State) :
    ∃ calls extra ctx stride eos off fn chg,
      process.decoderState (process.ensureDecoder env s) =
        { s with calls := calls, mCodecCtx := ctx, mStride := stride
                 mReceivedEOS := eos, mInputOffset := off, mFlushNeeded := fn
                 mChangingResolution := chg } ∧
      calls = s.calls ++ extra ∧
      ∀ c ∈ extra, c = Call.create ∨ c = Call.delete ∨ c = Call.setNumCores ∨
        c = Call.getVersion ∨ ∃ n, c = Call.setParams n := by
  dsimp only [process.ensureDecoder]
  split
  · cases h1 : env.createOk <;> cases h2 : env.createHandle <;> cases h3 : env.deleteOk
    all_goals
      simp only [initDecoder, initDecoder.configure, deInitDecoder, resetPlugin, setParams,
        setNumCores, State.call, process.decoderState, Bool.not_true, Bool.not_false,
        if_true, if_false, Bool.false_eq_true]
    · exact ⟨_, [Call.create], _, _, _, _, _, _, rfl, rfl, by simp⟩
    · exact ⟨_, [Call.create], _, _, _, _, _, _, rfl, rfl, by simp⟩
    · exact ⟨_, [Call.create, Call.delete], _, _, _, _, _, _, rfl, by simp, by simp⟩
    · exact ⟨_, [Call.create, Call.delete], _, _, _, _, _, _, rfl, by simp, by simp⟩
    · exact ⟨_, [Call.create], _, _, _, _, _, _, rfl, rfl, by simp⟩
    · exact ⟨_, [Call.create], _, _, _, _, _, _, rfl, rfl, by simp⟩
    · exact ⟨_, [Call.create, Call.setParams (s.mWidth % 2 ^ 32), Call.setNumCores,
        Call.getVersion], _, _, _, _, _, _, rfl, by simp, by simp⟩
    · exact ⟨_, [Call.create, Call.setParams (s.mWidth % 2 ^ 32), Call.setNumCores,
        Call.getVersion], _, _, _, _, _, _, rfl, by simp, by simp⟩
  · exact ⟨_, [], _, _, _, _, _, _, rfl, by simp, by simp⟩

/-- C20, evaluated on `State.sampleInFlight` with an END_OF_STREAM item of 10
bytes at the front of the queue: `process` completes the decode loop, has seen
END_OF_STREAM, and issues the flush command to the engine (`setFlushMode`), but
`mIsInFlush` is still false afterwards, so the next worker iteration skips the
flush drain, whatever the outside world would answer. -/
theorem eos_item_does_not_enter_flush_mode :
    ∃ s', processQueue Consts.sample (sampleEnv [sampleOp 10 0 0])
        { State.sampleInFlight with mQueue := [C2Work.fresh 2 10 4] } = Except.ok s' ∧
      s'.mReceivedEOS = true ∧
      s'.mIsInFlush = false ∧
      s'.calls = State.sampleInFlight.calls ++
        [Call.decode ⟨2, some 0, 10, (76800, 19200, 19200), OutPlanes.view ⟨320, 240⟩⟩,
          Call.getVuiParams, Call.setFlushMode] ∧
      ∀ env, processQueue.flush env s' = Except.ok (Exit.fallThrough, s') :=
  ⟨_, rfl, rfl, rfl, rfl, fun _ => rfl⟩

/-! ## Input carried by decode requests -/

theorem setDecodeArgs_no_input (s : State) (outBuffer : Option C2GraphicBlock)
    (workIndex inOffset : Nat) :
    (setDecodeArgs s none outBuffer workIndex inOffset).2.pv_stream_buffer = none ∧
    (setDecodeArgs s none outBuffer workIndex inOffset).2.u4_num_Bytes = 0 := by
  dsimp only [setDecodeArgs]
  cases outBuffer with
  | none => exact ⟨rfl, rfl⟩
  | some out =>
    dsimp only
    split <;> exact ⟨rfl, rfl⟩

theorem setDecodeArgs_input (s : State) (capacity : Nat) (outBuffer : Option C2GraphicBlock)
    (workIndex inOffset : Nat) :
    (setDecodeArgs s (some capacity) outBuffer workIndex inOffset).2.pv_stream_buffer
      = some inOffset ∧
    (setDecodeArgs s (some capacity) outBuffer workIndex inOffset).2.u4_ts = workIndex := by
  dsimp only [setDecodeArgs]
  cases outBuffer with
  | none => exact ⟨rfl, rfl⟩
  | some out =>
    dsimp only
    split <;> exact ⟨rfl, rfl⟩

theorem processQueue.flushLoop_calls (ops : List ivd_video_decode_op_t) (s : State) :
    ∃ extra, (finalState (processQueue.flushLoop ops s)).calls = s.calls ++ extra ∧
      ∀ c ∈ extra, c.carriesInput = false := by
  induction ops generalizing s with
  | nil => exact ⟨[], by simp [processQueue.flushLoop, finalState], by simp⟩
  | cons op rest ih =>
    have hnull : (Call.decode (setDecodeArgs s none none 0 0).2).carriesInput = false := by
      simp [Call.carriesInput, (setDecodeArgs_no_input s none 0 0).1]
    dsimp only [processQueue.flushLoop]
    split
    · refine ⟨[Call.decode (setDecodeArgs s none none 0 0).2], rfl, ?_⟩
      intro c hc
      rw [List.mem_singleton.1 hc]
      exact hnull
    · obtain ⟨extra, h1, h2⟩ := ih (s.call (Call.decode (setDecodeArgs s none none 0 0).2))
      refine ⟨Call.decode (setDecodeArgs s none none 0 0).2 :: extra, ?_, ?_⟩
      · rw [h1]
        simp [State.call]
      · intro c hc
        rcases List.mem_cons.1 hc with h | h
        · rw [h]
          exact hnull
        · exact h2 c h

theorem processQueue.flush_calls (env : Env) (s : State) :
    ∃ extra, (exitState (processQueue.flush env s)).calls = s.calls ++ extra ∧
      ∀ c ∈ extra, c.carriesInput = false := by
  dsimp only [processQueue.flush]
  split
  · split
    · exact ⟨[Call.setFlushMode], rfl, by simp [Call.carriesInput]⟩
    · obtain ⟨extra, h1, h2⟩ := processQueue.flushLoop_calls env.flushSteps
        { setFlushMode s with mFlushOutBuffer := some (processQueue.bufferSize (setFlushMode s)) }
      refine ⟨Call.setFlushMode :: extra, ?_, ?_⟩
      · revert h1
        cases processQueue.flushLoop env.flushSteps
          { setFlushMode s with
            mFlushOutBuffer := some (processQueue.bufferSize (setFlushMode s)) } with
        | error c =>
          intro h1
          dsimp only [exitState, finalState] at h1 ⊢
          rw [h1]
          simp [setFlushMode, State.call]
        | ok s1 =>
          intro h1
          dsimp only [exitState, finalState] at h1 ⊢
          have : (if s1.mFlushOutBuffer.isSome = true then
              { s1 with mFlushOutBuffer := none } else s1).calls = s1.calls := by
            split <;> rfl
          show (if s1.mFlushOutBuffer.isSome = true then
              { s1 with mFlushOutBuffer := none } else s1).calls = _
          rw [this, h1]
          simp [setFlushMode, State.call]
      · intro c hc
        rcases List.mem_cons.1 hc with h | h
        · rw [h]
          rfl
        · exact h2 c h
  · exact ⟨[], by simp [exitState], by simp⟩

theorem process.step_calls (K : Consts) (work : C2Work) (output : C2GraphicBlock)
    (workIndex : Nat) (e : EngineStep) (inOffset : Nat) (s : State)
    (hargs : (setDecodeArgs s (some work.capacity) (some output) workIndex inOffset).1 = true) :
    ∃ more, (exitState (process.step K work output workIndex e inOffset s)).calls
      = s.calls ++ Call.decode
          (setDecodeArgs s (some work.capacity) (some output) workIndex inOffset).2 :: more := by
  obtain ⟨bca, fca, upd, hdec⟩ := process.decoded_shape K e (s.call (Call.decode
    (setDecodeArgs s (some work.capacity) (some output) workIndex inOffset).2))
  dsimp only [process.step]
  rw [if_neg (by simp [hargs])]
  split
  · exact ⟨[], rfl⟩
  · split
    · exact ⟨[], rfl⟩
    · split
      · obtain ⟨h1, -⟩ := process.completeChange_calls e (process.decoded K e (s.call
          (Call.decode (setDecodeArgs s (some work.capacity) (some output) workIndex inOffset).2)))
        dsimp only [exitState]
        rw [h1, hdec]
        exact ⟨_, by simp [State.call]; rfl⟩
      · split
        · rw [hdec]
          dsimp only [exitState, process.beginChange, setFlushMode, State.call]
          split
          · exact ⟨[Call.getVuiParams, Call.setFlushMode], by simp⟩
          · exact ⟨[Call.getVuiParams], by simp⟩
        · obtain ⟨blk, w, h, upd2, hsig⟩ := process.signals_shape e.op
            (process.decoded K e (s.call (Call.decode
              (setDecodeArgs s (some work.capacity) (some output) workIndex inOffset).2)))
          split
          · rename_i s2 heq
            have hs2 : s2 = _ := (congrArg Prod.snd heq).symm.trans hsig
            subst hs2
            rw [hdec]
            exact ⟨[Call.getVuiParams], by simp [exitState, State.call]⟩
          · rename_i s2 heq
            have hs2 : s2 = _ := (congrArg Prod.snd heq).symm.trans hsig
            obtain ⟨pend, del, fl, eos, off, hout2, -⟩ := process.output_shape e.op s2
            have hfin : exitState (match process.output e.op s2 with
                | Except.error c => Except.error c
                | Except.ok s => Except.ok (Exit.fallThrough, s))
                = finalState (process.output e.op s2) := by
              cases process.output e.op s2 <;> rfl
            rw [hfin, hout2, hs2, hdec]
            exact ⟨[Call.getVuiParams], by simp [State.call]⟩

theorem processQueue.flushLoop_changing (ops : List ivd_video_decode_op_t) (s : State) :
    (finalState (processQueue.flushLoop ops s)).mChangingResolution
      = s.mChangingResolution := by
  induction ops generalizing s with
  | nil => rfl
  | cons op rest ih =>
    dsimp only [processQueue.flushLoop]
    split
    · rfl
    · rw [ih]
      rfl

theorem processQueue.flush_changing (env : Env) (s : State) :
    (exitState (processQueue.flush env s)).mChangingResolution = s.mChangingResolution := by
  dsimp only [processQueue.flush]
  split
  · split
    · rfl
    · have h := processQueue.flushLoop_changing env.flushSteps
        { setFlushMode s with mFlushOutBuffer := some (processQueue.bufferSize (setFlushMode s)) }
      revert h
      cases processQueue.flushLoop env.flushSteps
        { setFlushMode s with
          mFlushOutBuffer := some (processQueue.bufferSize (setFlushMode s)) } with
      | error c => exact id
      | ok s1 =>
        intro h
        dsimp only [exitState, finalState] at h ⊢
        split <;> exact h
  · rfl

/-- C16 as stated fails: `State.sampleChanging` is in the resolution-changing
state; item 3 (10 bytes) is enqueued and the engine answers its decode request
with the buffered output of item 1.  The request that `process` issued carries
the 10 input bytes of item 3, and `mChangingResolution` is set before and after. -/
theorem decode_request_carries_input_while_changing :
    State.sampleChanging.mChangingResolution = true ∧
    ∃ s', processQueue Consts.sample (sampleEnv [sampleOp 10 1 1])
        { State.sampleChanging with mQueue := [C2Work.fresh 3 10 0] } = Except.ok s' ∧
      s'.mChangingResolution = true ∧
      s'.calls = State.sampleChanging.calls ++
        [Call.decode ⟨3, some 0, 10, (76800, 19200, 19200), OutPlanes.view ⟨320, 240⟩⟩,
          Call.getVuiParams] ∧
      (Call.decode ⟨3, some 0, 10, (76800, 19200, 19200), OutPlanes.view ⟨320, 240⟩⟩
        ).carriesInput = true :=
  ⟨rfl, _, rfl, rfl, rfl, rfl⟩

/-! ## The output block across a resolution change -/

theorem process.beginChange_block (s : State) :
    (process.beginChange s).mAllocatedBlock = s.mAllocatedBlock := by
  dsimp only [process.beginChange]
  split <;> rfl

/-- C17 as stated fails: in `State.sampleInFlight` the engine signals a
resolution change; the state afterwards, `State.sampleChanging`, still holds
the 320x240 block.  Item 3 is enqueued and decoded next: its decode request
writes into that block and no block was allocated in between (the calls since
the signal are the decode request, the VUI query and the reset that completes
the change). -/
theorem no_allocation_after_resolution_change_signal :
    processQueue Consts.sample (sampleEnv [sampleResChange]) State.sampleInFlight
      = Except.ok State.sampleChanging ∧
    State.sampleChanging.mAllocatedBlock = some ⟨320, 240⟩ ∧
    ∃ s', processQueue Consts.sample (sampleEnv [sampleOp 10 0 0])
        { State.sampleChanging with mQueue := [C2Work.fresh 3 10 0] } = Except.ok s' ∧
      s'.calls = State.sampleChanging.calls ++
        [Call.decode ⟨3, some 0, 10, (76800, 19200, 19200), OutPlanes.view ⟨320, 240⟩⟩,
          Call.getVuiParams, Call.reset, Call.setNumCores, Call.setParams 320] :=
  ⟨rfl, rfl, _, rfl, rfl⟩

/-! ## Which record the merge prefers -/

theorem updateFinalColorAspects_final (K : Consts) (s : State)
    (other preferred : ColorAspects) :
    (updateFinalColorAspects K s other preferred).mFinalColorAspects
      = updateFinalColorAspects.newAspects K other preferred := by
  unfold updateFinalColorAspects
  by_cases h : colorAspectsDiffer s.mFinalColorAspects
      (updateFinalColorAspects.newAspects K other preferred) = true
  · simp [h]
  · simp only [h]
    exact (colorAspectsDiffer_eq_false_iff _ _).1 (by simpa using h)

theorem updateFinalColorAspects_others (K : Consts) (s : State)
    (other preferred : ColorAspects) :
    (updateFinalColorAspects K s other preferred).mBitstreamColorAspects
      = s.mBitstreamColorAspects ∧
    (updateFinalColorAspects K s other preferred).mDefaultColorAspects
      = s.mDefaultColorAspects := by
  unfold updateFinalColorAspects
  dsimp only
  split <;> exact ⟨rfl, rfl⟩

/-- C21 (amended): when the engine reports bitstream color aspects that differ
from the stored ones, `getVUIParams` stores them and derives the final record
with the bitstream aspects taking precedence over the default ones: each field
of the final record is the bitstream-reported value unless that value is the
field's Unspecified value, in which case it is the default record's value.  The
default record itself is not changed. -/
theorem bitstream_aspects_take_precedence (K : Consts) (s : State) (reported : ColorAspects)
    (hnew : colorAspectsDiffer reported s.mBitstreamColorAspects = true) :
    (getVUIParams K s (some reported)).mBitstreamColorAspects = reported ∧
    (getVUIParams K s (some reported)).mDefaultColorAspects = s.mDefaultColorAspects ∧
    (getVUIParams K s (some reported)).mFinalColorAspects.mRange
      = (if reported.mRange ≠ K.RangeUnspecified then reported.mRange
          else s.mDefaultColorAspects.mRange) ∧
    (getVUIParams K s (some reported)).mFinalColorAspects.mPrimaries
      = (if reported.mPrimaries ≠ K.PrimariesUnspecified then reported.mPrimaries
          else s.mDefaultColorAspects.mPrimaries) ∧
    (getVUIParams K s (some reported)).mFinalColorAspects.mTransfer
      = (if reported.mTransfer ≠ K.TransferUnspecified then reported.mTransfer
          else s.mDefaultColorAspects.mTransfer) ∧
    (getVUIParams K s (some reported)).mFinalColorAspects.mMatrixCoeffs
      = (if reported.mMatrixCoeffs ≠ K.MatrixUnspecified then reported.mMatrixCoeffs
          else s.mDefaultColorAspects.mMatrixCoeffs) := by
  have hget : getVUIParams K s (some reported)
      = updateFinalColorAspects K
          { s.call Call.getVuiParams with mBitstreamColorAspects := reported }
          s.mDefaultColorAspects reported := by
    dsimp only [getVUIParams, State.call, handleColorAspectsChange]
    rw [if_pos hnew]
  rw [hget, updateFinalColorAspects_final]
  obtain ⟨h1, h2⟩ := updateFinalColorAspects_others K
    { s.call Call.getVuiParams with mBitstreamColorAspects := reported }
    s.mDefaultColorAspects reported
  refine ⟨h1, h2, ?_, ?_, ?_, ?_⟩
  all_goals simp [updateFinalColorAspects.newAspects]

theorem bitstream_aspects_take_precedence_witness :
    colorAspectsDiffer ⟨5, 0, 7, 0⟩ State.sampleWithDefaults.mBitstreamColorAspects = true ∧
    (getVUIParams Consts.sample State.sampleWithDefaults (some ⟨5, 0, 7, 0⟩)).mBitstreamColorAspects
      = ⟨5, 0, 7, 0⟩ ∧
    (getVUIParams Consts.sample State.sampleWithDefaults (some ⟨5, 0, 7, 0⟩)).mDefaultColorAspects
      = State.sampleWithDefaults.mDefaultColorAspects ∧
    (getVUIParams Consts.sample State.sampleWithDefaults
        (some ⟨5, 0, 7, 0⟩)).mFinalColorAspects.mRange
      = (if (5 : Nat) ≠ Consts.sample.RangeUnspecified then 5
          else State.sampleWithDefaults.mDefaultColorAspects.mRange) ∧
    (getVUIParams Consts.sample State.sampleWithDefaults
        (some ⟨5, 0, 7, 0⟩)).mFinalColorAspects.mPrimaries
      = (if (0 : Nat) ≠ Consts.sample.PrimariesUnspecified then 0
          else State.sampleWithDefaults.mDefaultColorAspects.mPrimaries) ∧
    (getVUIParams Consts.sample State.sampleWithDefaults
        (some ⟨5, 0, 7, 0⟩)).mFinalColorAspects.mTransfer
      = (if (7 : Nat) ≠ Consts.sample.TransferUnspecified then 7
          else State.sampleWithDefaults.mDefaultColorAspects.mTransfer) ∧
    (getVUIParams Consts.sample State.sampleWithDefaults
        (some ⟨5, 0, 7, 0⟩)).mFinalColorAspects.mMatrixCoeffs
      = (if (0 : Nat) ≠ Consts.sample.MatrixUnspecified then 0
          else State.sampleWithDefaults.mDefaultColorAspects.mMatrixCoeffs) :=
  ⟨by decide,
    bitstream_aspects_take_precedence Consts.sample State.sampleWithDefaults ⟨5, 0, 7, 0⟩
      (by decide)⟩

/-- C21 as stated fails: with default aspects (1, 2, 3, 4), none of them
Unspecified, and reported bitstream aspects (5, 6, 7, 8), the final record is
(5, 6, 7, 8): no field has the default record's value. -/
theorem default_aspects_do_not_take_precedence :
    State.sampleWithDefaults.mDefaultColorAspects = ⟨1, 2, 3, 4⟩ ∧
    State.sampleWithDefaults.mDefaultColorAspects.mRange ≠ Consts.sample.RangeUnspecified ∧
    State.sampleWithDefaults.mDefaultColorAspects.mPrimaries
      ≠ Consts.sample.PrimariesUnspecified ∧
    State.sampleWithDefaults.mDefaultColorAspects.mTransfer
      ≠ Consts.sample.TransferUnspecified ∧
    State.sampleWithDefaults.mDefaultColorAspects.mMatrixCoeffs
      ≠ Consts.sample.MatrixUnspecified ∧
    colorAspectsDiffer ⟨5, 6, 7, 8⟩ State.sampleWithDefaults.mBitstreamColorAspects = true ∧
    (getVUIParams Consts.sample State.sampleWithDefaults (some ⟨5, 6, 7, 8⟩)).mFinalColorAspects
      = ⟨5, 6, 7, 8⟩ ∧
    (process.decoded Consts.sample ⟨sampleOp 10 0 0, some ⟨5, 6, 7, 8⟩, true⟩
      State.sampleWithDefaults).mFinalColorAspects = ⟨5, 6, 7, 8⟩ := by
  decide

/-! ## The pending color-aspects update -/

theorem State.samplePendingUpdate_reached :
    processQueue Consts.sample (sampleVuiEnv (sampleOp 10 0 0) ⟨5, 6, 7, 8⟩)
      State.sampleInFlight = Except.ok State.samplePendingUpdate :=
  rfl

theorem getVUIParams_keeps_update (K : Consts) (s : State) (vui : Option ColorAspects)
    (hupd : s.mUpdateColorAspects = true) :
    (getVUIParams K s vui).mUpdateColorAspects = true := by
  cases vui with
  | none => exact hupd
  | some ca =>
    dsimp only [getVUIParams, handleColorAspectsChange, updateFinalColorAspects, State.call]
    split
    · split
      · rfl
      · exact hupd
    · exact hupd

theorem process.decoded_keeps_update (K : Consts) (e : EngineStep) (s : State)
    (hupd : s.mUpdateColorAspects = true) :
    (process.decoded K e s).mUpdateColorAspects = true := by
  dsimp only [process.decoded]
  split
  · exact getVUIParams_keeps_update K s e.vui hupd
  · exact getVUIParams_keeps_update K s e.vui hupd

theorem process.signals_of_size (op : ivd_video_decode_op_t) (s : State)
    (hwd : 0 < op.u4_pic_wd) (hht : 0 < op.u4_pic_ht) :
    (process.signals op s).1 = Exit.fallThrough ∧
    (process.signals op s).2.mUpdateColorAspects = s.mUpdateColorAspects := by
  dsimp only [process.signals]
  rw [if_pos (by simp [hwd, hht])]
  split <;> exact ⟨rfl, rfl⟩

theorem process.output_update (op : ivd_video_decode_op_t) (s : State) :
    (finalState (process.output op s)).mUpdateColorAspects = s.mUpdateColorAspects := by
  obtain ⟨pend, del, fl, eos, off, h, -⟩ := process.output_shape op s
  rw [h]

/-- C22, evaluated: a decode step of `process` that starts with
`mUpdateColorAspects` set and reaches the evaluation of pending signals (request
set up, no fatal code, no resolution-change signal, no completion of an earlier
change) in which the engine reports a positive picture width and height ends
with `mUpdateColorAspects` still set, and does not return from `process`: the
flag is cleared only on the path for a zero width or height. -/
theorem color_update_survives_reported_size (K : Consts) (work : C2Work)
    (output : C2GraphicBlock) (workIndex : Nat) (e : EngineStep) (inOffset : Nat) (s : State)
    (hargs : (setDecodeArgs s (some work.capacity) (some output) workIndex inOffset).1 = true)
    (hk1 : e.op.u4_error_code &&& 0xFF ≠ K.IVD_STREAM_WIDTH_HEIGHT_NOT_SUPPORTED)
    (hk2 : e.op.u4_error_code &&& 0xFF ≠ K.IVD_MEM_ALLOC_FAILED)
    (hk3 : e.op.u4_error_code &&& 0xFF ≠ K.IVD_RES_CHANGED)
    (hnot : ¬(s.mChangingResolution = true ∧ e.op.u4_output_present = 0))
    (hwd : 0 < e.op.u4_pic_wd) (hht : 0 < e.op.u4_pic_ht)
    (hupd : s.mUpdateColorAspects = true) :
    (exitState (process.step K work output workIndex e inOffset s)).mUpdateColorAspects = true ∧
    ∀ s', process.step K work output workIndex e inOffset s ≠ Except.ok (Exit.returned, s') := by
  obtain ⟨bca, fca, upd, hdec⟩ := process.decoded_shape K e (s.call (Call.decode
    (setDecodeArgs s (some work.capacity) (some output) workIndex inOffset).2))
  have hupd2 := process.decoded_keeps_update K e (s.call (Call.decode
    (setDecodeArgs s (some work.capacity) (some output) workIndex inOffset).2)) hupd
  have hchg : (process.decoded K e (s.call (Call.decode
      (setDecodeArgs s (some work.capacity) (some output) workIndex inOffset).2))).mChangingResolution
      = s.mChangingResolution := by
    rw [hdec]
    rfl
  obtain ⟨hsig1, hsig2⟩ := process.signals_of_size e.op (process.decoded K e (s.call
    (Call.decode (setDecodeArgs s (some work.capacity) (some output) workIndex inOffset).2)))
    hwd hht
  have hout := process.output_update e.op (process.signals e.op (process.decoded K e (s.call
    (Call.decode (setDecodeArgs s (some work.capacity) (some output) workIndex inOffset).2)))).2
  dsimp only [process.step]
  rw [if_neg (by simp [hargs]), if_neg (by simpa using fun h => hk1 h.symm),
    if_neg (by simpa using fun h => hk2 h.symm),
    if_neg (by rw [hchg]; simpa using hnot), if_neg (by simpa using fun h => hk3 h.symm)]
  generalize process.decoded K e (s.call (Call.decode
    (setDecodeArgs s (some work.capacity) (some output) workIndex inOffset).2)) = s1
    at hsig1 hsig2 hout hupd2
  rcases hs : process.signals e.op s1 with ⟨x, s2⟩
  rw [hs] at hsig1 hsig2 hout
  dsimp only at hsig1 hsig2 hout
  subst hsig1
  dsimp only
  cases ho : process.output e.op s2 with
  | error c =>
    rw [ho] at hout
    exact ⟨by dsimp only [exitState]; rw [← hupd2, ← hsig2]; exact hout,
      fun s' h => by cases h⟩
  | ok s3 =>
    rw [ho] at hout
    exact ⟨by dsimp only [exitState]; rw [← hupd2, ← hsig2]; exact hout,
      fun s' h => by cases h⟩

theorem color_update_survives_reported_size_witness :
    (setDecodeArgs { State.samplePendingUpdate with mQueue := [] }
      (some (C2Work.fresh 3 10 0).capacity) (some ⟨320, 240⟩) 3 0).1 = true ∧
    (sampleOp 10 0 0).u4_error_code &&& 0xFF
      ≠ Consts.sample.IVD_STREAM_WIDTH_HEIGHT_NOT_SUPPORTED ∧
    (sampleOp 10 0 0).u4_error_code &&& 0xFF ≠ Consts.sample.IVD_MEM_ALLOC_FAILED ∧
    (sampleOp 10 0 0).u4_error_code &&& 0xFF ≠ Consts.sample.IVD_RES_CHANGED ∧
    ¬(State.samplePendingUpdate.mChangingResolution = true ∧
      (sampleOp 10 0 0).u4_output_present = 0) ∧
    0 < (sampleOp 10 0 0).u4_pic_wd ∧ 0 < (sampleOp 10 0 0).u4_pic_ht ∧
    State.samplePendingUpdate.mUpdateColorAspects = true ∧
    (exitState (process.step Consts.sample (C2Work.fresh 3 10 0) ⟨320, 240⟩ 3
      ⟨sampleOp 10 0 0, some ⟨5, 6, 7, 8⟩, true⟩ 0
      { State.samplePendingUpdate with mQueue := [] })).mUpdateColorAspects = true ∧
    ∃ s', processQueue Consts.sample (sampleVuiEnv (sampleOp 10 0 0) ⟨5, 6, 7, 8⟩)
        { State.samplePendingUpdate with mQueue := [C2Work.fresh 3 10 0] } = Except.ok s' ∧
      s'.mUpdateColorAspects = true :=
  ⟨by decide, by decide, by decide, by decide, by decide, by decide, by decide, rfl,
    (color_update_survives_reported_size Consts.sample (C2Work.fresh 3 10 0) ⟨320, 240⟩ 3
      ⟨sampleOp 10 0 0, some ⟨5, 6, 7, 8⟩, true⟩ 0
      { State.samplePendingUpdate with mQueue := [] }
      (by decide) (by decide) (by decide) (by decide) (by decide) (by decide) (by decide)
      rfl).1,
    ⟨_, rfl, rfl⟩⟩

/-! ## Output view smaller than the geometry -/

theorem setDecodeArgs_false_iff (s : State) (inBuffer : Option Nat)
    (outBuffer : Option C2GraphicBlock) (workIndex inOffset : Nat) :
    (setDecodeArgs s inBuffer outBuffer workIndex inOffset).1 = false ↔
      ∃ out, outBuffer = some out ∧ (out.width < s.mWidth ∨ out.height < s.mHeight) := by
  dsimp only [setDecodeArgs]
  cases outBuffer with
  | none => simp
  | some out =>
    dsimp only
    by_cases h : out.width < s.mWidth ∨ out.height < s.mHeight
    · rw [if_pos (by simpa using h)]
      simpa using h
    · rw [if_neg (by simpa using h)]
      simpa using h

/-- C23: `setDecodeArgs` fails exactly when an output view is supplied whose
width is less than the current width or whose height is less than the current
height.  When the view that `process` mapped is too small at a decode step, the
step sets `mSignalledError` and returns without any other change (no call is
added to the engine's log), the loop ends there whatever answers the engine
would give, and `process` does nothing for any later item. -/
theorem output_view_too_small_fails_step (K : Consts) (env : Env) (work next : C2Work)
    (output : C2GraphicBlock) (workIndex : Nat) (e : EngineStep) (rest : List EngineStep)
    (inOffset : Nat) (s : State) (hin : inOffset < work.capacity) :
    (∀ (inBuffer : Option Nat) (outBuffer : Option C2GraphicBlock) (index offset : Nat),
      (setDecodeArgs s inBuffer outBuffer index offset).1 = false ↔
        ∃ out, outBuffer = some out ∧ (out.width < s.mWidth ∨ out.height < s.mHeight)) ∧
    ((output.width < s.mWidth ∨ output.height < s.mHeight) →
      process.step K work output workIndex e inOffset s
        = Except.ok (Exit.returned, { s with mSignalledError := true }) ∧
      process.loop K work output workIndex (e :: rest) inOffset s
        = Except.ok (Exit.returned, { s with mSignalledError := true }) ∧
      ({ s with mSignalledError := true } : State).calls = s.calls ∧
      process K env { s with mSignalledError := true } next
        = Except.ok ({ s with mSignalledError := true }, some next)) := by
  refine ⟨fun inBuffer outBuffer index offset =>
    setDecodeArgs_false_iff s inBuffer outBuffer index offset, fun hsmall => ?_⟩
  have hargs : (setDecodeArgs s (some work.capacity) (some output) workIndex inOffset).1
      = false :=
    (setDecodeArgs_false_iff s _ _ _ _).2 ⟨output, rfl, hsmall⟩
  have hstep : process.step K work output workIndex e inOffset s
      = Except.ok (Exit.returned, { s with mSignalledError := true }) := by
    dsimp only [process.step]
    rw [if_pos (by simp [hargs])]
  exact ⟨hstep, process.loop_of_step_returned K work output workIndex e rest inOffset s _
    hin hstep, rfl, process_of_signalled K env _ next rfl⟩

theorem output_view_too_small_fails_step_witness :
    5 < (C2Work.fresh 2 10 0).capacity ∧
    ((⟨320, 240⟩ : C2GraphicBlock).width < State.sampleResized.mWidth ∨
      (⟨320, 240⟩ : C2GraphicBlock).height < State.sampleResized.mHeight) ∧
    process.loop Consts.sample (C2Work.fresh 2 10 0) ⟨320, 240⟩ 2
        [⟨sampleOp 5 0 0, none, true⟩, ⟨sampleOp 5 0 0, none, true⟩] 5 State.sampleResized
      = Except.ok (Exit.returned, { State.sampleResized with mSignalledError := true }) ∧
    process Consts.sample (sampleEnv [sampleLargerPicture, sampleOp 5 0 0])
        { State.sampleInFlight with mQueue := [] } (C2Work.fresh 2 10 0)
      = Except.ok ({ State.sampleResized with mSignalledError := true },
          some (C2Work.fresh 2 10 0)) :=
  ⟨by decide, Or.inl (by decide),
    ((output_view_too_small_fails_step Consts.sample (sampleEnv []) (C2Work.fresh 2 10 0)
      (C2Work.fresh 3 10 0) ⟨320, 240⟩ 2 ⟨sampleOp 5 0 0, none, true⟩
      [⟨sampleOp 5 0 0, none, true⟩] 5 State.sampleResized (by decide)).2
        (Or.inl (by decide))).2.1,
    rfl⟩

/-! ## Size of the flush buffer -/

theorem processQueue.bufferSize_fits_iff (p : Nat) :
    p + 2 * (p / 4) ≤ (p % 2 ^ 32) * 3 % 2 ^ 32 / 2 ↔ p * 3 < 2 ^ 32 := by
  have h32 : (2 : Nat) ^ 32 = 4294967296 := by norm_num
  rw [h32]
  constructor
  · intro h
    by_contra hge
    have hlt : (p % 4294967296) * 3 % 4294967296 < 4294967296 :=
      Nat.mod_lt _ (by norm_num)
    generalize (p % 4294967296) * 3 % 4294967296 = m at h hlt
    omega
  · intro h
    have h1 : p % 4294967296 = p := Nat.mod_eq_of_lt (by omega)
    rw [h1, Nat.mod_eq_of_lt h]
    omega

/-- The planes as a function of the geometry: for a 32-bit width `w` and height
`h`, the request that `setDecodeArgs` builds without an output view addresses
three planes inside `mFlushOutBuffer` at offsets 0, `w*h` and `w*h + (w*h)/4`
(in 64-bit `size_t` arithmetic); their end `w*h + 2*((w*h)/4)` lies within the
size that `processQueue` computes in 32 bits exactly when `w*h*3` is below 2^32. -/
theorem setDecodeArgs_flush_planes (s : State)
    (hw : s.mWidth < 2 ^ 32) (hh : s.mHeight < 2 ^ 32) :
    (setDecodeArgs s none none 0 0).1 = true ∧
    (setDecodeArgs s none none 0 0).2.pu1_bufs
      = OutPlanes.flushBuffer s.mFlushOutBuffer 0 (s.mWidth * s.mHeight)
          ((s.mWidth * s.mHeight + s.mWidth * s.mHeight / 4) % 2 ^ 64) ∧
    (s.mWidth * s.mHeight + 2 * (s.mWidth * s.mHeight / 4) ≤ processQueue.bufferSize s
      ↔ s.mWidth * s.mHeight * 3 < 2 ^ 32) := by
  have hp : s.mWidth * s.mHeight < 2 ^ 64 := by
    calc s.mWidth * s.mHeight < 2 ^ 32 * 2 ^ 32 := Nat.mul_lt_mul'' hw hh
      _ = 2 ^ 64 := by norm_num
  refine ⟨rfl, ?_, processQueue.bufferSize_fits_iff _⟩
  dsimp only [setDecodeArgs]
  rw [Nat.mod_eq_of_lt hp]

/-! ## Timestamps of decode requests and keys of the Pending Table -/

theorem State.timestamps_call (s : State) (c : Call) :
    (s.call c).timestamps = s.timestamps ++ (Call.timestamp c).toList := by
  cases h : Call.timestamp c <;> simp [State.timestamps, State.call, h]

theorem process.decoded_timestamps (K : Consts) (e : EngineStep) (s : State) :
    (process.decoded K e s).timestamps = s.timestamps := by
  obtain ⟨bca, fca, upd, h⟩ := process.decoded_shape K e s
  rw [h]
  simp [State.timestamps, Call.timestamp]

theorem process.completeChange_timestamps (e : EngineStep) (s : State) :
    (process.completeChange e s).timestamps = s.timestamps := by
  obtain ⟨h, -⟩ := process.completeChange_calls e s
  dsimp only [State.timestamps]
  rw [h]
  cases e.resetOk <;> simp [Call.timestamp]

theorem process.beginChange_timestamps (s : State) :
    (process.beginChange s).timestamps = s.timestamps := by
  dsimp only [process.beginChange, setFlushMode]
  split
  · rw [State.timestamps_call]
    simp [Call.timestamp, State.timestamps]
  · rfl

theorem process.signals_timestamps (op : ivd_video_decode_op_t) (s : State) :
    (process.signals op s).2.timestamps = s.timestamps := by
  obtain ⟨blk, w, h, upd, hs⟩ := process.signals_shape op s
  rw [hs]
  rfl

theorem process.output_timestamps (op : ivd_video_decode_op_t) (s : State) :
    (finalState (process.output op s)).timestamps = s.timestamps := by
  obtain ⟨pend, del, fl, eos, off, h, -⟩ := process.output_shape op s
  rw [h]
  rfl

theorem process.step_timestamps (K : Consts) (work : C2Work) (output : C2GraphicBlock)
    (workIndex : Nat) (e : EngineStep) (inOffset : Nat) (s : State) :
    (exitState (process.step K work output workIndex e inOffset s)).timestamps
      = s.timestamps ++
        (if (setDecodeArgs s (some work.capacity) (some output) workIndex inOffset).1
          then [workIndex] else []) := by
  have hts : (s.call (Call.decode
      (setDecodeArgs s (some work.capacity) (some output) workIndex inOffset).2)).timestamps
      = s.timestamps ++ [workIndex] := by
    rw [State.timestamps_call]
    simp [Call.timestamp, (setDecodeArgs_input s work.capacity (some output) workIndex inOffset).2]
  dsimp only [process.step]
  split
  · rename_i h
    have h' : (setDecodeArgs s (some work.capacity) (some output) workIndex inOffset).1
        = false := by simpa using h
    rw [h']
    simp [exitState, State.timestamps]
  · rename_i h
    have h' : (setDecodeArgs s (some work.capacity) (some output) workIndex inOffset).1
        = true := by simpa using h
    rw [h', if_pos rfl, ← hts]
    split
    · rfl
    · split
      · rfl
      · split
        · exact process.completeChange_timestamps e _ |>.trans
            (process.decoded_timestamps K e _)
        · split
          · exact process.beginChange_timestamps _ |>.trans
              (process.decoded_timestamps K e _)
          · have hsig := process.signals_timestamps e.op (process.decoded K e (s.call
              (Call.decode
                (setDecodeArgs s (some work.capacity) (some output) workIndex inOffset).2)))
            rw [process.decoded_timestamps] at hsig
            split
            · rename_i s2 heq
              rw [heq] at hsig
              exact hsig
            · rename_i s2 heq
              rw [heq] at hsig
              have hout := process.output_timestamps e.op s2
              rw [hsig] at hout
              cases ho : process.output e.op s2 with
              | error c =>
                rw [ho] at hout
                exact hout
              | ok s3 =>
                rw [ho] at hout
                exact hout

theorem process.loop_timestamps (K : Consts) (work : C2Work) (output : C2GraphicBlock)
    (workIndex : Nat) (steps : List EngineStep) (inOffset : Nat) (s : State) :
    ∃ n, (exitState (process.loop K work output workIndex steps inOffset s)).timestamps
      = s.timestamps ++ List.replicate n workIndex := by
  induction steps generalizing inOffset s with
  | nil =>
    dsimp only [process.loop]
    split <;> exact ⟨0, by simp [exitState]⟩
  | cons e rest ih =>
    dsimp only [process.loop]
    split
    · have hstep := process.step_timestamps K work output workIndex e inOffset s
      have hone : ∃ m, (if (setDecodeArgs s (some work.capacity) (some output) workIndex
          inOffset).1 then [workIndex] else []) = List.replicate m workIndex := by
        split
        · exact ⟨1, rfl⟩
        · exact ⟨0, rfl⟩
      obtain ⟨m, hm⟩ := hone
      rw [hm] at hstep
      revert hstep
      cases process.step K work output workIndex e inOffset s with
      | error c => exact fun hstep => ⟨m, hstep⟩
      | ok r =>
        obtain ⟨x, s1⟩ := r
        intro hstep
        cases x with
        | returned => exact ⟨m, hstep⟩
        | fallThrough =>
          obtain ⟨n, hn⟩ := ih ((inOffset + e.op.u4_num_bytes_consumed) % 2 ^ 64) s1
          refine ⟨m + n, ?_⟩
          dsimp only [exitState] at hstep
          dsimp only
          rw [hn, hstep, List.append_assoc, List.replicate_add]
    · exact ⟨0, by simp [exitState]⟩

theorem process.ensureDecoder_timestamps (env : Env) (s : State) :
    (process.decoderState (process.ensureDecoder env s)).timestamps = s.timestamps := by
  obtain ⟨calls, extra, ctx, stride, eos, off, fn, chg, hshape, hcalls, hextra⟩ :=
    process.ensureDecoder_shape env s
  have hnone : extra.filterMap Call.timestamp = [] := by
    rw [List.filterMap_eq_nil_iff]
    intro c hc
    rcases hextra c hc with h | h | h | h | ⟨n, h⟩ <;> subst h <;> rfl
  rw [hshape]
  dsimp only [State.timestamps]
  rw [hcalls, List.filterMap_append, hnone, List.append_nil]

theorem process.syncStride_timestamps (s : State) :
    (process.syncStride s).timestamps = s.timestamps := by
  dsimp only [process.syncStride, setParams]
  split
  · rw [State.timestamps_call]
    simp [Call.timestamp, State.timestamps]
  · rfl

theorem process.ensureBlock_timestamps (K : Consts) (env : Env) (work : C2Work) (s : State) :
    (process.ensureBlock env (process.noteEOS K work s)).timestamps = s.timestamps := by
  dsimp only [process.ensureBlock, process.noteEOS]
  split <;> split <;> simp [State.timestamps, State.call, Call.timestamp]

theorem process.decode_timestamps (K : Consts) (env : Env) (s : State) (work : C2Work) :
    ∃ n, (process.endState (process.decode K env s work)).timestamps
      = s.timestamps ++ List.replicate n (work.frame_index % 2 ^ 32) := by
  have hidx : work.frame_index &&& 0xFFFFFFFF = work.frame_index % 2 ^ 32 :=
    Nat.and_pow_two_sub_one_eq_mod work.frame_index 32
  have h2 := process.syncStride_timestamps s
  have h3 := (process.ensureBlock_timestamps K env work (process.syncStride s)).trans h2
  dsimp only [process.decode]
  split
  · exact ⟨0, by simpa [process.endState, State.timestamps, State.onWorkDone] using h2⟩
  · split
    · exact ⟨0, by simpa [process.endState] using h3⟩
    · rename_i blk hblk
      obtain ⟨n, hn⟩ := process.loop_timestamps K work blk
        (work.frame_index &&& 0xFFFFFFFF) env.steps 0
        (process.ensureBlock env (process.noteEOS K work (process.syncStride s)))
      rw [h3] at hn
      refine ⟨n, ?_⟩
      rw [← hidx]
      split
      · rename_i c hl
        rw [hl] at hn
        exact hn
      · rename_i s5 hl
        rw [hl] at hn
        exact hn
      · rename_i s5 hl
        rw [hl] at hn
        dsimp only [process.endState, process.afterLoop, setFlushMode]
        split
        · rw [State.timestamps_call]
          simpa [Call.timestamp] using hn
        · exact hn

theorem process_timestamps (K : Consts) (env : Env) (s : State) (work : C2Work) :
    ∃ n, (process.endState (process K env s work)).timestamps
      = s.timestamps ++ List.replicate n (work.frame_index % 2 ^ 32) := by
  have h1 := process.ensureDecoder_timestamps env s
  dsimp only [process]
  split
  · exact ⟨0, by simp [process.endState]⟩
  · cases hdec : process.ensureDecoder env s with
    | error c =>
      rw [hdec] at h1
      exact ⟨0, by simpa [process.endState, process.decoderState] using h1⟩
    | ok r =>
      rw [hdec] at h1
      dsimp only [process.decoderState] at h1
      dsimp only
      split
      · exact ⟨0, by simpa [process.endState, State.timestamps] using h1⟩
      · obtain ⟨n, hn⟩ := process.decode_timestamps K env r.1 work
        rw [h1] at hn
        exact ⟨n, hn⟩

theorem PendingMap.assign_assign (m : PendingMap) (k : Nat) (v v' : Option C2Work) :
    PendingMap.assign (PendingMap.assign m k v) k v' = PendingMap.assign m k v' := by
  induction m with
  | nil => simp [PendingMap.assign]
  | cons e rest ih =>
    obtain ⟨k', x⟩ := e
    by_cases h1 : k < k'
    · simp [PendingMap.assign, h1]
    · by_cases h2 : k = k'
      · simp [PendingMap.assign, h2]
      · simp [PendingMap.assign, h1, h2, ih]

theorem processQueue.registerWork_some (s : State) (work : C2Work) :
    ∃ s', processQueue.registerWork s (some work) = Except.ok s' ∧
      s'.mPendingWork
        = PendingMap.assign s.mPendingWork (work.frame_index % 2 ^ 32) (some work) ∧
      s'.delivered = s.delivered ++
        (match PendingMap.slot s.mPendingWork (work.frame_index % 2 ^ 32) with
          | some old => [{ old with result := status_t.C2_CORRUPTED }]
          | none => []) := by
  dsimp only [processQueue.registerWork]
  cases PendingMap.slot s.mPendingWork (work.frame_index % 2 ^ 32) with
  | none => exact ⟨_, rfl, rfl, by simp⟩
  | some old => exact ⟨_, rfl, rfl, rfl⟩

/-- C25: for every work item, the decode requests that `process` issues for it
all carry the item's frame index modulo 2^32 as timestamp, and `processQueue`
registers the item in the Pending Table under that same number.  Hence an item
whose frame index differs from it by a non-zero multiple of 2^32 has a
different ordinal but the same key: registering it afterwards replaces the
first item in its entry (the first item goes to the listener as corrupted). -/
theorem pending_key_is_engine_timestamp (K : Consts) (env : Env) (s t : State)
    (work other : C2Work) (k : Nat) :
    (∃ n, (process.endState (process K env s work)).timestamps
      = s.timestamps ++ List.replicate n (work.frame_index % 2 ^ 32)) ∧
    (∃ t', processQueue.registerWork t (some work) = Except.ok t' ∧
      t'.mPendingWork
        = PendingMap.assign t.mPendingWork (work.frame_index % 2 ^ 32) (some work) ∧
      PendingMap.slot t'.mPendingWork (work.frame_index % 2 ^ 32) = some work) ∧
    (other.frame_index = work.frame_index + (k + 1) * 2 ^ 32 →
      other.frame_index ≠ work.frame_index ∧
      other.frame_index % 2 ^ 32 = work.frame_index % 2 ^ 32 ∧
      ∃ t' t'', processQueue.registerWork t (some work) = Except.ok t' ∧
        processQueue.registerWork t' (some other) = Except.ok t'' ∧
        t''.mPendingWork
          = PendingMap.assign t.mPendingWork (work.frame_index % 2 ^ 32) (some other) ∧
        PendingMap.slot t''.mPendingWork (work.frame_index % 2 ^ 32) = some other ∧
        t''.delivered = t'.delivered ++ [{ work with result := status_t.C2_CORRUPTED }]) := by
  obtain ⟨t', ht', hpend, hdel⟩ := processQueue.registerWork_some t work
  refine ⟨process_timestamps K env s work,
    ⟨t', ht', hpend, by rw [hpend]; exact PendingMap.slot_assign_self _ _ _⟩, fun hother => ?_⟩
  have hmod : other.frame_index % 2 ^ 32 = work.frame_index % 2 ^ 32 := by
    rw [hother, Nat.add_mul_mod_self_right]
  obtain ⟨t'', ht'', hpend2, hdel2⟩ := processQueue.registerWork_some t' other
  have hslot : PendingMap.slot t'.mPendingWork (other.frame_index % 2 ^ 32) = some work := by
    rw [hmod, hpend]
    exact PendingMap.slot_assign_self _ _ _
  rw [hslot] at hdel2
  rw [hmod, hpend, PendingMap.assign_assign] at hpend2
  refine ⟨?_, hmod, t', t'', ht', ht'', hpend2, ?_, hdel2⟩
  · rw [hother]
    have : 0 < (k + 1) * 2 ^ 32 := by positivity
    omega
  · rw [hpend2]
    exact PendingMap.slot_assign_self _ _ _

theorem pending_key_is_engine_timestamp_witness :
    (C2Work.fresh 4294967298 10 0).frame_index
      = (C2Work.fresh 2 10 0).frame_index + (0 + 1) * 2 ^ 32 ∧
    (process.endState (process Consts.sample (sampleEnv [sampleOp 10 0 0])
        { State.sampleInFlight with mQueue := [] } (C2Work.fresh 4294967298 10 0))).timestamps
      = [1, 2] ∧
    ((C2Work.fresh 4294967298 10 0).frame_index ≠ (C2Work.fresh 2 10 0).frame_index ∧
      (C2Work.fresh 4294967298 10 0).frame_index % 2 ^ 32
        = (C2Work.fresh 2 10 0).frame_index % 2 ^ 32 ∧
      ∃ t' t'', processQueue.registerWork State.sampleInFlight (some (C2Work.fresh 2 10 0))
          = Except.ok t' ∧
        processQueue.registerWork t' (some (C2Work.fresh 4294967298 10 0)) = Except.ok t'' ∧
        t''.mPendingWork = PendingMap.assign State.sampleInFlight.mPendingWork
          ((C2Work.fresh 2 10 0).frame_index % 2 ^ 32) (some (C2Work.fresh 4294967298 10 0)) ∧
        PendingMap.slot t''.mPendingWork ((C2Work.fresh 2 10 0).frame_index % 2 ^ 32)
          = some (C2Work.fresh 4294967298 10 0) ∧
        t''.delivered = t'.delivered ++
          [{ C2Work.fresh 2 10 0 with result := status_t.C2_CORRUPTED }]) :=
  ⟨by decide, by decide,
    (pending_key_is_engine_timestamp Consts.sample (sampleEnv [sampleOp 10 0 0])
      State.sampleInFlight State.sampleInFlight (C2Work.fresh 2 10 0)
      (C2Work.fresh 4294967298 10 0) 0).2.2 (by decide)⟩

/-! ## Work items without input -/

theorem process.ensureDecoder_queue (env : Env) (s s1 : State) (st : status_t)
    (q : List C2Work) (h : process.ensureDecoder env s = Except.ok (s1, st)) :
    process.ensureDecoder env { s with mQueue := q }
      = Except.ok ({ s1 with mQueue := q }, st) := by
  dsimp only [process.ensureDecoder] at h ⊢
  split at h
  · rename_i hctx
    rw [if_pos hctx]
    cases h1 : env.createOk <;> cases h2 : env.createHandle <;> cases h3 : env.deleteOk <;>
      simp [initDecoder, initDecoder.configure, deInitDecoder, State.call, resetPlugin,
        setParams, setNumCores, h1, h2, h3] at h <;>
      obtain ⟨rfl, rfl⟩ := h <;>
      simp [initDecoder, initDecoder.configure, deInitDecoder, State.call, resetPlugin,
        setParams, setNumCores]
  · rename_i hctx
    rw [if_neg hctx]
    cases h
    rfl

theorem process_of_zero_capacity (K : Consts) (env : Env) (s : State) (work : C2Work)
    (herr : s.mSignalledError = false)
    (hdec : ∃ s1, process.ensureDecoder env s = Except.ok (s1, status_t.OK))
    (hcap : work.capacity = 0) :
    ∃ st, process K env s work = Except.error ⟨Fault.nullWork, st⟩ ∧
      st.delivered = s.delivered ++ [work] ∧
      st.mPendingWork = s.mPendingWork ∧ st.mQueue = s.mQueue := by
  obtain ⟨s1, hdec⟩ := hdec
  have hproc : process K env s work = Except.error ⟨Fault.nullWork,
      (process.syncStride s1).onWorkDone work⟩ := by
    simp [process, process.decode, herr, hdec, hcap]
  obtain ⟨-, hq1, hp1, hd1⟩ := sameWork_ensureDecoder env s _ hdec
  obtain ⟨-, hq2, hp2, hd2⟩ := sameWork_syncStride s1
  refine ⟨_, hproc, ?_, ?_, ?_⟩
  · dsimp only [State.onWorkDone]
    rw [hd2, hd1]
  · dsimp only [State.onWorkDone]
    rw [hp2, hp1]
  · dsimp only [State.onWorkDone]
    rw [hq2, hq1]

/-- C26, evaluated: for every work item whose input has capacity zero, on a
component without signalled error whose decoder exists or can be created,
`process` hands the item to the listener once and then ends with the
dereference of the emptied `work` pointer (the read of `work->input.flags`
that follows `std::move(work)`); nothing is registered in the Pending Table.
A worker iteration that takes such an item from the queue ends the same way. -/
theorem zero_capacity_item_is_read_after_handover (K : Consts) (env : Env) (s : State)
    (work : C2Work) (rest : List C2Work)
    (herr : s.mSignalledError = false)
    (hdec : ∃ s1, process.ensureDecoder env s = Except.ok (s1, status_t.OK))
    (hcap : work.capacity = 0) :
    (∃ st, process K env s work = Except.error ⟨Fault.nullWork, st⟩ ∧
      st.delivered = s.delivered ++ [work] ∧
      st.mPendingWork = s.mPendingWork) ∧
    (s.mIsInFlush = false →
      ∃ st, processQueue K env { s with mQueue := work :: rest }
          = Except.error ⟨Fault.nullWork, st⟩ ∧
        st.delivered = s.delivered ++ [work] ∧
        st.mPendingWork = s.mPendingWork ∧ st.mQueue = rest) := by
  constructor
  · obtain ⟨st, h1, h2, h3, -⟩ := process_of_zero_capacity K env s work herr hdec hcap
    exact ⟨st, h1, h2, h3⟩
  · intro hfl
    obtain ⟨s1, hs1⟩ := hdec
    obtain ⟨st, h1, h2, h3, h4⟩ := process_of_zero_capacity K env { s with mQueue := rest }
      work herr ⟨_, process.ensureDecoder_queue env s s1 status_t.OK rest hs1⟩ hcap
    refine ⟨st, ?_, h2, h3, h4⟩
    rw [processQueue_not_flushing K env { s with mQueue := work :: rest } hfl,
      processQueue.dequeue_cons K env { s with mQueue := work :: rest } work rest rfl]
    have hq : ({ ({ s with mQueue := work :: rest } : State) with mQueue := rest } : State)
        = { s with mQueue := rest } := rfl
    rw [hq, h1]

theorem zero_capacity_item_is_read_after_handover_witness :
    State.started.mSignalledError = false ∧
    (∃ s1, process.ensureDecoder (sampleEnv []) State.started = Except.ok (s1, status_t.OK)) ∧
    (C2Work.fresh 5 0 0).capacity = 0 ∧
    State.started.mIsInFlush = false ∧
    ∃ st, processQueue Consts.sample (sampleEnv [])
        { State.started with mQueue := C2Work.fresh 5 0 0 :: [C2Work.fresh 6 10 0] }
        = Except.error ⟨Fault.nullWork, st⟩ ∧
      st.delivered = State.started.delivered ++ [C2Work.fresh 5 0 0] ∧
      st.mPendingWork = State.started.mPendingWork ∧ st.mQueue = [C2Work.fresh 6 10 0] :=
  ⟨rfl, ⟨_, rfl⟩, rfl, rfl,
    (zero_capacity_item_is_read_after_handover Consts.sample (sampleEnv []) State.started
      (C2Work.fresh 5 0 0) [C2Work.fresh 6 10 0] rfl ⟨_, rfl⟩ rfl).2 rfl⟩

/-! ## Items taken from the queue when a run faults -/

theorem process_allocation_failure (n : Nat) :
    ∃ st, process Consts.sample { sampleEnv [sampleOp 100 0 0] with block := none }
        State.started (C2Work.fresh n 100 0) = Except.error ⟨Fault.nullBlock, st⟩ ∧
      st.mQueue = [] ∧ st.mPendingWork = [] ∧ st.delivered = [] := by
  simp [State.started, State.constructed, initDecoder, initDecoder.configure,
    process, process.decode, process.ensureDecoder, process.syncStride, process.noteEOS,
    process.ensureBlock, resetPlugin, setParams, setNumCores, State.call, sampleEnv,
    C2Work.fresh, Consts.sample]

/-- C3, evaluated: one item with frame index `n` is enqueued on the started
component and the worker runs one iteration.  When the engine reports output
for the item's own timestamp (the input of C6), or when the allocator returns
no block, the iteration ends in a null dereference inside `process`.  The item
was taken from the queue before `process` ran and is registered in the Pending
Table only after it returns: at the fault it is neither in the work queue nor
in the Pending Table nor with the listener nor in a flush output. -/
theorem popped_item_is_in_no_place_after_fault (n : Nat) :
    (∃ c, Sys.run Consts.sample ⟨State.started, [], []⟩
        [Op.queue_nb [C2Work.fresh n 100 4],
          Op.processQueue (sampleEnv [sampleOp 100 1 (n &&& 0xFFFFFFFF)])] = Except.error c ∧
      c.fault = Fault.nullPending ∧
      c.state.mQueue = [] ∧ c.state.mPendingWork.items = [] ∧ c.state.delivered = [] ∧
      Sys.places ⟨c.state, [], []⟩ = []) ∧
    (∃ c, Sys.run Consts.sample ⟨State.started, [], []⟩
        [Op.queue_nb [C2Work.fresh n 100 0],
          Op.processQueue { sampleEnv [sampleOp 100 0 0] with block := none }]
        = Except.error c ∧
      c.fault = Fault.nullBlock ∧
      c.state.mQueue = [] ∧ c.state.mPendingWork.items = [] ∧ c.state.delivered = [] ∧
      Sys.places ⟨c.state, [], []⟩ = []) := by
  constructor
  · have h := processQueue.dequeue_cons Consts.sample
      (sampleEnv [sampleOp 100 1 (n &&& 0xFFFFFFFF)])
      { State.started with mQueue := [C2Work.fresh n 100 4] } (C2Work.fresh n 100 4) [] rfl
    rw [← processQueue_not_flushing _ _ _ rfl] at h
    rw [show ({ ({ State.started with mQueue := [C2Work.fresh n 100 4] } : State) with
        mQueue := [] } : State) = State.started from rfl,
      process_eos_item_with_own_output n] at h
    have hq : queue_nb State.started [C2Work.fresh n 100 4]
        = (status_t.C2_OK, { State.started with mQueue := [C2Work.fresh n 100 4] }, []) := rfl
    simp only [Sys.run, Sys.step, hq, h]
    exact ⟨_, rfl, rfl, rfl, rfl, rfl, rfl⟩
  · obtain ⟨st, hst, hq, hp, hd⟩ := process_allocation_failure n
    have h := processQueue.dequeue_cons Consts.sample
      { sampleEnv [sampleOp 100 0 0] with block := none }
      { State.started with mQueue := [C2Work.fresh n 100 0] } (C2Work.fresh n 100 0) [] rfl
    rw [← processQueue_not_flushing _ _ _ rfl] at h
    rw [show ({ ({ State.started with mQueue := [C2Work.fresh n 100 0] } : State) with
        mQueue := [] } : State) = State.started from rfl, hst] at h
    have hqu : queue_nb State.started [C2Work.fresh n 100 0]
        = (status_t.C2_OK, { State.started with mQueue := [C2Work.fresh n 100 0] }, []) := rfl
    simp only [Sys.run, Sys.step, hqu, h]
    exact ⟨_, rfl, rfl, hq, by rw [hp]; rfl, hd, by simp [Sys.places, hq, hp, hd, PendingMap.items]⟩

/-! ## The flush buffer along runs of the pipeline -/

theorem process.step_issues (K : Consts) (work : C2Work) (output : C2GraphicBlock)
    (workIndex : Nat) (e : EngineStep) (inOffset : Nat) (s : State) :
    ∃ ctl, (exitState (process.step K work output workIndex e inOffset s)).calls
      = s.calls ++
        (if (setDecodeArgs s (some work.capacity) (some output) workIndex inOffset).1
          then [Call.decode
            (setDecodeArgs s (some work.capacity) (some output) workIndex inOffset).2]
          else []) ++ ctl ∧
      ∀ c ∈ ctl, c.isControl = true := by
  obtain ⟨bca, fca, upd, hdec⟩ := process.decoded_shape K e (s.call (Call.decode
    (setDecodeArgs s (some work.capacity) (some output) workIndex inOffset).2))
  dsimp only [process.step]
  split
  · rename_i h
    have h' : (setDecodeArgs s (some work.capacity) (some output) workIndex inOffset).1
        = false := by simpa using h
    rw [h']
    exact ⟨[], by simp [exitState], by simp⟩
  · rename_i h
    have h' : (setDecodeArgs s (some work.capacity) (some output) workIndex inOffset).1
        = true := by simpa using h
    rw [h', if_pos rfl]
    split
    · exact ⟨[], by simp [exitState, State.call], by simp⟩
    · split
      · exact ⟨[], by simp [exitState, State.call], by simp⟩
      · split
        · obtain ⟨h1, -⟩ := process.completeChange_calls e (process.decoded K e (s.call
            (Call.decode
              (setDecodeArgs s (some work.capacity) (some output) workIndex inOffset).2)))
          dsimp only [exitState]
          rw [h1, hdec]
          refine ⟨[Call.getVuiParams, Call.reset] ++
            (if e.resetOk then [Call.setNumCores] else []) ++
            [Call.setParams (s.mWidth % 2 ^ 32)], by simp [State.call], ?_⟩
          cases e.resetOk <;> simp [Call.isControl]
        · split
          · rw [hdec]
            dsimp only [exitState, process.beginChange, setFlushMode, State.call]
            split
            · exact ⟨[Call.getVuiParams, Call.setFlushMode], by simp, by simp [Call.isControl]⟩
            · exact ⟨[Call.getVuiParams], by simp, by simp [Call.isControl]⟩
          · obtain ⟨blk, w, h, upd2, hsig⟩ := process.signals_shape e.op
              (process.decoded K e (s.call (Call.decode
                (setDecodeArgs s (some work.capacity) (some output) workIndex inOffset).2)))
            split
            · rename_i s2 heq
              have hs2 : s2 = _ := (congrArg Prod.snd heq).symm.trans hsig
              subst hs2
              rw [hdec]
              exact ⟨[Call.getVuiParams], by simp [exitState, State.call],
                by simp [Call.isControl]⟩
            · rename_i s2 heq
              have hs2 : s2 = _ := (congrArg Prod.snd heq).symm.trans hsig
              obtain ⟨pend, del, fl, eos, off, hout2, -⟩ := process.output_shape e.op s2
              have hfin : exitState (match process.output e.op s2 with
                  | Except.error c => Except.error c
                  | Except.ok s => Except.ok (Exit.fallThrough, s))
                  = finalState (process.output e.op s2) := by
                cases process.output e.op s2 <;> rfl
              rw [hfin, hout2, hs2, hdec]
              exact ⟨[Call.getVuiParams], by simp [State.call], by simp [Call.isControl]⟩

theorem process.loop_issues (K : Consts) (work : C2Work) (output : C2GraphicBlock)
    (workIndex : Nat) (steps : List EngineStep) (inOffset : Nat) (s : State) :
    ∃ extra, (exitState (process.loop K work output workIndex steps inOffset s)).calls
      = s.calls ++ extra ∧
      ∀ c ∈ extra, c.isControl = true ∨
        ∃ ip, c = Call.decode ip ∧ ip.pv_stream_buffer.isSome = true ∧
          ip.u4_ts = workIndex := by
  induction steps generalizing inOffset s with
  | nil =>
    dsimp only [process.loop]
    split <;> exact ⟨[], by simp [exitState], by simp⟩
  | cons e rest ih =>
    dsimp only [process.loop]
    split
    · obtain ⟨ctl, hcalls, hctl⟩ := process.step_issues K work output workIndex e inOffset s
      obtain ⟨h1, h2⟩ := setDecodeArgs_input s work.capacity (some output) workIndex inOffset
      have hfirst : ∀ c ∈ (if (setDecodeArgs s (some work.capacity) (some output) workIndex
          inOffset).1 then [Call.decode (setDecodeArgs s (some work.capacity) (some output)
            workIndex inOffset).2] else []) ++ ctl,
          c.isControl = true ∨ ∃ ip, c = Call.decode ip ∧ ip.pv_stream_buffer.isSome = true ∧
            ip.u4_ts = workIndex := by
        intro c hc
        rcases List.mem_append.1 hc with hc | hc
        · split at hc
          · rw [List.mem_singleton.1 hc]
            exact Or.inr ⟨_, rfl, by rw [h1]; rfl, h2⟩
          · simp at hc
        · exact Or.inl (hctl c hc)
      rw [List.append_assoc] at hcalls
      generalize (if (setDecodeArgs s (some work.capacity) (some output) workIndex
          inOffset).1 then [Call.decode (setDecodeArgs s (some work.capacity) (some output)
            workIndex inOffset).2] else []) ++ ctl = first at hcalls hfirst
      revert hcalls
      cases process.step K work output workIndex e inOffset s with
      | error c => exact fun hcalls => ⟨first, hcalls, hfirst⟩
      | ok r =>
        obtain ⟨x, s1⟩ := r
        intro hcalls
        cases x with
        | returned => exact ⟨first, hcalls, hfirst⟩
        | fallThrough =>
          obtain ⟨more, hm1, hm2⟩ := ih ((inOffset + e.op.u4_num_bytes_consumed) % 2 ^ 64) s1
          dsimp only [exitState] at hcalls
          dsimp only
          refine ⟨first ++ more, by rw [hm1, hcalls, List.append_assoc], ?_⟩
          intro c hc
          rcases List.mem_append.1 hc with hc | hc
          · exact hfirst c hc
          · exact hm2 c hc
    · exact ⟨[], by simp [exitState], by simp⟩

theorem process.syncStride_shape (s : State) :
    ∃ pre stride, process.syncStride s
        = { s with calls := s.calls ++ pre, mStride := stride } ∧
      ∀ c ∈ pre, c.isControl = true := by
  dsimp only [process.syncStride, setParams, State.call]
  split
  · exact ⟨[Call.setParams (s.mWidth % 2 ^ 32)], _, rfl, by simp [Call.isControl]⟩
  · exact ⟨[], s.mStride, by simp, by simp⟩

theorem process.decode_issues (K : Consts) (env : Env) (s : State) (work : C2Work) :
    ∃ pre extra, (process.endState (process.decode K env s work)).calls
      = s.calls ++ pre ++
        (if work.capacity != 0 && s.mAllocatedBlock.isNone
          then [Call.allocateGraphicBlock s.mWidth s.mHeight] else []) ++ extra ∧
      (∀ c ∈ pre, c.isControl = true) ∧
      ∀ c ∈ extra, c.isControl = true ∨
        ∃ ip, c = Call.decode ip ∧ ip.pv_stream_buffer.isSome = true ∧
          ip.u4_ts = work.frame_index % 2 ^ 32 := by
  have hidx : work.frame_index &&& 0xFFFFFFFF = work.frame_index % 2 ^ 32 :=
    Nat.and_pow_two_sub_one_eq_mod work.frame_index 32
  obtain ⟨pre, stride, hsync, hpre⟩ := process.syncStride_shape s
  refine ⟨pre, ?_⟩
  dsimp only [process.decode]
  rw [hsync]
  split
  · rename_i hcap
    have hc : (work.capacity != 0) = false := by simpa using hcap
    exact ⟨[], by simp [process.endState, State.onWorkDone, hc], hpre, by simp⟩
  · rename_i hcap
    have hc : (work.capacity != 0) = true := by simpa using hcap
    have hblock : ∃ blk, process.ensureBlock env (process.noteEOS K work
        { s with calls := s.calls ++ pre, mStride := stride })
        = { process.noteEOS K work { s with calls := s.calls ++ pre, mStride := stride } with
            calls := s.calls ++ pre ++ (if work.capacity != 0 && s.mAllocatedBlock.isNone
              then [Call.allocateGraphicBlock s.mWidth s.mHeight] else [])
            mAllocatedBlock := blk } := by
      dsimp only [process.ensureBlock, process.noteEOS, State.call]
      cases hb : s.mAllocatedBlock <;> split <;> simp [hc, hb]
    obtain ⟨blk, hblock⟩ := hblock
    rw [hblock]
    dsimp only
    cases blk with
    | none => exact ⟨[], by simp [process.endState], hpre, by simp⟩
    | some output =>
      dsimp only
      obtain ⟨extra, h1, h2⟩ := process.loop_issues K work output
        (work.frame_index &&& 0xFFFFFFFF) env.steps 0
        { process.noteEOS K work { s with calls := s.calls ++ pre, mStride := stride } with
          calls := s.calls ++ pre ++ (if work.capacity != 0 && s.mAllocatedBlock.isNone
            then [Call.allocateGraphicBlock s.mWidth s.mHeight] else [])
          mAllocatedBlock := some output }
      rw [hidx] at h2
      revert h1
      cases process.loop K work output (work.frame_index &&& 0xFFFFFFFF) env.steps 0
        { process.noteEOS K work { s with calls := s.calls ++ pre, mStride := stride } with
          calls := s.calls ++ pre ++ (if work.capacity != 0 && s.mAllocatedBlock.isNone
            then [Call.allocateGraphicBlock s.mWidth s.mHeight] else [])
          mAllocatedBlock := some output } with
      | error c => exact fun h1 => ⟨extra, h1, hpre, h2⟩
      | ok r =>
        obtain ⟨x, s5⟩ := r
        intro h1
        dsimp only [exitState] at h1
        cases x with
        | returned => exact ⟨extra, h1, hpre, h2⟩
        | fallThrough =>
          dsimp only [process.endState, process.afterLoop, setFlushMode, State.call]
          split
          · refine ⟨extra ++ [Call.setFlushMode], by rw [h1, List.append_assoc], hpre, ?_⟩
            intro c hc'
            rcases List.mem_append.1 hc' with hc' | hc'
            · exact h2 c hc'
            · rw [List.mem_singleton.1 hc']
              exact Or.inl rfl
          · exact ⟨extra, h1, hpre, h2⟩

theorem process_issues (K : Consts) (env : Env) (s : State) (work : C2Work) :
    ∃ pre allocs extra, (process.endState (process K env s work)).calls
      = s.calls ++ pre ++ allocs ++ extra ∧
      (∀ c ∈ pre, c.isControl = true) ∧
      (∀ c ∈ allocs, ∃ w h, c = Call.allocateGraphicBlock w h) ∧
      ∀ c ∈ extra, c.isControl = true ∨
        ∃ ip, c = Call.decode ip ∧ ip.pv_stream_buffer.isSome = true ∧
          ip.u4_ts = work.frame_index % 2 ^ 32 := by
  obtain ⟨calls, first, ctx, stride, eos, off, fn, chg, hshape, hcalls, hfirst⟩ :=
    process.ensureDecoder_shape env s
  have hctl : ∀ c ∈ first, c.isControl = true := by
    intro c hc
    rcases hfirst c hc with h | h | h | h | ⟨n, h⟩ <;> subst h <;> rfl
  dsimp only [process]
  split
  · exact ⟨[], [], [], by simp [process.endState], by simp, by simp, by simp⟩
  · cases hdec : process.ensureDecoder env s with
    | error c =>
      rw [hdec] at hshape
      dsimp only [process.decoderState] at hshape
      exact ⟨first, [], [], by simp [process.endState, hshape, hcalls], hctl, by simp, by simp⟩
    | ok r =>
      rw [hdec] at hshape
      dsimp only [process.decoderState] at hshape
      dsimp only
      split
      · exact ⟨first, [], [], by simp [process.endState, hshape, hcalls], hctl, by simp,
          by simp⟩
      · obtain ⟨pre, extra, h1, h2, h3⟩ := process.decode_issues K env r.1 work
        refine ⟨first ++ pre, (if work.capacity != 0 && r.1.mAllocatedBlock.isNone
          then [Call.allocateGraphicBlock r.1.mWidth r.1.mHeight] else []), extra,
          ?_, ?_, ?_, h3⟩
        · rw [h1, hshape]
          dsimp only
          rw [hcalls, List.append_assoc s.calls]
        · intro c hc
          rcases List.mem_append.1 hc with hc | hc
          · exact hctl c hc
          · exact h2 c hc
        · intro c hc
          split at hc
          · rw [List.mem_singleton.1 hc]
            exact ⟨_, _, rfl⟩
          · simp at hc

/-! ## Requests issued while the resolution changes -/

theorem Call.requests_of_issued (P : ivd_video_decode_ip_t → Prop) (extra : List Call)
    (h : ∀ c ∈ extra, c.isControl = true ∨ (∃ w h, c = Call.allocateGraphicBlock w h) ∨
      ∃ ip, c = Call.decode ip ∧ P ip) :
    ∀ ip ∈ extra.filterMap Call.request, P ip := by
  intro ip hip
  obtain ⟨c, hc, hreq⟩ := List.mem_filterMap.1 hip
  rcases h c hc with hctl | ⟨w, hh, rfl⟩ | ⟨ip', rfl, hP⟩
  · cases c <;> simp [Call.request, Call.isControl] at hreq hctl
  · simp [Call.request] at hreq
  · simp only [Call.request, Option.some.injEq] at hreq
    exact hreq ▸ hP

theorem process_requests (K : Consts) (env : Env) (s : State) (work : C2Work) :
    ∃ rs, (process.endState (process K env s work)).requests = s.requests ++ rs ∧
      ∀ ip ∈ rs, ip.pv_stream_buffer.isSome = true ∧
        ip.u4_ts = work.frame_index % 2 ^ 32 := by
  obtain ⟨pre, allocs, extra, hcalls, hpre, hallocs, hextra⟩ := process_issues K env s work
  refine ⟨(pre ++ allocs ++ extra).filterMap Call.request, ?_, ?_⟩
  · dsimp only [State.requests]
    rw [hcalls, List.append_assoc, List.append_assoc, List.filterMap_append,
      ← List.append_assoc]
  · apply Call.requests_of_issued
    intro c hc
    rcases List.mem_append.1 hc with hc | hc
    · rcases List.mem_append.1 hc with hc | hc
      · exact Or.inl (hpre c hc)
      · exact Or.inr (Or.inl (hallocs c hc))
    · rcases hextra c hc with h | h
      · exact Or.inl h
      · exact Or.inr (Or.inr h)

theorem process.step_requests (K : Consts) (work : C2Work) (output : C2GraphicBlock)
    (workIndex : Nat) (e : EngineStep) (inOffset : Nat) (s : State)
    (hargs : (setDecodeArgs s (some work.capacity) (some output) workIndex inOffset).1 = true) :
    (exitState (process.step K work output workIndex e inOffset s)).requests
      = s.requests ++
        [(setDecodeArgs s (some work.capacity) (some output) workIndex inOffset).2] := by
  obtain ⟨ctl, hcalls, hctl⟩ := process.step_issues K work output workIndex e inOffset s
  rw [hargs, if_pos rfl] at hcalls
  have hnone : ctl.filterMap Call.request = [] := by
    rw [List.filterMap_eq_nil_iff]
    intro c hc
    have := hctl c hc
    cases c <;> simp [Call.isControl] at this <;> rfl
  dsimp only [State.requests]
  rw [hcalls, List.filterMap_append, List.filterMap_append, hnone]
  simp [Call.request]

/-- C16 (amended): while `mChangingResolution` is set, every decode request that
`process` issues carries the compressed input of the item being processed, as
at any other time: the input pointer is non-null, at the current input offset,
and the timestamp is the item's index.  This holds for all requests of a
`process` call and for each decode step; in particular the request whose
answer reports no output (and no fatal code), with which the step resets the
decoder and leaves the resolution-changing state, carries input. -/
theorem process_requests_carry_input_while_changing (K : Consts) (env : Env) (work : C2Work)
    (output : C2GraphicBlock) (workIndex : Nat) (e : EngineStep) (inOffset : Nat) (s : State)
    (hchg : s.mChangingResolution = true)
    (hargs : (setDecodeArgs s (some work.capacity) (some output) workIndex inOffset).1 = true)
    (hunsup : e.op.u4_error_code &&& 0xFF ≠ K.IVD_STREAM_WIDTH_HEIGHT_NOT_SUPPORTED)
    (halloc : e.op.u4_error_code &&& 0xFF ≠ K.IVD_MEM_ALLOC_FAILED)
    (hout : e.op.u4_output_present = 0) :
    (∃ rs, (process.endState (process K env s work)).requests = s.requests ++ rs ∧
      ∀ ip ∈ rs, ip.pv_stream_buffer.isSome = true ∧
        ip.u4_ts = work.frame_index % 2 ^ 32) ∧
    (setDecodeArgs s (some work.capacity) (some output) workIndex inOffset).2.pv_stream_buffer
      = some inOffset ∧
    (Call.decode (setDecodeArgs s (some work.capacity) (some output) workIndex inOffset).2
      ).carriesInput = true ∧
    ∃ s', process.step K work output workIndex e inOffset s = Except.ok (Exit.returned, s') ∧
      s'.requests = s.requests ++
        [(setDecodeArgs s (some work.capacity) (some output) workIndex inOffset).2] ∧
      s'.mChangingResolution = false := by
  obtain ⟨bca, fca, upd, hdec⟩ := process.decoded_shape K e (s.call (Call.decode
    (setDecodeArgs s (some work.capacity) (some output) workIndex inOffset).2))
  have hu : ¬((K.IVD_STREAM_WIDTH_HEIGHT_NOT_SUPPORTED == e.op.u4_error_code &&& 0xFF) = true) := by
    simpa using fun h => hunsup h.symm
  have ha : ¬((K.IVD_MEM_ALLOC_FAILED == e.op.u4_error_code &&& 0xFF) = true) := by
    simpa using fun h => halloc h.symm
  have hstep : process.step K work output workIndex e inOffset s = Except.ok (Exit.returned,
      process.completeChange e (process.decoded K e (s.call (Call.decode
        (setDecodeArgs s (some work.capacity) (some output) workIndex inOffset).2)))) := by
    dsimp only [process.step]
    rw [if_neg (by simp [hargs]), if_neg hu, if_neg ha, if_pos]
    rw [hdec]
    simp [State.call, hchg, hout]
  have hreq := process.step_requests K work output workIndex e inOffset s hargs
  rw [hstep] at hreq
  refine ⟨process_requests K env s work,
    (setDecodeArgs_input s work.capacity (some output) workIndex inOffset).1, ?_,
    _, hstep, hreq, (process.completeChange_calls e _).2.1⟩
  simp [Call.carriesInput, (setDecodeArgs_input s work.capacity (some output) workIndex inOffset).1]

theorem process_requests_carry_input_while_changing_witness :
    State.sampleChanging.mChangingResolution = true ∧
    (setDecodeArgs State.sampleChanging (some (C2Work.fresh 3 10 0).capacity)
      (some ⟨320, 240⟩) 3 0).1 = true ∧
    (sampleOp 10 0 0).u4_output_present = 0 ∧
    (process.endState (process Consts.sample (sampleEnv [sampleOp 10 0 0])
        State.sampleChanging (C2Work.fresh 3 10 0))).requests
      = State.sampleChanging.requests ++
        [⟨3, some 0, 10, (76800, 19200, 19200), OutPlanes.view ⟨320, 240⟩⟩] ∧
    ((∃ rs, (process.endState (process Consts.sample (sampleEnv [sampleOp 10 0 0])
          State.sampleChanging (C2Work.fresh 3 10 0))).requests
          = State.sampleChanging.requests ++ rs ∧
        ∀ ip ∈ rs, ip.pv_stream_buffer.isSome = true ∧
          ip.u4_ts = (C2Work.fresh 3 10 0).frame_index % 2 ^ 32) ∧
      (setDecodeArgs State.sampleChanging (some (C2Work.fresh 3 10 0).capacity)
        (some ⟨320, 240⟩) 3 0).2.pv_stream_buffer = some 0 ∧
      (Call.decode (setDecodeArgs State.sampleChanging (some (C2Work.fresh 3 10 0).capacity)
        (some ⟨320, 240⟩) 3 0).2).carriesInput = true ∧
      ∃ s', process.step Consts.sample (C2Work.fresh 3 10 0) ⟨320, 240⟩ 3
          ⟨sampleOp 10 0 0, none, true⟩ 0 State.sampleChanging
          = Except.ok (Exit.returned, s') ∧
        s'.requests = State.sampleChanging.requests ++
          [(setDecodeArgs State.sampleChanging (some (C2Work.fresh 3 10 0).capacity)
            (some ⟨320, 240⟩) 3 0).2] ∧
        s'.mChangingResolution = false) :=
  ⟨rfl, by decide, rfl, by decide,
    process_requests_carry_input_while_changing Consts.sample (sampleEnv [sampleOp 10 0 0])
      (C2Work.fresh 3 10 0) ⟨320, 240⟩ 3 ⟨sampleOp 10 0 0, none, true⟩ 0 State.sampleChanging
      rfl (by decide) (by decide) (by decide) rfl⟩

theorem Call.allocations_of_issued (extra : List Call)
    (h : ∀ c ∈ extra, c.isControl = true ∨ ∃ ip, c = Call.decode ip) :
    extra.filterMap Call.allocation = [] := by
  rw [List.filterMap_eq_nil_iff]
  intro c hc
  rcases h c hc with hctl | ⟨ip, rfl⟩
  · cases c <;> simp [Call.isControl] at hctl <;> rfl
  · rfl

theorem process.step_allocations (K : Consts) (work : C2Work) (output : C2GraphicBlock)
    (workIndex : Nat) (e : EngineStep) (inOffset : Nat) (s : State) :
    (exitState (process.step K work output workIndex e inOffset s)).allocations
      = s.allocations := by
  obtain ⟨ctl, hcalls, hctl⟩ := process.step_issues K work output workIndex e inOffset s
  have hnone : ((if (setDecodeArgs s (some work.capacity) (some output) workIndex inOffset).1
      then [Call.decode (setDecodeArgs s (some work.capacity) (some output) workIndex
        inOffset).2] else []) ++ ctl).filterMap Call.allocation = [] := by
    apply Call.allocations_of_issued
    intro c hc
    rcases List.mem_append.1 hc with hc | hc
    · split at hc
      · exact Or.inr ⟨_, List.mem_singleton.1 hc⟩
      · simp at hc
    · exact Or.inl (hctl c hc)
  dsimp only [State.allocations]
  rw [hcalls, List.append_assoc, List.filterMap_append, hnone, List.append_nil]

theorem process_allocations (K : Consts) (env : Env) (s : State) (work : C2Work)
    (herr : s.mSignalledError = false) (hctx : s.mCodecCtx = true)
    (hcap : work.capacity ≠ 0) :
    (process.endState (process K env s work)).allocations
      = s.allocations ++
        (if s.mAllocatedBlock.isNone then [(s.mWidth, s.mHeight)] else []) := by
  have hproc : process K env s work = process.decode K env s work := by
    simp [process, process.ensureDecoder, herr, hctx]
  obtain ⟨pre, extra, hcalls, hpre, hextra⟩ := process.decode_issues K env s work
  have hc : (work.capacity != 0) = true := by simpa using hcap
  have hextra' : extra.filterMap Call.allocation = [] := by
    apply Call.allocations_of_issued
    intro c h
    rcases hextra c h with h | ⟨ip, h, -⟩
    · exact Or.inl h
    · exact Or.inr ⟨ip, h⟩
  rw [hproc]
  dsimp only [State.allocations]
  rw [hcalls, hc, Bool.true_and, List.filterMap_append, List.filterMap_append,
    List.filterMap_append, Call.allocations_of_issued pre (fun c h => Or.inl (hpre c h)),
    hextra', List.append_nil, List.append_nil]
  split <;> rfl

/-- C17 (amended): for a decode step of `process` whose request could be set up,
that is not ended by a fatal code and does not complete an earlier change.
When the engine signals a resolution change in it, the step returns with the
held output block, the width and the height as they were, and requests no
block.  When it signals none and reports a positive picture size different
from the current width or height, the step releases the held block and takes
over the reported width and height, again requesting no block (it runs to its
end when no output is present).  A later `process` call, on a component with a
decoder and without signalled error, for an item with input, requests exactly
one block, of the current width and height, when no block is held at its start,
and none when one is held. -/
theorem output_block_follows_picture_size (K : Consts) (env : Env) (work : C2Work)
    (output : C2GraphicBlock) (workIndex : Nat) (e : EngineStep) (inOffset : Nat) (s : State)
    (hargs : (setDecodeArgs s (some work.capacity) (some output) workIndex inOffset).1 = true)
    (hk1 : e.op.u4_error_code &&& 0xFF ≠ K.IVD_STREAM_WIDTH_HEIGHT_NOT_SUPPORTED)
    (hk2 : e.op.u4_error_code &&& 0xFF ≠ K.IVD_MEM_ALLOC_FAILED)
    (hnot : ¬(s.mChangingResolution = true ∧ e.op.u4_output_present = 0)) :
    (e.op.u4_error_code &&& 0xFF = K.IVD_RES_CHANGED →
      ∃ s', process.step K work output workIndex e inOffset s
          = Except.ok (Exit.returned, s') ∧
        s'.mAllocatedBlock = s.mAllocatedBlock ∧ s'.mWidth = s.mWidth ∧
        s'.mHeight = s.mHeight ∧ s'.allocations = s.allocations) ∧
    (e.op.u4_error_code &&& 0xFF ≠ K.IVD_RES_CHANGED →
      0 < e.op.u4_pic_wd → 0 < e.op.u4_pic_ht →
      (e.op.u4_pic_wd ≠ s.mWidth ∨ e.op.u4_pic_ht ≠ s.mHeight) →
      (exitState (process.step K work output workIndex e inOffset s)).mAllocatedBlock = none ∧
      (exitState (process.step K work output workIndex e inOffset s)).mWidth
        = e.op.u4_pic_wd ∧
      (exitState (process.step K work output workIndex e inOffset s)).mHeight
        = e.op.u4_pic_ht ∧
      (exitState (process.step K work output workIndex e inOffset s)).allocations
        = s.allocations ∧
      (e.op.u4_output_present = 0 →
        ∃ s', process.step K work output workIndex e inOffset s
          = Except.ok (Exit.fallThrough, s'))) ∧
    (∀ (t : State) (next : C2Work), t.mSignalledError = false → t.mCodecCtx = true →
      next.capacity ≠ 0 →
      (process.endState (process K env t next)).allocations
        = t.allocations ++
          (if t.mAllocatedBlock.isNone then [(t.mWidth, t.mHeight)] else [])) := by
  obtain ⟨bca, fca, upd, hdec⟩ := process.decoded_shape K e (s.call (Call.decode
    (setDecodeArgs s (some work.capacity) (some output) workIndex inOffset).2))
  have halloc := process.step_allocations K work output workIndex e inOffset s
  refine ⟨fun hcode => ?_, fun hcode hwd hht hne => ?_,
    fun t next h1 h2 h3 => process_allocations K env t next h1 h2 h3⟩
  · have hstep := process.step_of_resChanged K work output workIndex e inOffset s hargs hcode
      (fun h => hk1 (hcode.trans h.symm)) (fun h => hk2 (hcode.trans h.symm)) hnot
    rw [hstep] at halloc
    refine ⟨_, hstep, ?_, ?_, ?_, halloc⟩
    · rw [process.beginChange_block, hdec]
      rfl
    · rw [hdec]
      dsimp only [process.beginChange]
      split <;> rfl
    · rw [hdec]
      dsimp only [process.beginChange]
      split <;> rfl
  · have hne' : (e.op.u4_pic_wd != s.mWidth || e.op.u4_pic_ht != s.mHeight) = true := by
      rcases hne with h | h <;> simp [h]
    have hsig : process.signals e.op (process.decoded K e (s.call (Call.decode
        (setDecodeArgs s (some work.capacity) (some output) workIndex inOffset).2)))
        = (Exit.fallThrough, { process.decoded K e (s.call (Call.decode
            (setDecodeArgs s (some work.capacity) (some output) workIndex inOffset).2)) with
          mAllocatedBlock := none, mWidth := e.op.u4_pic_wd, mHeight := e.op.u4_pic_ht }) := by
      rw [hdec]
      simp [process.signals, hwd, hht, hne', State.call]
    have hstep : process.step K work output workIndex e inOffset s
        = match process.output e.op { process.decoded K e (s.call (Call.decode
            (setDecodeArgs s (some work.capacity) (some output) workIndex inOffset).2)) with
          mAllocatedBlock := none, mWidth := e.op.u4_pic_wd, mHeight := e.op.u4_pic_ht } with
          | Except.error c => Except.error c
          | Except.ok s => Except.ok (Exit.fallThrough, s) := by
      dsimp only [process.step]
      rw [if_neg (by simp [hargs]), if_neg (by simpa using fun h => hk1 h.symm),
        if_neg (by simpa using fun h => hk2 h.symm),
        if_neg (by rw [hdec]; simpa [State.call] using hnot),
        if_neg (by simpa using fun h => hcode h.symm), hsig]
    obtain ⟨pend, del, fl, eos, off, hout, -⟩ := process.output_shape e.op
      { process.decoded K e (s.call (Call.decode
          (setDecodeArgs s (some work.capacity) (some output) workIndex inOffset).2)) with
        mAllocatedBlock := none, mWidth := e.op.u4_pic_wd, mHeight := e.op.u4_pic_ht }
    have hexit : exitState (process.step K work output workIndex e inOffset s)
        = finalState (process.output e.op { process.decoded K e (s.call (Call.decode
            (setDecodeArgs s (some work.capacity) (some output) workIndex inOffset).2)) with
          mAllocatedBlock := none, mWidth := e.op.u4_pic_wd, mHeight := e.op.u4_pic_ht }) := by
      rw [hstep]
      cases process.output e.op _ <;> rfl
    refine ⟨by rw [hexit, hout], by rw [hexit, hout], by rw [hexit, hout], halloc,
      fun hnone => ?_⟩
    rw [hstep]
    have hok : ∃ s', process.output e.op { process.decoded K e (s.call (Call.decode
          (setDecodeArgs s (some work.capacity) (some output) workIndex inOffset).2)) with
        mAllocatedBlock := none, mWidth := e.op.u4_pic_wd, mHeight := e.op.u4_pic_ht }
        = Except.ok s' := by
      dsimp only [process.output]
      rw [if_neg (by simp [hnone])]
      split
      · split <;> exact ⟨_, rfl⟩
      · exact ⟨_, rfl⟩
    obtain ⟨s', hs'⟩ := hok
    rw [hs']
    exact ⟨s', rfl⟩

theorem output_block_follows_picture_size_witness :
    (setDecodeArgs State.sampleInFlight (some (C2Work.fresh 2 10 0).capacity)
      (some ⟨320, 240⟩) 2 0).1 = true ∧
    (∃ s', process.step Consts.sample (C2Work.fresh 2 10 0) ⟨320, 240⟩ 2
        ⟨sampleResChange, none, true⟩ 0 State.sampleInFlight
        = Except.ok (Exit.returned, s') ∧
      s'.mAllocatedBlock = State.sampleInFlight.mAllocatedBlock ∧
      s'.mWidth = State.sampleInFlight.mWidth ∧ s'.mHeight = State.sampleInFlight.mHeight ∧
      s'.allocations = State.sampleInFlight.allocations) ∧
    ((exitState (process.step Consts.sample (C2Work.fresh 2 10 0) ⟨320, 240⟩ 2
        ⟨sampleLargerPicture, none, true⟩ 0 State.sampleInFlight)).mAllocatedBlock = none ∧
      (exitState (process.step Consts.sample (C2Work.fresh 2 10 0) ⟨320, 240⟩ 2
        ⟨sampleLargerPicture, none, true⟩ 0 State.sampleInFlight)).mWidth = 640 ∧
      (exitState (process.step Consts.sample (C2Work.fresh 2 10 0) ⟨320, 240⟩ 2
        ⟨sampleLargerPicture, none, true⟩ 0 State.sampleInFlight)).mHeight = 480 ∧
      (exitState (process.step Consts.sample (C2Work.fresh 2 10 0) ⟨320, 240⟩ 2
        ⟨sampleLargerPicture, none, true⟩ 0 State.sampleInFlight)).allocations
        = State.sampleInFlight.allocations ∧
      (sampleLargerPicture.u4_output_present = 0 →
        ∃ s', process.step Consts.sample (C2Work.fresh 2 10 0) ⟨320, 240⟩ 2
          ⟨sampleLargerPicture, none, true⟩ 0 State.sampleInFlight
          = Except.ok (Exit.fallThrough, s'))) ∧
    processQueue Consts.sample (sampleEnv [sampleResizingPicture]) State.sampleInFlight
      = Except.ok State.sampleAfterResize ∧
    State.sampleAfterResize.mAllocatedBlock = none ∧
    (process.endState (process Consts.sample (sampleLargeEnv [sampleResizingPicture])
        State.sampleAfterResize (C2Work.fresh 3 10 0))).allocations
      = State.sampleAfterResize.allocations ++ [(640, 480)] ∧
    State.sampleInFlight.mAllocatedBlock = some ⟨320, 240⟩ ∧
    (process.endState (process Consts.sample (sampleEnv [sampleOp 10 0 0])
        State.sampleInFlight (C2Work.fresh 3 10 0))).allocations
      = State.sampleInFlight.allocations ++ [] :=
  ⟨by decide,
    (output_block_follows_picture_size Consts.sample (sampleEnv []) (C2Work.fresh 2 10 0)
      ⟨320, 240⟩ 2 ⟨sampleResChange, none, true⟩ 0 State.sampleInFlight
      (by decide) (by decide) (by decide) (by decide)).1 (by decide),
    (output_block_follows_picture_size Consts.sample (sampleEnv []) (C2Work.fresh 2 10 0)
      ⟨320, 240⟩ 2 ⟨sampleLargerPicture, none, true⟩ 0 State.sampleInFlight
      (by decide) (by decide) (by decide) (by decide)).2.1 (by decide) (by decide) (by decide)
      (Or.inl (by decide)),
    rfl, rfl,
    (output_block_follows_picture_size Consts.sample
      (sampleLargeEnv [sampleResizingPicture]) (C2Work.fresh 2 10 0)
      ⟨320, 240⟩ 2 ⟨sampleResChange, none, true⟩ 0 State.sampleInFlight
      (by decide) (by decide) (by decide) (by decide)).2.2 State.sampleAfterResize
      (C2Work.fresh 3 10 0) rfl rfl (by decide),
    rfl,
    (output_block_follows_picture_size Consts.sample (sampleEnv [sampleOp 10 0 0])
      (C2Work.fresh 2 10 0) ⟨320, 240⟩ 2 ⟨sampleResChange, none, true⟩ 0 State.sampleInFlight
      (by decide) (by decide) (by decide) (by decide)).2.2 State.sampleInFlight
      (C2Work.fresh 3 10 0) rfl rfl (by decide)⟩

end C2SoftAvcDec
